import Mathlib

/-!
# Cyber Inspector: inspection scheduler and alert pipeline

A shallow embedding of the Go sources

* `internal/model/agent.go`   (Agent, Inspection, Alert)
* `internal/agent/client.go`  (Client.Pull)
* `internal/mailer/mailer.go` (Sender.Send)
* `internal/repository/repository.go` (the repository calls used by the checker)
* `internal/service/checker.go` (checkAgent, processResults, processAlert,
  canSendAlert, sendAlertMail, batchCheck)

Conventions.  Go pointers that may be nil are `Option`; Go `error` values are
`Option String` (`none` is the nil error).  `uint64` identifiers are `Nat`, `int`
and `time.Duration` / `time.Time` values are `Int` (nanoseconds).  The standard
library and the network are parameters: JSON decoding, `Sscanf`, time
formatting, the HTTP transport, the SMTP delivery and the outcome of every
database write are supplied by the caller of each definition.  Logging is
left out.  Calls to collaborators are recorded in an event trace so that the
number and the order of the calls can be stated.
-/

namespace CyberInspector

/-! ## Data model (`internal/model/agent.go`) -/

abbrev AgentStatus := String

abbrev AgentOnline : AgentStatus := "online"

abbrev AgentOffline : AgentStatus := "offline"

abbrev AgentUnknown : AgentStatus := "unknown"

abbrev InspectionLevel := String

abbrev LevelOK : InspectionLevel := "OK"

abbrev LevelWarning : InspectionLevel := "WARNING"

abbrev LevelCritical : InspectionLevel := "CRITICAL"

abbrev AlertStatus := String

abbrev AlertPending : AlertStatus := "pending"

/-- A `float64`, carried as its IEEE-754 bit pattern; the Go zero value `0.0`
is the pattern `0`. -/
abbrev Float64 := Nat

/-- The `model.Agent` record (time stamps left out). -/
structure Agent where
  ID : Nat := 0
  Name : String := ""
  IP : String := ""
  URL : String := ""
  Enabled : Bool := false
  CheckInterval : Int := 0
  APIKey : String := ""
  Status : AgentStatus := ""
deriving DecidableEq, Repr, Inhabited

/-- The `model.Inspection` record.  Every field defaults to the Go zero value,
so a structure instance that names some fields reads like the Go composite
literal it translates. -/
structure Inspection where
  ID : Nat := 0
  AgentID : Nat := 0
  Hostname : String := ""
  IP : String := ""
  RawData : String := ""
  Analysis : String := ""
  Alert : Bool := false
  Level : InspectionLevel := ""
  CPUUsed : Float64 := 0
  MemoryUsed : Float64 := 0
  DiskUsed : Float64 := 0
  LoadAvg : Float64 := 0
  PingLoss : Float64 := 0
  JournalErr1h : Int := 0
  ProcessCount : Int := 0
  TCPConnections : Int := 0
  CreatedAt : Int := 0
deriving DecidableEq, Repr, Inhabited

/-- The `model.Alert` record. -/
structure Alert where
  ID : Nat := 0
  AgentID : Nat := 0
  InspectionID : Nat := 0
  Level : InspectionLevel := ""
  Title : String := ""
  Summary : String := ""
  Details : String := ""
  Solution : String := ""
  Status : AlertStatus := ""
  Notified : Bool := false
  CreatedAt : Int := 0
deriving DecidableEq, Repr, Inhabited

/-! ## Configuration (`internal/config/config.go`) -/

structure CheckConfig where
  Interval : Int := 0
  MaxConcurrent : Int := 0
  RetryTimes : Int := 0
deriving DecidableEq, Repr, Inhabited

structure AlertConfig where
  Enabled : Bool := false
  Cooldown : Int := 0
deriving DecidableEq, Repr, Inhabited

structure MailConfig where
  Enabled : Bool := false
  Host : String := ""
  Port : Int := 0
  User : String := ""
  Pass : String := ""
  To : String := ""
  SubjectPrefix : String := ""
deriving DecidableEq, Repr, Inhabited

structure Config where
  Check : CheckConfig := {}
  Alert : AlertConfig := {}
  Mail : MailConfig := {}
deriving DecidableEq, Repr, Inhabited

/-! ## Standard library and network, as parameters -/

/-- The struct `response` that `Pull` decodes the body into. -/
structure Envelope where
  Hostname : String := ""
  RawData : String := ""
  Analysis : String := ""
deriving DecidableEq, Repr, Inhabited

/-- The struct `content` that `Pull` decodes the analysis document into. -/
structure Content where
  Alert : Bool := false
  Level : InspectionLevel := ""
deriving DecidableEq, Repr, Inhabited

/-- The struct `sysInfo` that `Pull` decodes the raw telemetry into. -/
structure SysInfo where
  CPUUsed : String := ""
  MemUsed : String := ""
  DiskAlert : String := ""
  LoadAvg : String := ""
  PingLoss : String := ""
deriving DecidableEq, Repr, Inhabited

/-- The struct `analysis` that `processAlert` decodes the verdict into. -/
structure AnalysisDoc where
  Summary : String := ""
  Details : List String := []
  Plan : String := ""
deriving DecidableEq, Repr, Inhabited

/-- The library calls the pipeline makes.  `unmarshalEnvelope`,
`unmarshalSysInfo` and `unmarshalAnalysis` return `none` when `json.Unmarshal`
reports an error; `unmarshalContent` returns the struct as `json.Unmarshal`
leaves it, because `Pull` discards that error.  `sscanFloat` is
`fmt.Sscanf(s, "%f", &x)`: `none` leaves `x` untouched.  `formatTime` is
`Time.Format("2006-01-02 15:04:05")`. -/
structure StdLib where
  unmarshalEnvelope : String → Option Envelope
  unmarshalContent : String → Content
  unmarshalSysInfo : String → Option SysInfo
  unmarshalAnalysis : String → Option AnalysisDoc
  sscanFloat : String → Option Float64
  formatTime : Int → String

/-- What one `c.http.Get(url)` followed by `io.ReadAll(resp.Body)` does. -/
inductive HttpReply where
  | getError (err : String)
  | readError (err : String)
  | body (bytes : String)
deriving DecidableEq, Repr, Inhabited

/-! ## `Client.Pull` (`internal/agent/client.go`) -/

/-- The function `Client.Pull`: the returned pair is `(*model.Inspection, error)`. -/
def Pull (lib : StdLib) (get : String → HttpReply) (agent : Agent) :
    Option Inspection × Option String :=
  let url := agent.URL ++ "/inspect"
  match get url with
  | HttpReply.getError _ =>
    (some { AgentID := agent.ID, Hostname := agent.Name, IP := agent.IP, Alert := true,
            Level := LevelCritical,
            Analysis := "\x7b\"summary\":\"Agent unreachable\"\x7d" }, none)
  | HttpReply.readError err => (none, some err)
  | HttpReply.body body =>
    match lib.unmarshalEnvelope body with
    | none =>
      (some { AgentID := agent.ID, Hostname := agent.Name, IP := agent.IP, Alert := true,
              Level := LevelCritical,
              Analysis := "\x7b\"summary\":\"bad response format\"\x7d" }, none)
    | some response =>
      let content := lib.unmarshalContent response.Analysis
      let inspection : Inspection :=
        { AgentID := agent.ID, Hostname := response.Hostname, IP := agent.IP,
          RawData := response.RawData, Analysis := response.Analysis,
          Alert := content.Alert, Level := content.Level }
      match lib.unmarshalSysInfo response.RawData with
      | some sysInfo =>
        (some { inspection with
                CPUUsed := (lib.sscanFloat sysInfo.CPUUsed).getD inspection.CPUUsed,
                MemoryUsed := (lib.sscanFloat sysInfo.MemUsed).getD inspection.MemoryUsed,
                LoadAvg := (lib.sscanFloat sysInfo.LoadAvg).getD inspection.LoadAvg,
                PingLoss := (lib.sscanFloat sysInfo.PingLoss).getD inspection.PingLoss }, none)
      | none => (some inspection, none)

/-! ## `checkAgent` (`internal/service/checker.go`) -/

/-- The record `InspectionResult`. -/
structure InspectionResult where
  Agent : Agent
  Inspection : Option Inspection := none
  Error : Option String := none
  Duration : Int := 0
deriving DecidableEq, Repr, Inhabited

/-- What a `checkAgent` task does to the outside, in order. -/
inductive ProbeEvent where
  | pull (attempt : Nat)
  | sleep (seconds : Nat)
  | send (result : InspectionResult)
deriving DecidableEq, Repr, Inhabited

/-- The environment of one `checkAgent` task: the transport seen by the
attempt with index `i` (counted from 0) and the reading of `time.Since(start)`
after that attempt. -/
structure ProbeEnv where
  get : Nat → String → HttpReply
  elapsed : Nat → Int

/-- The retry loop `for i := 0; i < RetryTimes; i++` of `checkAgent`.  The
first argument bounds the number of iterations still to run; `checkAgent`
passes `RetryTimes`, which the loop never exceeds. -/
def retryLoop (lib : StdLib) (env : ProbeEnv) (retryTimes : Int) (agent : Agent) :
    Nat → Nat → InspectionResult → List ProbeEvent → InspectionResult × List ProbeEvent
  | 0, _, result, trace => (result, trace)
  | fuel + 1, i, result, trace =>
    if (i : Int) < retryTimes then
      match Pull lib (env.get i) agent with
      | (inspection, none) =>
        ({ result with Inspection := inspection, Duration := env.elapsed i },
          trace ++ [ProbeEvent.pull i])
      | (_, some err) =>
        let result := { result with Error := some err }
        if (i : Int) < retryTimes - 1 then
          retryLoop lib env retryTimes agent fuel (i + 1) result
            (trace ++ [ProbeEvent.pull i, ProbeEvent.sleep (i + 1)])
        else
          retryLoop lib env retryTimes agent fuel (i + 1) result (trace ++ [ProbeEvent.pull i])
    else (result, trace)

/-- The function `checkAgent`, after the semaphore slot has been taken: it
returns the result sent on the channel and the trace of the task, whose last
event is that send. -/
def checkAgent (lib : StdLib) (cfg : Config) (env : ProbeEnv) (agent : Agent) :
    InspectionResult × List ProbeEvent :=
  let result : InspectionResult := { Agent := agent, Duration := 0 }
  let out := retryLoop lib env cfg.Check.RetryTimes agent cfg.Check.RetryTimes.toNat 0 result []
  (out.1, out.2 ++ [ProbeEvent.send out.1])

/-! ## Cooldown (`canSendAlert`) -/

/-- The package variable `alertCooldown`, a `map[string]time.Time`. -/
abbrev CooldownMap := String → Option Int

/-- The empty map `make(map[string]time.Time)`. -/
def emptyCooldown : CooldownMap := fun _ => none

/-- The key `fmt.Sprintf("%d-%s", agentID, level)`. -/
def cooldownKey (agentID : Nat) (level : InspectionLevel) : String :=
  toString agentID ++ "-" ++ level

/-- The assignment `alertCooldown[key] = t`. -/
def CooldownMap.set (m : CooldownMap) (key : String) (t : Int) : CooldownMap :=
  fun k => if k = key then some t else m k

/-- The function `canSendAlert`.  `tSince` is the clock reading taken by
`time.Since(lastAlert)` and `tNow` the one taken by `time.Now()` in the same
call; the result is the returned flag and the cooldown map after the call. -/
def canSendAlert (cooldown : Int) (m : CooldownMap) (agentID : Nat) (level : InspectionLevel)
    (tSince tNow : Int) : Bool × CooldownMap :=
  let key := cooldownKey agentID level
  match m key with
  | some lastAlert =>
    if tSince - lastAlert < cooldown then (false, m)
    else (true, m.set key tNow)
  | none => (true, m.set key tNow)

/-! ## `Sender.Send` (`internal/mailer/mailer.go`) -/

/-- The record `mailer.Sender`. -/
structure Sender where
  Host : String := ""
  Port : Int := 0
  User : String := ""
  Pass : String := ""
  To : String := ""
deriving DecidableEq, Repr, Inhabited

/-- The constructor `mailer.NewSender`. -/
def NewSender (host : String) (port : Int) (user pass rcpt : String) : Sender :=
  { Host := host, Port := port, User := user, Pass := pass, To := rcpt }

/-- The predicate `unicode.IsSpace`, which `strings.TrimSpace` cuts by. -/
def isSpace (c : Char) : Bool :=
  let n := c.toNat
  n = 9 || n = 10 || n = 11 || n = 12 || n = 13 || n = 32 || n = 0x85 || n = 0xA0 ||
  n = 0x1680 || (0x2000 ≤ n && n ≤ 0x200A) || n = 0x2028 || n = 0x2029 || n = 0x202F ||
  n = 0x205F || n = 0x3000

/-- The function `strings.TrimSpace`. -/
def trimSpace (s : String) : String :=
  String.mk (((s.data.dropWhile isSpace).reverse.dropWhile isSpace).reverse)

/-- The pieces of `strings.Split(s, ",")`, on character lists. -/
def splitCommaChars : List Char → List (List Char)
  | [] => [[]]
  | c :: cs =>
    if c = ',' then [] :: splitCommaChars cs
    else
      match splitCommaChars cs with
      | [] => [[c]]
      | p :: ps => (c :: p) :: ps

/-- The call `strings.Split(s, ",")`. -/
def splitComma (s : String) : List String :=
  (splitCommaChars s.data).map String.mk

/-- The loop over the recipients in `Sender.Send`.  `deliver k r msg` is what
`sendOne(r, msg)` returns when `k` deliveries were attempted before it in this
call (`none` is success).  The result is the returned error and the
recipients a delivery was attempted to, in order. -/
def sendLoop (deliver : Nat → String → String → Option String) (message : String) :
    List String → List String → Option String × List String
  | [], attempted => (none, attempted)
  | r :: rest, attempted =>
    let recipient := trimSpace r
    if recipient = "" then sendLoop deliver message rest attempted
    else
      match deliver attempted.length recipient message with
      | some err =>
        (some ("发送给 " ++ recipient ++ " 失败: " ++ err), attempted ++ [recipient])
      | none => sendLoop deliver message rest (attempted ++ [recipient])

/-- The method `Sender.Send`. -/
def Sender.Send (deliver : Nat → String → String → Option String) (s : Sender)
    (subject body : String) : Option String × List String :=
  let message := "Subject: " ++ subject ++ "\r\n" ++
    "Content-Type: text/plain; charset=utf-8\r\n" ++ "\r\n" ++ body
  let recipients := splitComma s.To
  sendLoop deliver message recipients []

/-! ## Repository (`internal/repository/repository.go`) -/

/-- The tables the checker reads and writes. -/
structure Database where
  agents : List Agent := []
  inspections : List Inspection := []
  alerts : List Alert := []
deriving DecidableEq, Repr, Inhabited

/-- The method `Repository.GetActiveAgents`; `fail` is the error of the query. -/
def GetActiveAgents (db : Database) (fail : Option String) : Except String (List Agent) :=
  match fail with
  | some err => Except.error err
  | none => Except.ok (db.agents.filter fun a => a.Enabled)

/-- The row that `db.Create(inspection)` writes, which is also the record it
leaves behind the pointer: the auto-increment key and the creation time fill
the fields that are zero, the column default `OK` fills an empty level. -/
def Inspection.stored (i : Inspection) (id : Nat) (now : Int) : Inspection :=
  { i with ID := if i.ID = 0 then id else i.ID,
           CreatedAt := if i.CreatedAt = 0 then now else i.CreatedAt,
           Level := if i.Level = "" then LevelOK else i.Level }

/-- The row that `db.Create(alert)` writes, which is also the record it leaves
behind the pointer: the auto-increment key and the creation time fill the
fields that are zero, the column default `pending` fills an empty status. -/
def Alert.stored (alert : Alert) (id : Nat) (now : Int) : Alert :=
  { alert with ID := if alert.ID = 0 then id else alert.ID,
               CreatedAt := if alert.CreatedAt = 0 then now else alert.CreatedAt,
               Status := if alert.Status = "" then AlertPending else alert.Status }

/-- The method `Repository.SaveInspection`, that is `db.Create(inspection)`.
`outcome` is what the database does with the insert: an error, or the
auto-increment key and the creation time it assigns.  A nil pointer is
refused by gorm before any statement is run.  The result is the database after
the call and either the returned error or the record behind the pointer as
the call leaves it. -/
def SaveInspection (db : Database) (inspection : Option Inspection)
    (outcome : Except String (Nat × Int)) : Database × Except String Inspection :=
  match inspection with
  | none => (db, Except.error "invalid value, should be pointer to struct or slice")
  | some i =>
    match outcome with
    | Except.error err => (db, Except.error err)
    | Except.ok (id, now) =>
      ({ db with inspections := db.inspections ++ [i.stored id now] }, Except.ok (i.stored id now))

/-- The method `Repository.CreateAlert`, that is `db.Create(alert)`; see
`SaveInspection` for `outcome`. -/
def CreateAlert (db : Database) (alert : Alert) (outcome : Except String (Nat × Int)) :
    Database × Except String Alert :=
  match outcome with
  | Except.error err => (db, Except.error err)
  | Except.ok (id, now) =>
    ({ db with alerts := db.alerts ++ [alert.stored id now] }, Except.ok (alert.stored id now))

/-- The method `Repository.UpdateAgentStatus`: sets the column `status` of
the rows whose key is `id`; `fail` is the error of the statement. -/
def UpdateAgentStatus (db : Database) (id : Nat) (status : AgentStatus)
    (fail : Option String) : Database × Option String :=
  match fail with
  | some err => (db, some err)
  | none =>
    ({ db with agents := db.agents.map fun a => if a.ID = id then { a with Status := status } else a },
      none)

/-- The method `Repository.UpdateAlertStatus`: sets the column `status` of the
rows whose key is `id`; `fail` is the error of the statement. -/
def UpdateAlertStatus (db : Database) (id : Nat) (status : AlertStatus)
    (fail : Option String) : Database × Option String :=
  match fail with
  | some err => (db, some err)
  | none =>
    ({ db with alerts := db.alerts.map fun a => if a.ID = id then { a with Status := status } else a },
      none)

/-! ## Alert decision engine (`processAlert`, `sendAlertMail`) -/

/-- The calls the result aggregator and the alert engine make to their
collaborators, in order.  `saveInspection` and `createAlert` carry the record
handed to the repository, `sendOne` the recipient of one delivery attempt. -/
inductive Event where
  | saveInspection (inspection : Option Inspection)
  | updateAgentStatus (id : Nat) (status : AgentStatus)
  | createAlert (alert : Alert)
  | send (subject body : String)
  | sendOne (recipient : String)
  | updateAlertStatus (id : Nat) (status : AlertStatus)
deriving DecidableEq, Repr, Inhabited

/-- The state the pipeline works on: the database, the package variable
`alertCooldown`, and the trace of collaborator calls made so far. -/
structure World where
  db : Database := {}
  cooldown : CooldownMap := emptyCooldown
  trace : List Event := []

/-- The environment of one `processAlert` call: the two clock readings of
`canSendAlert`, the outcome of the alert insert, the SMTP deliveries, and the
error of the status update. -/
structure AlertEnv where
  tSince : Int
  tNow : Int
  createAlert : Except String (Nat × Int)
  deliver : Nat → String → String → Option String
  updateAlertStatus : Option String

/-- The subject line built in `sendAlertMail`. -/
def mailSubject (cfg : Config) (alert : Alert) (agent : Agent) : String :=
  cfg.Mail.SubjectPrefix ++ " " ++ alert.Level ++ " - " ++ agent.Name

/-- The plain-text body built in `sendAlertMail`. -/
def mailBody (lib : StdLib) (alert : Alert) (agent : Agent) : String :=
  "【Cyber Inspector 告警】\n\n节点：" ++ agent.Name ++ "\nIP地址：" ++ agent.IP ++
    "\n告警级别：" ++ alert.Level ++ "\n告警时间：" ++ lib.formatTime alert.CreatedAt ++
    "\n告警摘要：" ++ alert.Summary ++ "\n解决方案：" ++ alert.Solution ++ "\n\n请及时处理！\n"

/-- The function `sendAlertMail`; the second component is the alert record
behind the pointer when the function returns. -/
def sendAlertMail (lib : StdLib) (cfg : Config) (env : AlertEnv) (w : World) (alert : Alert)
    (agent : Agent) : World × Alert :=
  let sender := NewSender cfg.Mail.Host cfg.Mail.Port cfg.Mail.User cfg.Mail.Pass cfg.Mail.To
  let subject := mailSubject cfg alert agent
  let body := mailBody lib alert agent
  let sent := sender.Send env.deliver subject body
  let w := { w with trace := w.trace ++ [Event.send subject body] ++ sent.2.map Event.sendOne }
  match sent.1 with
  | some _ => (w, alert)
  | none =>
    let alert := { alert with Notified := true }
    let updated := UpdateAlertStatus w.db alert.ID AlertPending env.updateAlertStatus
    ({ w with db := updated.1,
              trace := w.trace ++ [Event.updateAlertStatus alert.ID AlertPending] }, alert)

/-- The alert record that `processAlert` builds before it persists it: the
composite literal, then the fields taken from the analysis document when
`json.Unmarshal` accepts it. -/
def newAlert (lib : StdLib) (inspection : Inspection) (agent : Agent) : Alert :=
  let alert : Alert :=
    { AgentID := agent.ID, InspectionID := inspection.ID, Level := inspection.Level,
      Title := agent.Name ++ " - " ++ inspection.Level,
      Summary := "节点 " ++ agent.Name ++ " 出现 " ++ inspection.Level ++ " 级别告警" }
  match lib.unmarshalAnalysis inspection.Analysis with
  | some analysis =>
    { alert with Summary := analysis.Summary, Solution := analysis.Plan,
                 Details := match analysis.Details with
                   | d :: _ => d
                   | [] => alert.Details }
  | none => alert

/-- The function `processAlert`. -/
def processAlert (lib : StdLib) (cfg : Config) (env : AlertEnv) (w : World)
    (inspection : Inspection) (agent : Agent) : World :=
  if !cfg.Alert.Enabled then w
  else if inspection.Level ≠ LevelCritical then w
  else
    let can := canSendAlert cfg.Alert.Cooldown w.cooldown agent.ID inspection.Level
      env.tSince env.tNow
    let w := { w with cooldown := can.2 }
    if !can.1 then w
    else
      let alert := newAlert lib inspection agent
      let created := CreateAlert w.db alert env.createAlert
      let w := { w with db := created.1, trace := w.trace ++ [Event.createAlert alert] }
      match created.2 with
      | Except.error _ => w
      | Except.ok stored =>
        if cfg.Mail.Enabled && cfg.Mail.Host ≠ "" then (sendAlertMail lib cfg env w stored agent).1
        else w

/-! ## Result aggregator (`processResults`) -/

/-- The environment of one iteration of the loop in `processResults`. -/
structure ResultEnv where
  saveInspection : Except String (Nat × Int)
  alert : AlertEnv
  updateAgentStatus : Option String

/-- The counters `successCount` and `failedCount`. -/
structure Tally where
  successCount : Nat := 0
  failedCount : Nat := 0
deriving DecidableEq, Repr, Inhabited

/-- One iteration of `for result := range results` in `processResults`. -/
def processResult (lib : StdLib) (cfg : Config) (env : ResultEnv) (st : World × Tally)
    (result : InspectionResult) : World × Tally :=
  match result.Error with
  | some _ => (st.1, { st.2 with failedCount := st.2.failedCount + 1 })
  | none =>
    let tally := { st.2 with successCount := st.2.successCount + 1 }
    let saved := SaveInspection st.1.db result.Inspection env.saveInspection
    let w := { st.1 with db := saved.1,
                         trace := st.1.trace ++ [Event.saveInspection result.Inspection] }
    match saved.2 with
    | Except.error _ => (w, tally)
    | Except.ok inspection =>
      let w := processAlert lib cfg env.alert w inspection result.Agent
      let updated := UpdateAgentStatus w.db result.Agent.ID AgentOnline env.updateAgentStatus
      ({ w with db := updated.1,
                trace := w.trace ++ [Event.updateAgentStatus result.Agent.ID AgentOnline] }, tally)

/-- The loop of `processResults`; `env k` is the environment of the iteration
that handles the result with index `k`. -/
def processResultsFrom (lib : StdLib) (cfg : Config) (env : Nat → ResultEnv) :
    Nat → List InspectionResult → World × Tally → World × Tally
  | _, [], st => st
  | k, r :: rs, st => processResultsFrom lib cfg env (k + 1) rs (processResult lib cfg (env k) st r)

/-- The figures of the closing log line of `processResults`. -/
structure Report where
  total : Nat
  success : Nat
  failed : Nat
deriving DecidableEq, Repr, Inhabited

/-- The function `processResults`, run on the results the channel delivers. -/
def processResults (lib : StdLib) (cfg : Config) (env : Nat → ResultEnv) (w : World)
    (results : List InspectionResult) : World × Report :=
  let out := processResultsFrom lib cfg env 0 results (w, {})
  (out.1, { total := out.2.successCount + out.2.failedCount,
            success := out.2.successCount, failed := out.2.failedCount })

/-! ## Dispatcher (`batchCheck`) -/

/-- The environment of one cycle: the error of the agent query, the
environment of the task launched for the agent with index `i`, the order in
which the channel delivers what the tasks sent, and the environment of each
iteration of `processResults`. -/
structure CycleEnv where
  getActiveAgents : Option String
  probe : Nat → ProbeEnv
  arrival : List InspectionResult → List InspectionResult
  result : Nat → ResultEnv

/-- The tasks `go c.checkAgent(agent, semaphore, results)` launched by the
loop over the agents, the first of them with index `i`. -/
def launch (lib : StdLib) (cfg : Config) (probe : Nat → ProbeEnv) :
    Nat → List Agent → List (InspectionResult × List ProbeEvent)
  | _, [] => []
  | i, a :: rest => checkAgent lib cfg (probe i) a :: launch lib cfg probe (i + 1) rest

/-- How a cycle ends: the agent query failed, there was no active agent,
`make(chan struct{}, MaxConcurrent)` panicked, `processResults` never returned
because every task is blocked on the semaphore, or `processResults` returned
with its report. -/
inductive CycleOutcome where
  | aborted (err : String)
  | idle
  | panicked (err : String)
  | blocked
  | done (report : Report)
deriving DecidableEq, Repr, Inhabited

/-- The function `batchCheck`.  The semaphore is the channel
`make(chan struct{}, MaxConcurrent)`: with a negative capacity `make` panics
before any task is launched.  With capacity 0 the channel is unbuffered and
its only receive is the deferred one of a task that has already sent, so the
send `semaphore <- struct{}{}` of every task blocks for ever: no task probes
or sends a result, `results` is never closed and `processResults` never
returns.  With a capacity of at least 1 a task that holds a slot runs to its
end and gives the slot back, so every task gets its slot and runs to its end;
the goroutine scheduling and the semaphore then decide only the order in
which results reach the channel, which `env.arrival` stands for.  The last
component is the trace of each launched task. -/
def batchCheck (lib : StdLib) (cfg : Config) (env : CycleEnv) (w : World) :
    World × CycleOutcome × List (List ProbeEvent) :=
  match GetActiveAgents w.db env.getActiveAgents with
  | Except.error err => (w, CycleOutcome.aborted err, [])
  | Except.ok agents =>
    if agents.length = 0 then (w, CycleOutcome.idle, [])
    else if cfg.Check.MaxConcurrent < 0 then
      (w, CycleOutcome.panicked "makechan: size out of range", [])
    else if cfg.Check.MaxConcurrent = 0 then
      (w, CycleOutcome.blocked, agents.map fun _ => [])
    else
      let tasks := launch lib cfg env.probe 0 agents
      let results := env.arrival (tasks.map Prod.fst)
      let out := processResults lib cfg env.result w results
      (out.1, CycleOutcome.done out.2, tasks.map Prod.snd)

/-! ## Runs: repeated calls on the shared state -/

/-- One call `canSendAlert(agentID, level)` with its two clock readings. -/
structure CooldownCall where
  agentID : Nat
  level : InspectionLevel
  tSince : Int
  tNow : Int
deriving DecidableEq, Repr, Inhabited

/-- The flags returned by a sequence of `canSendAlert` calls made one after
another on the cooldown map `m`. -/
def runCanSendAlert (cooldown : Int) : CooldownMap → List CooldownCall → List Bool
  | _, [] => []
  | m, c :: cs =>
    let r := canSendAlert cooldown m c.agentID c.level c.tSince c.tNow
    r.1 :: runCanSendAlert cooldown r.2 cs

/-- The clock never runs backwards: the readings `(tSince, tNow)` of the
calls, taken in order, are non-decreasing and none is below `t`. -/
def clockOrderedFrom : Int → List (Int × Int) → Bool
  | _, [] => true
  | t, (a, b) :: rest => decide (t ≤ a) && decide (a ≤ b) && clockOrderedFrom b rest

/-- The readings of a sequence of calls are non-decreasing. -/
def clockOrdered : List (Int × Int) → Bool
  | [] => true
  | (a, b) :: rest => decide (a ≤ b) && clockOrderedFrom b rest

/-- One call `processAlert(inspection, agent)` with its environment. -/
structure AlertCall where
  env : AlertEnv
  inspection : Inspection
  agent : Agent

/-- A sequence of `processAlert` calls made one after another. -/
def runProcessAlert (lib : StdLib) (cfg : Config) : World → List AlertCall → World
  | w, [] => w
  | w, c :: cs => runProcessAlert lib cfg (processAlert lib cfg c.env w c.inspection c.agent) cs

/-- The alerts of the node `agentID` that a trace hands to `CreateAlert`. -/
def alertsCreatedFor (agentID : Nat) (trace : List Event) : List Alert :=
  trace.filterMap fun e =>
    match e with
    | Event.createAlert a => if a.AgentID = agentID then some a else none
    | _ => none

/-- The window relation of a run: two CRITICAL calls for node `a` lie in one
cooldown window when the later one reads the clock less than the cooldown
after the earlier one. -/
def sameWindow (cooldown : Int) (a : Nat) (ci cj : AlertCall) : Prop :=
  ci.agent.ID = a → cj.agent.ID = a → ci.inspection.Level = LevelCritical →
    cj.inspection.Level = LevelCritical → cj.env.tSince < ci.env.tNow + cooldown

/-- The calls that belong to the alert path: creating an alert, sending mail,
updating an alert. -/
def Event.isAlerting : Event → Bool
  | Event.createAlert _ => true
  | Event.send _ _ => true
  | Event.sendOne _ => true
  | Event.updateAlertStatus _ _ => true
  | _ => false

/-- The records a trace hands to `SaveInspection`, in order. -/
def savedInspections (trace : List Event) : List (Option Inspection) :=
  trace.filterMap fun e =>
    match e with
    | Event.saveInspection i => some i
    | _ => none

/-! ## Example data and measures on traces -/

/-- The analysis verdict of the scenario: CRITICAL, summary `disk full`, plan
`expand volume`. -/
def sampleVerdict : String :=
  "\x7b\"alert\":true,\"level\":\"CRITICAL\",\"summary\":\"disk full\",\"plan\":\"expand volume\"\x7d"

/-- A stand-in for the library on the documents of the examples: it decodes
the envelope `ok`, the verdict `sampleVerdict`, and nothing else. -/
def sampleLib : StdLib where
  unmarshalEnvelope := fun s =>
    if s = "ok" then some { Hostname := "host", RawData := "raw", Analysis := sampleVerdict }
    else none
  unmarshalContent := fun s =>
    if s = sampleVerdict then { Alert := true, Level := LevelCritical } else {}
  unmarshalSysInfo := fun _ => none
  unmarshalAnalysis := fun s =>
    if s = sampleVerdict then some { Summary := "disk full", Plan := "expand volume" } else none
  sscanFloat := fun _ => none
  formatTime := fun _ => "2024-01-01 00:00:00"

/-- A configuration with alerting on, a cooldown of 300 and three attempts. -/
def sampleConfig : Config :=
  { Check := { Interval := 300, MaxConcurrent := 2, RetryTimes := 3 },
    Alert := { Enabled := true, Cooldown := 300 },
    Mail := { Enabled := true, Host := "smtp.example.org", Port := 994, To := "ops@example.org" } }

/-- A node of the inventory. -/
def sampleAgent : Agent :=
  { ID := 7, Name := "db-1", IP := "10.0.0.7", URL := "http://10.0.0.7:9000", Enabled := true }

/-- A CRITICAL outcome of `sampleAgent` whose verdict `sampleLib` decodes. -/
def sampleCritical : Inspection :=
  { ID := 41, AgentID := 7, Hostname := "host", IP := "10.0.0.7", Analysis := sampleVerdict,
    Alert := true, Level := LevelCritical }

/-- An environment of `processAlert` in which every collaborator succeeds,
with the given clock readings. -/
def sampleAlertEnv (tSince tNow : Int) : AlertEnv :=
  { tSince := tSince, tNow := tNow, createAlert := Except.ok (1, tNow),
    deliver := fun _ _ _ => none, updateAlertStatus := none }

/-- Three `canSendAlert` calls for one key: at time 0, inside the window, and
one full cooldown after the first. -/
def sampleCooldownCalls : List CooldownCall :=
  [⟨7, LevelCritical, 0, 0⟩, ⟨7, LevelCritical, 100, 100⟩, ⟨7, LevelCritical, 300, 301⟩]

/-- Two CRITICAL outcomes of `sampleAgent` evaluated 100 apart. -/
def sampleAlertCalls : List AlertCall :=
  [⟨sampleAlertEnv 0 0, sampleCritical, sampleAgent⟩,
   ⟨sampleAlertEnv 100 100, sampleCritical, sampleAgent⟩]

/-- A WARNING outcome of `sampleAgent`. -/
def sampleWarning : Inspection :=
  { ID := 42, AgentID := 7, Hostname := "host", IP := "10.0.0.7", Analysis := sampleVerdict,
    Alert := true, Level := LevelWarning }

/-- The configuration `sampleConfig` with the alert switch off. -/
def sampleConfigOff : Config :=
  { sampleConfig with Alert := { Enabled := false, Cooldown := 300 } }

/-- An environment of one `processResults` iteration in which every
collaborator succeeds; the insert is given the key `id`. -/
def sampleResultEnv (id : Nat) : ResultEnv :=
  { saveInspection := Except.ok (id, 10), alert := sampleAlertEnv 10 10, updateAgentStatus := none }

/-- Two results of one cycle: a CRITICAL outcome without error, and a probe
that ended with an error. -/
def sampleResults : List InspectionResult :=
  [{ Agent := sampleAgent, Inspection := some sampleCritical },
   { Agent := sampleAgent, Error := some "unexpected EOF" }]

/-- The events of the attempts `i, i + 1, ..., i + m - 1` when each of them
fails and is followed by its backoff sleep of `k + 1` seconds. -/
def retriedAttempts (i m : Nat) : List ProbeEvent :=
  (List.range' i m).flatMap fun k => [ProbeEvent.pull k, ProbeEvent.sleep (k + 1)]

/-- The events of the retry loop when all `n` attempts fail: every attempt but
the last is followed by its backoff sleep. -/
def exhaustedAttempts (n : Nat) : List ProbeEvent :=
  retriedAttempts 0 (n - 1) ++ (if n = 0 then [] else [ProbeEvent.pull (n - 1)])

/-- A transport whose first attempt breaks while the body is read and whose
later attempts deliver the envelope `ok`. -/
def sampleFlakyEnv : ProbeEnv :=
  { get := fun i _ => if i = 0 then HttpReply.readError "unexpected EOF" else HttpReply.body "ok",
    elapsed := fun _ => 5 }

/-- The inspection `Pull` builds from the envelope `ok` for `sampleAgent`. -/
def samplePulled : Inspection :=
  { AgentID := 7, Hostname := "host", IP := "10.0.0.7", RawData := "raw", Analysis := sampleVerdict,
    Alert := true, Level := LevelCritical }

/-- The number of calls of `Pull` in the trace of a task. -/
def pullCount (trace : List ProbeEvent) : Nat :=
  (trace.filter fun e =>
    match e with
    | ProbeEvent.pull _ => true
    | _ => false).length

/-- The backoff sleeps in the trace of a task, in seconds and in order. -/
def sleeps (trace : List ProbeEvent) : List Nat :=
  trace.filterMap fun e =>
    match e with
    | ProbeEvent.sleep s => some s
    | _ => none

/-- The synthetic outcome `Pull` returns when the GET itself fails. -/
def unreachableInspection (agent : Agent) : Inspection :=
  { AgentID := agent.ID, Hostname := agent.Name, IP := agent.IP, Alert := true,
    Level := LevelCritical, Analysis := "\x7b\"summary\":\"Agent unreachable\"\x7d" }

/-- The synthetic outcome `Pull` returns when the body is not the envelope. -/
def badFormatInspection (agent : Agent) : Inspection :=
  { AgentID := agent.ID, Hostname := agent.Name, IP := agent.IP, Alert := true,
    Level := LevelCritical, Analysis := "\x7b\"summary\":\"bad response format\"\x7d" }

/-- A transport that refuses every connection. -/
def sampleDownEnv : ProbeEnv :=
  { get := fun _ _ => HttpReply.getError "connection refused", elapsed := fun _ => 5 }

/-- A transport that connects and then breaks while the body is read, on
every attempt. -/
def sampleBrokenEnv : ProbeEnv :=
  { get := fun _ _ => HttpReply.readError "unexpected EOF", elapsed := fun _ => 5 }

/-- The number of results a task sends on the channel. -/
def sendCount (trace : List ProbeEvent) : Nat :=
  (trace.filter fun e =>
    match e with
    | ProbeEvent.send _ => true
    | _ => false).length

/-- A transport that delivers the envelope `ok` on every attempt. -/
def sampleHealthyEnv : ProbeEnv :=
  { get := fun _ _ => HttpReply.body "ok", elapsed := fun _ => 5 }

/-- A cycle over three nodes, the second of which cannot be read; the channel
delivers the results in reverse order. -/
def sampleCycleEnv : CycleEnv :=
  { getActiveAgents := none,
    probe := fun i => if i = 1 then sampleBrokenEnv else sampleHealthyEnv,
    arrival := List.reverse,
    result := sampleResultEnv }

/-- An inventory of three enabled nodes and one disabled node. -/
def sampleWorld : World :=
  { db := { agents := [sampleAgent, { sampleAgent with ID := 8, Name := "db-2" },
                       { sampleAgent with ID := 9, Name := "db-3", Enabled := false },
                       { sampleAgent with ID := 10, Name := "db-4" }] } }

/-- A transport that answers with a body that is not the envelope. -/
def sampleGarbledEnv : ProbeEnv :=
  { get := fun _ _ => HttpReply.body "<html>502</html>", elapsed := fun _ => 5 }

/-- The configuration of the five-node scenario: one attempt per node, at
most two probes at a time. -/
def sampleConfigOnce : Config :=
  { sampleConfig with Check := { Interval := 300, MaxConcurrent := 2, RetryTimes := 1 } }

/-- The third node of the five-node scenario. -/
def sampleThird : Agent :=
  { sampleAgent with ID := 3, Name := "node-3" }

/-- An inventory of five enabled nodes. -/
def sampleFive : World :=
  { db := { agents := [{ sampleAgent with ID := 1, Name := "node-1" },
                       { sampleAgent with ID := 2, Name := "node-2" },
                       sampleThird,
                       { sampleAgent with ID := 4, Name := "node-4" },
                       { sampleAgent with ID := 5, Name := "node-5" }] } }

/-- The five-node scenario: node #3 always answers with a malformed body, the
other nodes with the envelope `ok`. -/
def sampleFiveEnv : CycleEnv :=
  { getActiveAgents := none,
    probe := fun i => if i = 2 then sampleGarbledEnv else sampleHealthyEnv,
    arrival := id,
    result := sampleResultEnv }

/-- The records a trace hands to `CreateAlert`, in order. -/
def createdAlerts (trace : List Event) : List Alert :=
  trace.filterMap fun e =>
    match e with
    | Event.createAlert a => some a
    | _ => none

/-- The number of calls of `sender.Send` in a trace. -/
def sendCalls (trace : List Event) : Nat :=
  (trace.filter fun e =>
    match e with
    | Event.send _ _ => true
    | _ => false).length

/-- A second CRITICAL outcome of `sampleAgent`, from a later cycle. -/
def sampleCriticalLater : Inspection :=
  { sampleCritical with ID := 58 }

/-- An environment of `processAlert` like `sampleAlertEnv` whose insert is
given the key `id`. -/
def sampleAlertEnvWithKey (id : Nat) (tSince tNow : Int) : AlertEnv :=
  { sampleAlertEnv tSince tNow with createAlert := Except.ok (id, tNow) }

/-- The status updates a trace hands to `UpdateAgentStatus`, in order. -/
def statusUpdates (trace : List Event) : List (Nat × AgentStatus) :=
  trace.filterMap fun e =>
    match e with
    | Event.updateAgentStatus id status => some (id, status)
    | _ => none

/-- The state right after `SaveInspection` has accepted the record `i`: the
row is in the table and the call is in the trace. -/
def savedWorld (w : World) (i : Inspection) (id : Nat) (now : Int) : World :=
  { w with db := { w.db with inspections := w.db.inspections ++ [i.stored id now] },
           trace := w.trace ++ [Event.saveInspection (some i)] }

/-- The state after the call `UpdateAgentStatus(agent.ID, online)` that ends
an iteration of `processResults`. -/
def statusUpdated (w : World) (agent : Agent) (fail : Option String) : World :=
  { w with db := (UpdateAgentStatus w.db agent.ID AgentOnline fail).1,
           trace := w.trace ++ [Event.updateAgentStatus agent.ID AgentOnline] }

/-- The environments of a cycle in which the inspection insert of the first
iteration fails and the alert insert of the second iteration fails. -/
def sampleFailingEnv (k : Nat) : ResultEnv :=
  if k = 0 then
    { saveInspection := Except.error "Error 1040: Too many connections",
      alert := sampleAlertEnv 10 10, updateAgentStatus := none }
  else if k = 1 then
    { saveInspection := Except.ok (k, 10),
      alert := { sampleAlertEnv 10 10 with
                 createAlert := Except.error "Error 1040: Too many connections" },
      updateAgentStatus := none }
  else sampleResultEnv k

/-- Three error-free results of one cycle, for three nodes. -/
def sampleThreeResults : List InspectionResult :=
  [{ Agent := sampleAgent, Inspection := some samplePulled },
   { Agent := { sampleAgent with ID := 8, Name := "db-2" },
     Inspection := some { samplePulled with AgentID := 8 } },
   { Agent := { sampleAgent with ID := 9, Name := "db-3" },
     Inspection := some { samplePulled with AgentID := 9 } }]

/-- The calls of a trace that notify: `Send` and the delivery attempts it
makes. -/
def mailEvents (trace : List Event) : List Event :=
  trace.filter fun e =>
    match e with
    | Event.send _ _ => true
    | Event.sendOne _ => true
    | _ => false

/-- An environment of `processAlert` whose insert succeeds with key 1 and
whose SMTP delivery is refused. -/
def sampleMailDownEnv : AlertEnv :=
  { sampleAlertEnv 0 0 with deliver := fun _ _ _ => some "TLS 连接失败: connection refused" }

/-- An environment of `processAlert` whose alert insert fails. -/
def sampleCreateDownEnv : AlertEnv :=
  { sampleAlertEnv 0 0 with createAlert := Except.error "Error 1040: Too many connections" }

/-- A stand-in for the library that also decodes two envelopes whose analysis
document has no level field (`nolevel`) or the level `FATAL` (`fatal`). -/
def sampleLooseLib : StdLib :=
  { sampleLib with
    unmarshalEnvelope := fun s =>
      if s = "nolevel" then some { Hostname := "host", RawData := "raw", Analysis := "\x7b\x7d" }
      else if s = "fatal" then
        some { Hostname := "host", RawData := "raw",
               Analysis := "\x7b\"alert\":true,\"level\":\"FATAL\"\x7d" }
      else sampleLib.unmarshalEnvelope s,
    unmarshalContent := fun s =>
      if s = "\x7b\"alert\":true,\"level\":\"FATAL\"\x7d" then { Alert := true, Level := "FATAL" }
      else sampleLib.unmarshalContent s }

/-- A CRITICAL outcome of `sampleAgent` whose analysis text is not JSON. -/
def sampleUnparsed : Inspection :=
  { sampleCritical with Analysis := "upstream timed out" }

/-! ## Scheduler lifecycle (`Start`, `Stop`) -/

/-- The lifecycle state of a `Checker`.  Every `Start` makes a fresh context;
contexts are numbered in the order of their creation.  `loops` are the live
ticking loops, each named by the context whose `Done` channel it watches;
`cancel` is the field `c.cancel`, named by the context its function cancels
(`none` is nil); `cycles` counts the `go c.batchCheck()` launched so far. -/
structure Scheduler where
  contexts : Nat := 0
  loops : List Nat := []
  cancel : Option Nat := none
  cycles : Nat := 0
deriving DecidableEq, Repr, Inhabited

/-- The state after `NewChecker`: no loop, no cancel handle. -/
def Scheduler.init : Scheduler := {}

/-- The method `Checker.Start`: a fresh context whose cancel function is
stored in `c.cancel`, an immediate cycle, and a new ticking loop watching the
fresh context.  Nothing is done about a loop that is already running. -/
def Scheduler.Start (s : Scheduler) : Scheduler :=
  { contexts := s.contexts + 1,
    loops := s.loops ++ [s.contexts],
    cancel := some s.contexts,
    cycles := s.cycles + 1 }

/-- The method `Checker.Stop`: when `c.cancel` is not nil, its context is
cancelled, which ends the loop that watches it, and the field is set to nil. -/
def Scheduler.Stop (s : Scheduler) : Scheduler :=
  match s.cancel with
  | some ctx => { s with loops := s.loops.filter fun l => l ≠ ctx, cancel := none }
  | none => s

/-- A tick of the ticker of the loop `ctx`: a live loop launches a cycle. -/
def Scheduler.tick (s : Scheduler) (ctx : Nat) : Scheduler :=
  if ctx ∈ s.loops then { s with cycles := s.cycles + 1 } else s

/-! ## Semaphore of a cycle (`batchCheck`, `checkAgent`) -/

/-- Where a `checkAgent` task stands with respect to the semaphore: blocked
on `semaphore <- struct{}{}`, holding a slot outside `Pull` (between attempts,
asleep, or sending its result), inside a call of `Pull`, or returned (the
deferred `<-semaphore` has run). -/
inductive TaskPhase where
  | waiting
  | holding
  | pulling
  | finished
deriving DecidableEq, Repr, Inhabited

/-- The concurrency state of one cycle: the capacity of the channel
`make(chan struct{}, MaxConcurrent)`, the number of values buffered in it,
and the phase of the task of each agent. -/
structure Cycle where
  capacity : Int
  semaphore : Nat := 0
  tasks : List TaskPhase := []
deriving DecidableEq, Repr, Inhabited

/-- The state of a cycle right after the tasks of `m` agents are launched. -/
def Cycle.launched (capacity : Int) (m : Nat) : Cycle :=
  { capacity := capacity, semaphore := 0, tasks := List.replicate m TaskPhase.waiting }

/-- The moves of the tasks that the scheduler may interleave in any order. -/
inductive TaskStep where
  | acquire (i : Nat)
  | beginPull (i : Nat)
  | endPull (i : Nat)
  | release (i : Nat)
deriving DecidableEq, Repr, Inhabited

/-- One move.  A send on the buffered channel goes through only while fewer
than `capacity` values are buffered; otherwise the task stays blocked.  A
move that the task `i` is not ready for leaves the state as it is. -/
def Cycle.step (c : Cycle) : TaskStep → Cycle
  | TaskStep.acquire i =>
    if c.tasks[i]? = some TaskPhase.waiting ∧ (c.semaphore : Int) < c.capacity then
      { c with semaphore := c.semaphore + 1, tasks := c.tasks.set i TaskPhase.holding }
    else c
  | TaskStep.beginPull i =>
    if c.tasks[i]? = some TaskPhase.holding then
      { c with tasks := c.tasks.set i TaskPhase.pulling }
    else c
  | TaskStep.endPull i =>
    if c.tasks[i]? = some TaskPhase.pulling then
      { c with tasks := c.tasks.set i TaskPhase.holding }
    else c
  | TaskStep.release i =>
    if c.tasks[i]? = some TaskPhase.holding then
      { c with semaphore := c.semaphore - 1, tasks := c.tasks.set i TaskPhase.finished }
    else c

/-- A schedule: the moves of the tasks in the order the scheduler runs them. -/
def Cycle.run (c : Cycle) : List TaskStep → Cycle
  | [] => c
  | a :: rest => Cycle.run (c.step a) rest

/-- A task holds a slot of the semaphore from its send on the channel to its
deferred receive. -/
def TaskPhase.hasSlot : TaskPhase → Bool
  | TaskPhase.holding => true
  | TaskPhase.pulling => true
  | _ => false

/-- A task is in flight while it is inside a call of `Pull`. -/
def TaskPhase.isPulling : TaskPhase → Bool
  | TaskPhase.pulling => true
  | _ => false

/-- The number of tasks that hold a slot of the semaphore. -/
def Cycle.slotsHeld (c : Cycle) : Nat :=
  c.tasks.countP TaskPhase.hasSlot

/-- The number of probes in flight: tasks inside a call of `Pull`. -/
def Cycle.inFlight (c : Cycle) : Nat :=
  c.tasks.countP TaskPhase.isPulling

/-- A schedule over three tasks with capacity two in which the third task
tries to take a slot while the first two are probing. -/
def sampleSchedule : List TaskStep :=
  [TaskStep.acquire 0, TaskStep.acquire 1, TaskStep.acquire 2, TaskStep.beginPull 0,
   TaskStep.beginPull 1, TaskStep.beginPull 2, TaskStep.endPull 0, TaskStep.release 0,
   TaskStep.acquire 2, TaskStep.beginPull 2]

/-- The configuration `sampleConfig` with `retry_times` set to 0. -/
def sampleConfigNoRetry : Config :=
  { sampleConfig with Check := { Interval := 300, MaxConcurrent := 2, RetryTimes := 0 } }

/-! ## `CheckPassword` (`internal/repository/repository.go`) -/

/-- The function `strings.HasPrefix`. -/
def hasPrefix (s pre : String) : Bool :=
  pre.data.isPrefixOf s.data

/-- The function `CheckPassword`.  `compareHashAndPassword hash pwd` is the
error `bcrypt.CompareHashAndPassword` returns (`none` is a match); `len(hash)`
is the length of the stored value in bytes. -/
def CheckPassword (compareHashAndPassword : String → String → Option String)
    (plainPwd hash : String) : Bool :=
  if hash.utf8ByteSize ≠ 60 || !hasPrefix hash "$2" then decide (plainPwd = hash)
  else
    match compareHashAndPassword hash plainPwd with
    | none => true
    | some _ => false

/-- A stored value of 60 ASCII characters that starts with `$2`. -/
def sampleHash : String :=
  "$2a$10$N9qo8uLOickgx2ZMRZoMyeIjZAgcfl7p92ldGxad68LJZdL17lhWy"

/-- A stand-in for bcrypt that accepts the password `secret` for `sampleHash`
and nothing else. -/
def sampleBcrypt (hash pwd : String) : Option String :=
  if hash = sampleHash ∧ pwd = "secret" then none
  else some "crypto/bcrypt: hashedPassword is not the hash of the given password"

/-- The recipients of a `To` field as the specification describes them: the
parts between commas, each trimmed, without the blank ones, in order. -/
def recipientsOf (rcpt : String) : List String :=
  ((splitComma rcpt).map trimSpace).filter fun r => decide (r ≠ "")

/-- The message `Sender.Send` builds from the subject and the body. -/
def smtpMessage (subject body : String) : String :=
  "Subject: " ++ subject ++ "\r\n" ++ "Content-Type: text/plain; charset=utf-8\r\n" ++ "\r\n" ++ body

/-- The configuration `sampleConfig` with a `To` field that has no non-blank
part. -/
def sampleConfigBlankTo : Config :=
  { sampleConfig with Mail := { sampleConfig.Mail with To := " , ,\t" } }

/-- A mail server that refuses the second delivery attempt of a `Send` call and
accepts the others. -/
def sampleSecondDown (k : Nat) (_ _ : String) : Option String :=
  if k = 1 then some "认证失败: 535 authentication failed" else none

/-- The number a list of decimal digit characters stands for, most significant
digit first. -/
def decimalValue (cs : List Char) : Nat :=
  cs.foldl (fun acc c => 10 * acc + (c.toNat - 48)) 0

/-- A transport whose first attempt breaks while the body is read and whose
later attempts answer with a body that is not the envelope. -/
def sampleGarbledRetryEnv : ProbeEnv :=
  { get := fun i _ =>
      if i = 0 then HttpReply.readError "unexpected EOF" else HttpReply.body "<html>502</html>",
    elapsed := fun _ => 5 }

/-- The schedule that runs the tasks `i, i + 1, ..., i + r - 1` one after
another, each from its send on the semaphore to its deferred receive with one
call of `Pull` in between. -/
def Cycle.oneByOne (i r : Nat) : List TaskStep :=
  (List.range' i r).flatMap fun j =>
    [TaskStep.acquire j, TaskStep.beginPull j, TaskStep.endPull j, TaskStep.release j]

/-- The configuration `sampleConfig` with `max_concurrent` set to 0. -/
def sampleConfigNoSlots : Config :=
  { sampleConfig with Check := { Interval := 300, MaxConcurrent := 0, RetryTimes := 3 } }

/-- The configuration `sampleConfig` with `max_concurrent` set to -1. -/
def sampleConfigNegativeSlots : Config :=
  { sampleConfig with Check := { Interval := 300, MaxConcurrent := -1, RetryTimes := 3 } }

/-! ## Theorems -/

/-- The bound that `checkAgent` passes to the retry loop is enough: once the
bound covers the attempts left before `retryTimes`, a larger bound gives the
same result, so the loop of the model ends where the Go loop ends. -/
theorem retryLoop_fuel_enough (lib : StdLib) (env : ProbeEnv) (retryTimes : Int)
    (agent : Agent) :
    ∀ (fuel i : Nat) (result : InspectionResult) (trace : List ProbeEvent) (extra : Nat),
      retryTimes ≤ ((i + fuel : Nat) : Int) →
      retryLoop lib env retryTimes agent (fuel + extra) i result trace =
        retryLoop lib env retryTimes agent fuel i result trace := by
  intro fuel
  induction fuel with
  | zero =>
    intro i result trace extra h
    have hi : ¬ ((i : Int) < retryTimes) := by simpa using h
    cases extra with
    | zero => rfl
    | succ e =>
      simp only [Nat.zero_add]
      unfold retryLoop
      simp [hi]
  | succ f ih =>
    intro i result trace extra h
    have hstep : retryTimes ≤ ((i + 1 + f : Nat) : Int) := by
      have : i + 1 + f = i + (f + 1) := by omega
      rw [this]; exact h
    have hadd : f + 1 + extra = (f + extra) + 1 := by omega
    rw [hadd]
    unfold retryLoop
    split
    · split
      · rfl
      · split
        · exact ih (i + 1) _ _ extra hstep
        · exact ih (i + 1) _ _ extra hstep
    · rfl

/-- Entries of the cooldown map after a call are readings of the clock: none
is later than the `tNow` of the call, provided none was before. -/
theorem canSendAlert_entries_le (d : Int) (m : CooldownMap) (a : Nat) (l : InspectionLevel)
    (s n T : Int) (hm : ∀ k t, m k = some t → t ≤ T) (hT : T ≤ n) :
    ∀ k t, (canSendAlert d m a l s n).2 k = some t → t ≤ n := by
  intro k t hk
  have hset : ∀ k t, (m.set (cooldownKey a l) n) k = some t → t ≤ n := by
    intro k t h
    unfold CooldownMap.set at h
    split at h
    · cases h; exact le_refl _
    · exact le_trans (hm k t h) hT
  unfold canSendAlert at hk
  simp only at hk
  split at hk
  · split at hk
    · exact le_trans (hm k t hk) hT
    · exact hset k t hk
  · exact hset k t hk

/-- A call that returns true found either no entry for its key or one that is
at least the cooldown old. -/
theorem canSendAlert_true_old (d : Int) (m : CooldownMap) (a : Nat) (l : InspectionLevel)
    (s n t : Int) (h : (canSendAlert d m a l s n).1 = true)
    (hk : m (cooldownKey a l) = some t) : t + d ≤ s := by
  unfold canSendAlert at h
  simp only [hk] at h
  split at h
  · cases h
  · omega

/-- A call that returns true stores its `tNow` under its key. -/
theorem canSendAlert_true_sets (d : Int) (m : CooldownMap) (a : Nat) (l : InspectionLevel)
    (s n : Int) (h : (canSendAlert d m a l s n).1 = true) :
    (canSendAlert d m a l s n).2 (cooldownKey a l) = some n := by
  unfold canSendAlert at h ⊢
  simp only at h ⊢
  split
  · rename_i t ht
    simp only [ht] at h
    split
    · rename_i hlt; simp [hlt] at h
    · simp [CooldownMap.set]
  · simp [CooldownMap.set]

/-- An entry only moves forward: after a call, the entry of any key that had
one is at least what it was. -/
theorem canSendAlert_entry_mono (d : Int) (m : CooldownMap) (a : Nat) (l : InspectionLevel)
    (s n T : Int) (hm : ∀ k t, m k = some t → t ≤ T) (hT : T ≤ n) (k : String) (t : Int)
    (hk : m k = some t) : ∃ u, (canSendAlert d m a l s n).2 k = some u ∧ t ≤ u := by
  have hset : ∃ u, (m.set (cooldownKey a l) n) k = some u ∧ t ≤ u := by
    unfold CooldownMap.set
    split
    · exact ⟨n, rfl, le_trans (hm k t hk) hT⟩
    · exact ⟨t, hk, le_refl _⟩
  unfold canSendAlert
  simp only
  split
  · split
    · exact ⟨t, hk, le_refl _⟩
    · exact hset
  · exact hset

/-- Spacing of the calls that return true, from any cooldown map whose
entries are not in the future: such a call comes at least the cooldown after
the entry of its key and after every earlier call of its key that returned
true. -/
theorem runCanSendAlert_spacing_aux (d : Int) :
    ∀ (cs : List CooldownCall) (m : CooldownMap) (T : Int),
      (∀ k t, m k = some t → t ≤ T) →
      clockOrderedFrom T (cs.map fun c => (c.tSince, c.tNow)) = true →
      ∀ (j : Nat) (cj : CooldownCall), cs[j]? = some cj →
        (runCanSendAlert d m cs)[j]? = some true →
        (∀ t, m (cooldownKey cj.agentID cj.level) = some t → t + d ≤ cj.tSince) ∧
        (∀ (i : Nat) (ci : CooldownCall), i < j → cs[i]? = some ci →
          ci.agentID = cj.agentID → ci.level = cj.level →
          (runCanSendAlert d m cs)[i]? = some true → ci.tNow + d ≤ cj.tSince) := by
  intro cs
  induction cs with
  | nil => intro m T _ _ j cj hj; simp at hj
  | cons c cs ih =>
    intro m T hm hclk j cj hj hr
    simp only [List.map_cons, clockOrderedFrom, Bool.and_eq_true, decide_eq_true_eq] at hclk
    obtain ⟨⟨hTs, hsn⟩, hrest⟩ := hclk
    have hTn : T ≤ c.tNow := le_trans hTs hsn
    have hm2 := canSendAlert_entries_le d m c.agentID c.level c.tSince c.tNow T hm hTn
    cases j with
    | zero =>
      simp only [List.getElem?_cons_zero, Option.some.injEq] at hj
      subst hj
      simp only [runCanSendAlert, List.getElem?_cons_zero, Option.some.injEq] at hr
      refine ⟨fun t ht => canSendAlert_true_old d m _ _ _ _ t hr ht, ?_⟩
      intro i ci hi
      omega
    | succ j =>
      simp only [List.getElem?_cons_succ] at hj
      simp only [runCanSendAlert, List.getElem?_cons_succ] at hr
      obtain ⟨h1, h2⟩ := ih _ c.tNow hm2 hrest j cj hj hr
      refine ⟨?_, ?_⟩
      · intro t ht
        obtain ⟨u, hu, htu⟩ := canSendAlert_entry_mono d m c.agentID c.level c.tSince c.tNow T
          hm hTn _ t ht
        have := h1 u hu
        omega
      · intro i ci hi hci hid hlv hri
        cases i with
        | zero =>
          simp only [List.getElem?_cons_zero, Option.some.injEq] at hci
          subst hci
          simp only [runCanSendAlert, List.getElem?_cons_zero, Option.some.injEq] at hri
          have hset := canSendAlert_true_sets d m c.agentID c.level c.tSince c.tNow hri
          have hkey : cooldownKey c.agentID c.level = cooldownKey cj.agentID cj.level := by
            rw [hid, hlv]
          rw [hkey] at hset
          exact h1 _ hset
        | succ i =>
          simp only [List.getElem?_cons_succ] at hci
          simp only [runCanSendAlert, List.getElem?_cons_succ] at hri
          exact h2 i ci (by omega) hci hid hlv hri

/-- The ordering from a lower bound follows from the plain ordering, the
lower bound being the first reading. -/
theorem clockOrdered_from (p : Int × Int) (rest : List (Int × Int))
    (h : clockOrdered (p :: rest) = true) : clockOrderedFrom p.1 (p :: rest) = true := by
  obtain ⟨a, b⟩ := p
  simp only [clockOrdered, Bool.and_eq_true, decide_eq_true_eq] at h
  simp only [clockOrderedFrom, Bool.and_eq_true, decide_eq_true_eq]
  exact ⟨⟨le_refl _, h.1⟩, h.2⟩

/-- The alerts found in a trace put together from two parts. -/
theorem alertsCreatedFor_append (a : Nat) (t1 t2 : List Event) :
    alertsCreatedFor a (t1 ++ t2) = alertsCreatedFor a t1 ++ alertsCreatedFor a t2 := by
  simp [alertsCreatedFor, List.filterMap_append]

/-- The mail step leaves the cooldown map alone and hands no alert to
`CreateAlert`. -/
theorem sendAlertMail_frame (lib : StdLib) (cfg : Config) (env : AlertEnv) (w : World)
    (alert : Alert) (agent : Agent) (a : Nat) :
    (sendAlertMail lib cfg env w alert agent).1.cooldown = w.cooldown ∧
    ∃ evs, (sendAlertMail lib cfg env w alert agent).1.trace = w.trace ++ evs ∧
      alertsCreatedFor a evs = [] := by
  unfold sendAlertMail
  simp only
  split
  · refine ⟨rfl, _, List.append_assoc _ _ _, ?_⟩
    simp [alertsCreatedFor, List.filterMap_append, List.filterMap_map]
  · refine ⟨rfl, [Event.send (mailSubject cfg alert agent) (mailBody lib alert agent)] ++
      (List.map Event.sendOne (Sender.Send env.deliver
        (NewSender cfg.Mail.Host cfg.Mail.Port cfg.Mail.User cfg.Mail.Pass cfg.Mail.To)
        (mailSubject cfg alert agent) (mailBody lib alert agent)).2 ++
      [Event.updateAlertStatus alert.ID AlertPending]), ?_, ?_⟩
    · simp only [List.append_assoc]
    · simp [alertsCreatedFor, List.filterMap_append, List.filterMap_map]

/-- With the alert switch off, or a level other than CRITICAL, `processAlert`
returns the state it was given. -/
theorem processAlert_skip (lib : StdLib) (cfg : Config) (env : AlertEnv) (w : World)
    (inspection : Inspection) (agent : Agent)
    (h : cfg.Alert.Enabled = false ∨ inspection.Level ≠ LevelCritical) :
    processAlert lib cfg env w inspection agent = w := by
  unfold processAlert
  rcases h with h | h
  · simp [h]
  · simp [h]

/-- With the alert switch on and a CRITICAL outcome, a cooldown check that
fails changes nothing but the (unchanged) cooldown map. -/
theorem processAlert_suppressed (lib : StdLib) (cfg : Config) (env : AlertEnv) (w : World)
    (inspection : Inspection) (agent : Agent) (hen : cfg.Alert.Enabled = true)
    (hlv : inspection.Level = LevelCritical)
    (hcan : (canSendAlert cfg.Alert.Cooldown w.cooldown agent.ID inspection.Level
      env.tSince env.tNow).1 = false) :
    processAlert lib cfg env w inspection agent =
      { w with cooldown := (canSendAlert cfg.Alert.Cooldown w.cooldown agent.ID inspection.Level
          env.tSince env.tNow).2 } := by
  unfold processAlert
  simp [hen, hlv] at hcan ⊢
  simp [hcan]

/-- With the alert switch on and a CRITICAL outcome that passes the cooldown
check, `processAlert` stores the new cooldown map, hands exactly the record
`newAlert` to `CreateAlert`, and whatever follows hands over no other alert. -/
theorem processAlert_raised (lib : StdLib) (cfg : Config) (env : AlertEnv) (w : World)
    (inspection : Inspection) (agent : Agent) (hen : cfg.Alert.Enabled = true)
    (hlv : inspection.Level = LevelCritical)
    (hcan : (canSendAlert cfg.Alert.Cooldown w.cooldown agent.ID inspection.Level
      env.tSince env.tNow).1 = true) (a : Nat) :
    (processAlert lib cfg env w inspection agent).cooldown =
      (canSendAlert cfg.Alert.Cooldown w.cooldown agent.ID inspection.Level
        env.tSince env.tNow).2 ∧
    ∃ evs, (processAlert lib cfg env w inspection agent).trace =
        w.trace ++ Event.createAlert (newAlert lib inspection agent) :: evs ∧
      alertsCreatedFor a evs = [] := by
  unfold processAlert
  simp [hen, hlv] at hcan ⊢
  simp only [hcan, Bool.true_eq_false, if_false]
  split
  · exact ⟨rfl, [], by simp, rfl⟩
  · rename_i stored _
    split
    · obtain ⟨h1, evs, h2, h3⟩ := sendAlertMail_frame lib cfg env
        { db := (CreateAlert w.db (newAlert lib inspection agent) env.createAlert).1,
          cooldown := (canSendAlert cfg.Alert.Cooldown w.cooldown agent.ID LevelCritical
            env.tSince env.tNow).2,
          trace := w.trace ++ [Event.createAlert (newAlert lib inspection agent)] }
        stored agent a
      refine ⟨h1, evs, ?_, h3⟩
      rw [h2]
      simp
    · exact ⟨rfl, [], by simp, rfl⟩

/-- The cooldown map after `processAlert` is the old one or the one
`canSendAlert` returns. -/
theorem processAlert_cooldown (lib : StdLib) (cfg : Config) (env : AlertEnv) (w : World)
    (inspection : Inspection) (agent : Agent) :
    (processAlert lib cfg env w inspection agent).cooldown = w.cooldown ∨
    (processAlert lib cfg env w inspection agent).cooldown =
      (canSendAlert cfg.Alert.Cooldown w.cooldown agent.ID inspection.Level
        env.tSince env.tNow).2 := by
  by_cases hen : cfg.Alert.Enabled = true
  · by_cases hlv : inspection.Level = LevelCritical
    · right
      cases hcan : (canSendAlert cfg.Alert.Cooldown w.cooldown agent.ID inspection.Level
        env.tSince env.tNow).1
      · rw [processAlert_suppressed lib cfg env w inspection agent hen hlv hcan]
      · exact (processAlert_raised lib cfg env w inspection agent hen hlv hcan 0).1
    · left; rw [processAlert_skip lib cfg env w inspection agent (Or.inr hlv)]
  · left
    rw [processAlert_skip lib cfg env w inspection agent (Or.inl (by simpa using hen))]

/-- The alerts of node `a` that one `processAlert` call hands to
`CreateAlert`: none, or exactly one, and then the call was for node `a`, at
level CRITICAL, with the switch on and the cooldown check passed. -/
theorem processAlert_created (lib : StdLib) (cfg : Config) (env : AlertEnv) (w : World)
    (inspection : Inspection) (agent : Agent) (a : Nat) :
    ∃ evs, (processAlert lib cfg env w inspection agent).trace = w.trace ++ evs ∧
      (alertsCreatedFor a evs = [] ∨
        (alertsCreatedFor a evs = [newAlert lib inspection agent] ∧ agent.ID = a ∧
          cfg.Alert.Enabled = true ∧ inspection.Level = LevelCritical ∧
          (canSendAlert cfg.Alert.Cooldown w.cooldown agent.ID inspection.Level
            env.tSince env.tNow).1 = true)) := by
  by_cases hen : cfg.Alert.Enabled = true
  · by_cases hlv : inspection.Level = LevelCritical
    · cases hcan : (canSendAlert cfg.Alert.Cooldown w.cooldown agent.ID inspection.Level
        env.tSince env.tNow).1
      · rw [processAlert_suppressed lib cfg env w inspection agent hen hlv hcan]
        exact ⟨[], by simp, Or.inl rfl⟩
      · obtain ⟨_, evs, h2, h3⟩ := processAlert_raised lib cfg env w inspection agent hen hlv hcan a
        refine ⟨_, h2, ?_⟩
        have hid : (newAlert lib inspection agent).AgentID = agent.ID := by
          unfold newAlert
          simp only
          split <;> rfl
        by_cases ha : agent.ID = a
        · right
          refine ⟨?_, ha, hen, hlv, rfl⟩
          have : alertsCreatedFor a (Event.createAlert (newAlert lib inspection agent) :: evs) =
              newAlert lib inspection agent :: alertsCreatedFor a evs := by
            simp [alertsCreatedFor, hid, ha]
          rw [this, h3]
        · left
          have : alertsCreatedFor a (Event.createAlert (newAlert lib inspection agent) :: evs) =
              alertsCreatedFor a evs := by
            simp [alertsCreatedFor, hid, ha]
          rw [this, h3]
    · rw [processAlert_skip lib cfg env w inspection agent (Or.inr hlv)]
      exact ⟨[], by simp, Or.inl rfl⟩
  · rw [processAlert_skip lib cfg env w inspection agent (Or.inl (by simpa using hen))]
    exact ⟨[], by simp, Or.inl rfl⟩

/-- Within the cooldown of an existing entry no alert is raised: if the map
holds `t` for the key of node `a` at CRITICAL and every CRITICAL call for
`a` in the run reads the clock before `t + cooldown`, the run hands no alert
of `a` to `CreateAlert`. -/
theorem runProcessAlert_quiet (lib : StdLib) (cfg : Config) (a : Nat) :
    ∀ (cs : List AlertCall) (w : World) (T t : Int),
      (∀ k u, w.cooldown k = some u → u ≤ T) →
      clockOrderedFrom T (cs.map fun c => (c.env.tSince, c.env.tNow)) = true →
      w.cooldown (cooldownKey a LevelCritical) = some t →
      (∀ c ∈ cs, c.agent.ID = a → c.inspection.Level = LevelCritical →
        c.env.tSince < t + cfg.Alert.Cooldown) →
      alertsCreatedFor a (runProcessAlert lib cfg w cs).trace = alertsCreatedFor a w.trace := by
  intro cs
  induction cs with
  | nil => intro w T t _ _ _ _; rfl
  | cons c cs ih =>
    intro w T t hm hclk ht hwin
    simp only [List.map_cons, clockOrderedFrom, Bool.and_eq_true, decide_eq_true_eq] at hclk
    obtain ⟨⟨hTs, hsn⟩, hrest⟩ := hclk
    have hTn : T ≤ c.env.tNow := le_trans hTs hsn
    simp only [runProcessAlert]
    have hm2 : ∀ k u, (processAlert lib cfg c.env w c.inspection c.agent).cooldown k = some u →
        u ≤ c.env.tNow := by
      intro k u hk
      rcases processAlert_cooldown lib cfg c.env w c.inspection c.agent with h | h
      · rw [h] at hk; exact le_trans (hm k u hk) hTn
      · rw [h] at hk
        exact canSendAlert_entries_le _ _ _ _ _ _ T hm hTn k u hk
    have ht2 : ∃ u, (processAlert lib cfg c.env w c.inspection c.agent).cooldown
        (cooldownKey a LevelCritical) = some u ∧ t ≤ u := by
      rcases processAlert_cooldown lib cfg c.env w c.inspection c.agent with h | h
      · rw [h]; exact ⟨t, ht, le_refl _⟩
      · rw [h]
        exact canSendAlert_entry_mono _ _ _ _ _ _ T hm hTn _ t ht
    obtain ⟨u, hu, htu⟩ := ht2
    have hwin2 : ∀ c2 ∈ cs, c2.agent.ID = a → c2.inspection.Level = LevelCritical →
        c2.env.tSince < u + cfg.Alert.Cooldown := by
      intro c2 hc2 h1 h2
      have := hwin c2 (List.mem_cons_of_mem _ hc2) h1 h2
      omega
    rw [ih _ c.env.tNow u hm2 hrest hu hwin2]
    obtain ⟨evs, hev, hcr⟩ := processAlert_created lib cfg c.env w c.inspection c.agent a
    rw [hev, alertsCreatedFor_append]
    rcases hcr with h | ⟨_, hid, _, hlv, hcan⟩
    · rw [h, List.append_nil]
    · exfalso
      have hkey : w.cooldown (cooldownKey c.agent.ID c.inspection.Level) = some t := by
        rw [hid, hlv]; exact ht
      have h1 := canSendAlert_true_old _ _ _ _ _ _ t hcan hkey
      have h2 := hwin c (List.mem_cons_self _ _) hid hlv
      omega

/-- At most one alert per window, from any cooldown map whose entries are not
in the future: if every two CRITICAL calls for node `a` lie in one cooldown
window, the run hands at most one more alert of `a` to `CreateAlert`. -/
theorem runProcessAlert_window_aux (lib : StdLib) (cfg : Config) (a : Nat) :
    ∀ (cs : List AlertCall) (w : World) (T : Int),
      (∀ k u, w.cooldown k = some u → u ≤ T) →
      clockOrderedFrom T (cs.map fun c => (c.env.tSince, c.env.tNow)) = true →
      cs.Pairwise (sameWindow cfg.Alert.Cooldown a) →
      (alertsCreatedFor a (runProcessAlert lib cfg w cs).trace).length ≤
        (alertsCreatedFor a w.trace).length + 1 := by
  intro cs
  induction cs with
  | nil => intro w T _ _ _; simp [runProcessAlert]
  | cons c cs ih =>
    intro w T hm hclk hpw
    simp only [List.map_cons, clockOrderedFrom, Bool.and_eq_true, decide_eq_true_eq] at hclk
    obtain ⟨⟨hTs, hsn⟩, hrest⟩ := hclk
    have hTn : T ≤ c.env.tNow := le_trans hTs hsn
    rw [List.pairwise_cons] at hpw
    obtain ⟨hfirst, hpw⟩ := hpw
    simp only [runProcessAlert]
    have hm2 : ∀ k u, (processAlert lib cfg c.env w c.inspection c.agent).cooldown k = some u →
        u ≤ c.env.tNow := by
      intro k u hk
      rcases processAlert_cooldown lib cfg c.env w c.inspection c.agent with h | h
      · rw [h] at hk; exact le_trans (hm k u hk) hTn
      · rw [h] at hk
        exact canSendAlert_entries_le _ _ _ _ _ _ T hm hTn k u hk
    obtain ⟨evs, hev, hcr⟩ := processAlert_created lib cfg c.env w c.inspection c.agent a
    rcases hcr with h | ⟨h, hid, hen, hlv, hcan⟩
    · have := ih _ c.env.tNow hm2 hrest hpw
      rw [hev, alertsCreatedFor_append, h, List.append_nil] at this
      exact this
    · have hcd := (processAlert_raised lib cfg c.env w c.inspection c.agent hen hlv hcan a).1
      have hset := canSendAlert_true_sets _ _ _ _ _ _ hcan
      rw [← hcd, hid, hlv] at hset
      have hwin : ∀ c2 ∈ cs, c2.agent.ID = a → c2.inspection.Level = LevelCritical →
          c2.env.tSince < c.env.tNow + cfg.Alert.Cooldown :=
        fun c2 hc2 h1 h2 => hfirst c2 hc2 hid h1 hlv h2
      rw [runProcessAlert_quiet lib cfg a cs _ c.env.tNow c.env.tNow hm2 hrest hset hwin]
      rw [hev, alertsCreatedFor_append, h]
      simp

/-- C1. Cooldown invariant. (1) For every cooldown duration and every sequence
of `canSendAlert` calls made on the empty cooldown map while the clock does
not run backwards, two calls for the same (agent ID, level) that both return
true are at least the cooldown apart: the later one reads the clock no
earlier than the time stored by the earlier one plus the cooldown. (2) Hence,
for every run of `processAlert` calls from the empty cooldown map, if the
CRITICAL outcomes of a node are evaluated within one cooldown window, at most
one alert of that node is handed to `CreateAlert`. -/
theorem C1_cooldown_invariant :
    (∀ (d : Int) (cs : List CooldownCall),
      clockOrdered (cs.map fun c => (c.tSince, c.tNow)) = true →
      ∀ (i j : Nat) (ci cj : CooldownCall), i < j → cs[i]? = some ci → cs[j]? = some cj →
        ci.agentID = cj.agentID → ci.level = cj.level →
        (runCanSendAlert d emptyCooldown cs)[i]? = some true →
        (runCanSendAlert d emptyCooldown cs)[j]? = some true →
        ci.tNow + d ≤ cj.tSince) ∧
    (∀ (lib : StdLib) (cfg : Config) (db : Database) (cs : List AlertCall) (a : Nat),
      clockOrdered (cs.map fun c => (c.env.tSince, c.env.tNow)) = true →
      cs.Pairwise (sameWindow cfg.Alert.Cooldown a) →
      (alertsCreatedFor a (runProcessAlert lib cfg
        { db := db, cooldown := emptyCooldown, trace := [] } cs).trace).length ≤ 1) := by
  constructor
  · intro d cs hclk i j ci cj hij hi hj hid hlv hri hrj
    cases cs with
    | nil => simp at hi
    | cons c cs =>
      have hfrom := clockOrdered_from (c.tSince, c.tNow) (cs.map fun c => (c.tSince, c.tNow))
        (by simpa using hclk)
      have hempty : ∀ k t, emptyCooldown k = some t → t ≤ c.tSince := by
        intro k t h; simp [emptyCooldown] at h
      exact (runCanSendAlert_spacing_aux d (c :: cs) emptyCooldown c.tSince hempty
        (by simpa using hfrom) j cj hj hrj).2 i ci hij hi hid hlv hri
  · intro lib cfg db cs a hclk hpw
    cases cs with
    | nil => simp [runProcessAlert, alertsCreatedFor]
    | cons c cs =>
      have hfrom := clockOrdered_from (c.env.tSince, c.env.tNow)
        (cs.map fun c => (c.env.tSince, c.env.tNow)) (by simpa using hclk)
      have hempty : ∀ k t, emptyCooldown k = some t → t ≤ c.env.tSince := by
        intro k t h; simp [emptyCooldown] at h
      have := runProcessAlert_window_aux lib cfg a (c :: cs)
        { db := db, cooldown := emptyCooldown, trace := [] } c.env.tSince hempty
        (by simpa using hfrom) hpw
      simpa [alertsCreatedFor] using this

/-- C1 at concrete runs: with cooldown 300 the calls at 0 and at 300 both
return true and are 300 apart; two CRITICAL outcomes 100 apart raise one
alert. -/
theorem C1_cooldown_invariant_witness :
    ((runCanSendAlert 300 emptyCooldown sampleCooldownCalls)[0]? = some true ∧
      (runCanSendAlert 300 emptyCooldown sampleCooldownCalls)[2]? = some true ∧
      (0 : Int) + 300 ≤ 300) ∧
    (sampleAlertCalls.Pairwise (sameWindow sampleConfig.Alert.Cooldown 7) ∧
      (alertsCreatedFor 7 (runProcessAlert sampleLib sampleConfig
        { db := {}, cooldown := emptyCooldown, trace := [] } sampleAlertCalls).trace).length ≤ 1) :=
  ⟨⟨by decide, by decide,
    C1_cooldown_invariant.1 300 sampleCooldownCalls (by decide) 0 2
      ⟨7, LevelCritical, 0, 0⟩ ⟨7, LevelCritical, 300, 301⟩ (by decide) rfl rfl rfl rfl
      (by decide) (by decide)⟩,
   ⟨by unfold sampleAlertCalls sameWindow; decide,
    C1_cooldown_invariant.2 sampleLib sampleConfig {} sampleAlertCalls 7 (by decide)
      (by unfold sampleAlertCalls sameWindow; decide)⟩⟩

/-- C2. For every outcome whose level is not CRITICAL, whatever the cooldown
map, the database and the alert switch are, `processAlert` makes no call to a
collaborator (no alert is created, no mail is sent), leaves the database as
it is and leaves the cooldown map unchanged. -/
theorem C2_non_critical_no_alert (lib : StdLib) (cfg : Config) (env : AlertEnv) (w : World)
    (inspection : Inspection) (agent : Agent) (h : inspection.Level ≠ LevelCritical) :
    (processAlert lib cfg env w inspection agent).trace = w.trace ∧
    (processAlert lib cfg env w inspection agent).db = w.db ∧
    (processAlert lib cfg env w inspection agent).cooldown = w.cooldown := by
  rw [processAlert_skip lib cfg env w inspection agent (Or.inr h)]
  exact ⟨rfl, rfl, rfl⟩

/-- C2 at a WARNING outcome with alerting enabled. -/
theorem C2_non_critical_no_alert_witness :
    sampleWarning.Level ≠ LevelCritical ∧
    (processAlert sampleLib sampleConfig (sampleAlertEnv 0 0) {} sampleWarning sampleAgent).trace
      = ({} : World).trace ∧
    (processAlert sampleLib sampleConfig (sampleAlertEnv 0 0) {} sampleWarning sampleAgent).db
      = ({} : World).db ∧
    (processAlert sampleLib sampleConfig (sampleAlertEnv 0 0) {} sampleWarning sampleAgent).cooldown
      = ({} : World).cooldown :=
  ⟨by decide,
   C2_non_critical_no_alert sampleLib sampleConfig (sampleAlertEnv 0 0) {} sampleWarning
     sampleAgent (by decide)⟩

/-- With the alert switch off, one iteration of `processResults` is a save,
and after a successful save a status update; nothing else. -/
theorem processResult_disabled (lib : StdLib) (cfg : Config) (env : ResultEnv)
    (st : World × Tally) (r : InspectionResult) (hoff : cfg.Alert.Enabled = false) :
    processResult lib cfg env st r =
      match r.Error with
      | some _ => (st.1, { st.2 with failedCount := st.2.failedCount + 1 })
      | none =>
        match (SaveInspection st.1.db r.Inspection env.saveInspection).2 with
        | Except.error _ =>
          ({ st.1 with db := (SaveInspection st.1.db r.Inspection env.saveInspection).1,
                       trace := st.1.trace ++ [Event.saveInspection r.Inspection] },
            { st.2 with successCount := st.2.successCount + 1 })
        | Except.ok _ =>
          ({ st.1 with
              db := (UpdateAgentStatus (SaveInspection st.1.db r.Inspection env.saveInspection).1
                r.Agent.ID AgentOnline env.updateAgentStatus).1,
              trace := st.1.trace ++ [Event.saveInspection r.Inspection] ++
                [Event.updateAgentStatus r.Agent.ID AgentOnline] },
            { st.2 with successCount := st.2.successCount + 1 }) := by
  unfold processResult
  cases r.Error with
  | some e => rfl
  | none =>
    simp only
    cases hs : (SaveInspection st.1.db r.Inspection env.saveInspection).2 with
    | error e => rfl
    | ok i =>
      simp only
      rw [processAlert_skip lib cfg env.alert _ i r.Agent (Or.inl hoff)]

/-- The tables touched by the two repository calls of the aggregator. -/
theorem SaveInspection_tables (db : Database) (i : Option Inspection)
    (o : Except String (Nat × Int)) :
    (SaveInspection db i o).1.alerts = db.alerts ∧
    (∀ x ∈ db.inspections, x ∈ (SaveInspection db i o).1.inspections) ∧
    (∀ j id now, i = some j → o = Except.ok (id, now) →
      j.stored id now ∈ (SaveInspection db i o).1.inspections) := by
  unfold SaveInspection
  cases i with
  | none => exact ⟨rfl, fun x hx => hx, fun j id now h => by cases h⟩
  | some j =>
    cases o with
    | error e => exact ⟨rfl, fun x hx => hx, fun j id now _ h => by cases h⟩
    | ok p =>
      obtain ⟨id, now⟩ := p
      refine ⟨rfl, fun x hx => by simp [hx], ?_⟩
      intro j2 id2 now2 h1 h2
      cases h1
      cases h2
      simp

/-- The status update of a node touches the agents table only. -/
theorem UpdateAgentStatus_tables (db : Database) (id : Nat) (st : AgentStatus)
    (fail : Option String) :
    (UpdateAgentStatus db id st fail).1.alerts = db.alerts ∧
    (UpdateAgentStatus db id st fail).1.inspections = db.inspections := by
  unfold UpdateAgentStatus
  cases fail <;> exact ⟨rfl, rfl⟩

/-- What one iteration does with the alert switch off: the alert path is not
entered, the record of an error-free result is handed to `SaveInspection`, and
an accepted insert is in the table afterwards. -/
theorem processResult_disabled_facts (lib : StdLib) (cfg : Config) (env : ResultEnv)
    (st : World × Tally) (r : InspectionResult) (hoff : cfg.Alert.Enabled = false) :
    (processResult lib cfg env st r).1.cooldown = st.1.cooldown ∧
    (processResult lib cfg env st r).1.db.alerts = st.1.db.alerts ∧
    (processResult lib cfg env st r).1.trace.filter Event.isAlerting =
      st.1.trace.filter Event.isAlerting ∧
    savedInspections (processResult lib cfg env st r).1.trace =
      savedInspections st.1.trace ++ (if r.Error.isNone then [r.Inspection] else []) ∧
    (∀ x ∈ st.1.db.inspections, x ∈ (processResult lib cfg env st r).1.db.inspections) ∧
    (∀ i id now, r.Error = none → r.Inspection = some i →
      env.saveInspection = Except.ok (id, now) →
      i.stored id now ∈ (processResult lib cfg env st r).1.db.inspections) := by
  rw [processResult_disabled lib cfg env st r hoff]
  obtain ⟨hs1, hs2, hs3⟩ := SaveInspection_tables st.1.db r.Inspection env.saveInspection
  obtain ⟨hu1, hu2⟩ := UpdateAgentStatus_tables
    (SaveInspection st.1.db r.Inspection env.saveInspection).1 r.Agent.ID AgentOnline
    env.updateAgentStatus
  cases hE : r.Error with
  | some e =>
    refine ⟨rfl, rfl, rfl, ?_, fun x hx => hx, fun i id now h => by cases h⟩
    simp
  | none =>
    cases hS : (SaveInspection st.1.db r.Inspection env.saveInspection).2 with
    | error e =>
      refine ⟨rfl, hs1, ?_, ?_, hs2, ?_⟩
      · simp [List.filter_append, Event.isAlerting]
      · simp [savedInspections, List.filterMap_append]
      · intro i id now _ h1 h2
        exact hs3 i id now h1 h2
    | ok j =>
      refine ⟨rfl, ?_, ?_, ?_, ?_, ?_⟩
      · show (UpdateAgentStatus _ _ _ _).1.alerts = _
        rw [hu1, hs1]
      · simp [List.filter_append, Event.isAlerting]
      · simp [savedInspections, List.filterMap_append]
      · intro x hx
        show x ∈ (UpdateAgentStatus _ _ _ _).1.inspections
        rw [hu2]; exact hs2 x hx
      · intro i id now _ h1 h2
        show _ ∈ (UpdateAgentStatus _ _ _ _).1.inspections
        rw [hu2]
        exact hs3 i id now h1 h2

/-- The loop of `processResults` with the alert switch off. -/
theorem processResultsFrom_disabled (lib : StdLib) (cfg : Config) (env : Nat → ResultEnv)
    (hoff : cfg.Alert.Enabled = false) :
    ∀ (rs : List InspectionResult) (k : Nat) (st : World × Tally),
      (processResultsFrom lib cfg env k rs st).1.cooldown = st.1.cooldown ∧
      (processResultsFrom lib cfg env k rs st).1.db.alerts = st.1.db.alerts ∧
      (processResultsFrom lib cfg env k rs st).1.trace.filter Event.isAlerting =
        st.1.trace.filter Event.isAlerting ∧
      savedInspections (processResultsFrom lib cfg env k rs st).1.trace =
        savedInspections st.1.trace ++
          (rs.filter fun r => r.Error.isNone).map (fun r => r.Inspection) ∧
      (∀ x ∈ st.1.db.inspections, x ∈ (processResultsFrom lib cfg env k rs st).1.db.inspections) ∧
      (∀ (j : Nat) (r : InspectionResult) (i : Inspection) (id : Nat) (now : Int),
        rs[j]? = some r → r.Error = none → r.Inspection = some i →
        (env (k + j)).saveInspection = Except.ok (id, now) →
        i.stored id now ∈ (processResultsFrom lib cfg env k rs st).1.db.inspections) := by
  intro rs
  induction rs with
  | nil =>
    intro k st
    exact ⟨rfl, rfl, rfl, by simp [processResultsFrom], fun x hx => hx,
      fun j r i id now h => by simp at h⟩
  | cons r rs ih =>
    intro k st
    simp only [processResultsFrom]
    obtain ⟨a1, a2, a3, a4, a5, a6⟩ := processResult_disabled_facts lib cfg (env k) st r hoff
    obtain ⟨b1, b2, b3, b4, b5, b6⟩ := ih (k + 1) (processResult lib cfg (env k) st r)
    refine ⟨by rw [b1, a1], by rw [b2, a2], by rw [b3, a3], ?_, fun x hx => b5 x (a5 x hx), ?_⟩
    · rw [b4, a4]
      cases hE : r.Error <;> simp [List.filter_cons, hE]
    · intro j r2 i id now hj hE hI hS
      cases j with
      | zero =>
        simp only [List.getElem?_cons_zero, Option.some.injEq] at hj
        subst hj
        exact b5 _ (a6 i id now hE hI (by simpa using hS))
      | succ j =>
        simp only [List.getElem?_cons_succ] at hj
        exact b6 j r2 i id now hj hE hI (by rw [← hS]; congr 2; omega)

/-- C3. When the global alert switch is off, `processAlert` makes no call to a
collaborator for any outcome, CRITICAL ones included (no alert is created, no
mail is sent), and leaves the database and the cooldown map as they are;
`processResults` still hands the record of every error-free result to
`SaveInspection`, in order, enters the alert path for none of them, and every
insert the database accepts is in the inspections table afterwards. -/
theorem C3_alerts_disabled (lib : StdLib) (cfg : Config) (hoff : cfg.Alert.Enabled = false) :
    (∀ (env : AlertEnv) (w : World) (inspection : Inspection) (agent : Agent),
      (processAlert lib cfg env w inspection agent).trace = w.trace ∧
      (processAlert lib cfg env w inspection agent).db = w.db ∧
      (processAlert lib cfg env w inspection agent).cooldown = w.cooldown) ∧
    (∀ (env : Nat → ResultEnv) (w : World) (results : List InspectionResult),
      savedInspections (processResults lib cfg env w results).1.trace =
        savedInspections w.trace ++
          (results.filter fun r => r.Error.isNone).map (fun r => r.Inspection) ∧
      (processResults lib cfg env w results).1.trace.filter Event.isAlerting =
        w.trace.filter Event.isAlerting ∧
      (processResults lib cfg env w results).1.db.alerts = w.db.alerts ∧
      (processResults lib cfg env w results).1.cooldown = w.cooldown ∧
      (∀ (j : Nat) (r : InspectionResult) (i : Inspection) (id : Nat) (now : Int),
        results[j]? = some r → r.Error = none → r.Inspection = some i →
        (env j).saveInspection = Except.ok (id, now) →
        i.stored id now ∈ (processResults lib cfg env w results).1.db.inspections)) := by
  constructor
  · intro env w inspection agent
    rw [processAlert_skip lib cfg env w inspection agent (Or.inl hoff)]
    exact ⟨rfl, rfl, rfl⟩
  · intro env w results
    obtain ⟨b1, b2, b3, b4, _, b6⟩ := processResultsFrom_disabled lib cfg env hoff results 0 (w, {})
    refine ⟨b4, b3, b2, b1, ?_⟩
    intro j r i id now hj hE hI hS
    exact b6 j r i id now hj hE hI (by simpa using hS)

/-- C3 at a CRITICAL outcome and at a cycle of two results, alert switch off:
no call on the alert path, one record handed to `SaveInspection` and stored. -/
theorem C3_alerts_disabled_witness :
    sampleConfigOff.Alert.Enabled = false ∧
    ((processAlert sampleLib sampleConfigOff (sampleAlertEnv 0 0) {} sampleCritical
        sampleAgent).trace = ({} : World).trace ∧
      (processAlert sampleLib sampleConfigOff (sampleAlertEnv 0 0) {} sampleCritical
        sampleAgent).db = ({} : World).db ∧
      (processAlert sampleLib sampleConfigOff (sampleAlertEnv 0 0) {} sampleCritical
        sampleAgent).cooldown = ({} : World).cooldown) ∧
    savedInspections (processResults sampleLib sampleConfigOff sampleResultEnv {}
        sampleResults).1.trace =
      savedInspections ({} : World).trace ++
        (sampleResults.filter fun r => r.Error.isNone).map (fun r => r.Inspection) ∧
    (processResults sampleLib sampleConfigOff sampleResultEnv {} sampleResults).1.db.inspections
      = [sampleCritical.stored 0 10] :=
  ⟨by decide,
   (C3_alerts_disabled sampleLib sampleConfigOff (by decide)).1 (sampleAlertEnv 0 0) {}
     sampleCritical sampleAgent,
   ((C3_alerts_disabled sampleLib sampleConfigOff (by decide)).2 sampleResultEnv {}
     sampleResults).1,
   by decide⟩

/-- The retry loop up to the first attempt without error: if the attempts
`i, ..., i + m - 1` return the errors `errs k` and the attempt `i + m` returns
`insp` without error, the loop makes exactly these `m + 1` attempts, sleeps
`k + 1` seconds after each failed one, and stores the inspection; the error
field keeps the error of the last failed attempt. -/
theorem retryLoop_first_success (lib : StdLib) (env : ProbeEnv) (retryTimes : Int)
    (agent : Agent) (errs : Nat → String) (insp : Option Inspection) :
    ∀ (m fuel i : Nat) (result : InspectionResult) (trace : List ProbeEvent),
      m < fuel → ((i + m : Nat) : Int) < retryTimes →
      (∀ k, i ≤ k → k < i + m → (Pull lib (env.get k) agent).2 = some (errs k)) →
      Pull lib (env.get (i + m)) agent = (insp, none) →
      retryLoop lib env retryTimes agent fuel i result trace =
        ({ result with Inspection := insp, Duration := env.elapsed (i + m),
                       Error := if m = 0 then result.Error else some (errs (i + m - 1)) },
          trace ++ retriedAttempts i m ++ [ProbeEvent.pull (i + m)]) := by
  intro m
  induction m with
  | zero =>
    intro fuel i result trace hf hlt _ hok
    obtain ⟨f, rfl⟩ : ∃ f, fuel = f + 1 := ⟨fuel - 1, by omega⟩
    simp only [Nat.add_zero] at hlt hok ⊢
    unfold retryLoop
    simp only [hlt, if_true, hok]
    simp [retriedAttempts]
  | succ m ih =>
    intro fuel i result trace hf hlt herr hok
    obtain ⟨f, rfl⟩ : ∃ f, fuel = f + 1 := ⟨fuel - 1, by omega⟩
    have hi : (i : Int) < retryTimes := by push_cast at hlt; omega
    have hi1 : (i : Int) < retryTimes - 1 := by push_cast at hlt; omega
    have h0 := herr i (le_refl _) (by omega)
    unfold retryLoop
    simp only [hi, if_true]
    cases hp : Pull lib (env.get i) agent with
    | mk x e =>
      rw [hp] at h0
      simp only at h0
      subst h0
      simp only [hi1, if_true]
      have hlt2 : ((i + 1 + m : Nat) : Int) < retryTimes := by
        have : i + 1 + m = i + (m + 1) := by omega
        rw [this]; exact hlt
      have hok2 : Pull lib (env.get (i + 1 + m)) agent = (insp, none) := by
        have : i + 1 + m = i + (m + 1) := by omega
        rw [this]; exact hok
      rw [ih f (i + 1) _ _ (by omega) hlt2
        (fun k h1 h2 => herr k (by omega) (by omega)) hok2]
      have e1 : i + 1 + m = i + (m + 1) := by omega
      have e2 : i + (m + 1) - 1 = i + m := by omega
      have e3 : (if m = 0 then some (errs i) else some (errs (i + 1 + m - 1))) =
          some (errs (i + m)) := by
        by_cases hm : m = 0
        · simp [hm]
        · have : i + 1 + m - 1 = i + m := by omega
          simp [hm, this]
      simp only [e1, e2, e3, Nat.succ_ne_zero, if_false, Nat.add_eq_zero, one_ne_zero, and_false]
      simp [retriedAttempts, List.range'_succ]
      intro hm
      simp [hm]

/-- The retry loop when every remaining attempt fails: the loop runs to the
limit, sleeps after every attempt but the last, and leaves the error of the
last attempt in the result, the inspection untouched. -/
theorem retryLoop_all_fail (lib : StdLib) (env : ProbeEnv) (retryTimes : Int)
    (agent : Agent) (errs : Nat → String) :
    ∀ (fuel i : Nat) (result : InspectionResult) (trace : List ProbeEvent),
      retryTimes = ((i + fuel + 1 : Nat) : Int) →
      (∀ k, i ≤ k → k ≤ i + fuel → (Pull lib (env.get k) agent).2 = some (errs k)) →
      retryLoop lib env retryTimes agent (fuel + 1) i result trace =
        ({ result with Error := some (errs (i + fuel)) },
          trace ++ retriedAttempts i fuel ++ [ProbeEvent.pull (i + fuel)]) := by
  intro fuel
  induction fuel with
  | zero =>
    intro i result trace hN herr
    have h0 := herr i (le_refl _) (by omega)
    have hi : (i : Int) < retryTimes := by rw [hN]; push_cast; omega
    have hi1 : ¬ ((i : Int) < retryTimes - 1) := by rw [hN]; push_cast; omega
    unfold retryLoop
    simp only [hi, if_true]
    cases hp : Pull lib (env.get i) agent with
    | mk x e =>
      rw [hp] at h0
      simp only at h0
      subst h0
      simp only [hi1, if_false]
      unfold retryLoop
      simp [retriedAttempts]
  | succ f ih =>
    intro i result trace hN herr
    have h0 := herr i (le_refl _) (by omega)
    have hi : (i : Int) < retryTimes := by rw [hN]; push_cast; omega
    have hi1 : (i : Int) < retryTimes - 1 := by rw [hN]; push_cast; omega
    unfold retryLoop
    simp only [hi, if_true]
    cases hp : Pull lib (env.get i) agent with
    | mk x e =>
      rw [hp] at h0
      simp only at h0
      subst h0
      simp only [hi1, if_true]
      rw [ih (i + 1) _ _ (by rw [hN]; congr 1; omega)
        (fun k h1 h2 => herr k (by omega) (by omega))]
      have e1 : i + 1 + f = i + (f + 1) := by omega
      simp only [e1]
      simp [retriedAttempts, List.range'_succ]

/-- The mail step makes calls of the alert path only and leaves the
inspections table alone. -/
theorem sendAlertMail_alerting (lib : StdLib) (cfg : Config) (env : AlertEnv) (w : World)
    (alert : Alert) (agent : Agent) :
    (sendAlertMail lib cfg env w alert agent).1.db.inspections = w.db.inspections ∧
    ∃ evs, (sendAlertMail lib cfg env w alert agent).1.trace = w.trace ++ evs ∧
      ∀ e ∈ evs, e.isAlerting = true := by
  unfold sendAlertMail
  simp only
  split
  · refine ⟨rfl, _, List.append_assoc _ _ _, ?_⟩
    intro e he
    simp only [List.mem_append, List.mem_singleton, List.mem_map] at he
    rcases he with rfl | ⟨x, _, rfl⟩ <;> rfl
  · refine ⟨?_, [Event.send (mailSubject cfg alert agent) (mailBody lib alert agent)] ++
      (List.map Event.sendOne (Sender.Send env.deliver
        (NewSender cfg.Mail.Host cfg.Mail.Port cfg.Mail.User cfg.Mail.Pass cfg.Mail.To)
        (mailSubject cfg alert agent) (mailBody lib alert agent)).2 ++
      [Event.updateAlertStatus alert.ID AlertPending]), ?_, ?_⟩
    · unfold UpdateAlertStatus
      cases env.updateAlertStatus <;> rfl
    · simp only [List.append_assoc]
    · intro e he
      simp only [List.mem_append, List.mem_singleton, List.mem_map] at he
      rcases he with rfl | ⟨x, _, rfl⟩ | rfl <;> rfl

/-- The alert engine makes calls of the alert path only and leaves the
inspections table alone. -/
theorem processAlert_alerting (lib : StdLib) (cfg : Config) (env : AlertEnv) (w : World)
    (inspection : Inspection) (agent : Agent) :
    (processAlert lib cfg env w inspection agent).db.inspections = w.db.inspections ∧
    ∃ evs, (processAlert lib cfg env w inspection agent).trace = w.trace ++ evs ∧
      ∀ e ∈ evs, e.isAlerting = true := by
  have hnil : ∃ evs : List Event, w.trace = w.trace ++ evs ∧ ∀ e ∈ evs, e.isAlerting = true :=
    ⟨[], by simp, by simp⟩
  have hcreate : (CreateAlert w.db (newAlert lib inspection agent) env.createAlert).1.inspections
      = w.db.inspections := by
    unfold CreateAlert
    cases env.createAlert <;> rfl
  unfold processAlert
  split
  · exact ⟨rfl, hnil⟩
  · split
    · exact ⟨rfl, hnil⟩
    · simp only
      split
      · exact ⟨rfl, hnil⟩
      · split
        · refine ⟨hcreate, [Event.createAlert (newAlert lib inspection agent)], rfl, ?_⟩
          intro e he
          simp only [List.mem_singleton] at he
          subst he; rfl
        · rename_i stored _
          split
          · obtain ⟨h1, evs, h2, h3⟩ := sendAlertMail_alerting lib cfg env
              { db := (CreateAlert w.db (newAlert lib inspection agent) env.createAlert).1,
                cooldown := (canSendAlert cfg.Alert.Cooldown w.cooldown agent.ID
                  inspection.Level env.tSince env.tNow).2,
                trace := w.trace ++ [Event.createAlert (newAlert lib inspection agent)] }
              stored agent
            refine ⟨by rw [h1]; exact hcreate,
              Event.createAlert (newAlert lib inspection agent) :: evs, ?_, ?_⟩
            · rw [h2]; simp
            · intro e he
              simp only [List.mem_cons] at he
              rcases he with rfl | he
              · rfl
              · exact h3 e he
          · refine ⟨hcreate, [Event.createAlert (newAlert lib inspection agent)], rfl, ?_⟩
            intro e he
            simp only [List.mem_singleton] at he
            subst he; rfl

/-- Calls of the alert path hand nothing to `SaveInspection`. -/
theorem savedInspections_alerting (evs : List Event) (h : ∀ e ∈ evs, e.isAlerting = true) :
    savedInspections evs = [] := by
  induction evs with
  | nil => rfl
  | cons e evs ih =>
    have he := h e (List.mem_cons_self _ _)
    have := ih (fun x hx => h x (List.mem_cons_of_mem _ hx))
    cases e <;> simp_all [savedInspections, Event.isAlerting]

/-- A result that carries an error: the failure counter goes up by one and
nothing else happens. -/
theorem processResult_error (lib : StdLib) (cfg : Config) (env : ResultEnv)
    (st : World × Tally) (r : InspectionResult) (e : String) (h : r.Error = some e) :
    processResult lib cfg env st r =
      (st.1, { st.2 with failedCount := st.2.failedCount + 1 }) := by
  unfold processResult
  rw [h]

/-- A result that carries no error: the success counter goes up by one, the
record is handed to `SaveInspection` (once), rows already stored stay, and an
accepted insert is in the table afterwards. -/
theorem processResult_ok (lib : StdLib) (cfg : Config) (env : ResultEnv)
    (st : World × Tally) (r : InspectionResult) (h : r.Error = none) :
    (processResult lib cfg env st r).2 =
      { st.2 with successCount := st.2.successCount + 1 } ∧
    savedInspections (processResult lib cfg env st r).1.trace =
      savedInspections st.1.trace ++ [r.Inspection] ∧
    (∀ x ∈ st.1.db.inspections, x ∈ (processResult lib cfg env st r).1.db.inspections) ∧
    (∀ i id now, r.Inspection = some i → env.saveInspection = Except.ok (id, now) →
      i.stored id now ∈ (processResult lib cfg env st r).1.db.inspections) := by
  obtain ⟨_, hs2, hs3⟩ := SaveInspection_tables st.1.db r.Inspection env.saveInspection
  unfold processResult
  rw [h]
  simp only
  cases hS : (SaveInspection st.1.db r.Inspection env.saveInspection).2 with
  | error e =>
    refine ⟨rfl, ?_, hs2, hs3⟩
    simp [savedInspections, List.filterMap_append]
  | ok j =>
    obtain ⟨hp1, evs, hp2, hp3⟩ := processAlert_alerting lib cfg env.alert
      { st.1 with db := (SaveInspection st.1.db r.Inspection env.saveInspection).1,
                  trace := st.1.trace ++ [Event.saveInspection r.Inspection] } j r.Agent
    have hu := (UpdateAgentStatus_tables
      (processAlert lib cfg env.alert
        { st.1 with db := (SaveInspection st.1.db r.Inspection env.saveInspection).1,
                    trace := st.1.trace ++ [Event.saveInspection r.Inspection] } j r.Agent).db
      r.Agent.ID AgentOnline env.updateAgentStatus).2
    refine ⟨rfl, ?_, ?_, ?_⟩
    · show savedInspections ((processAlert _ _ _ _ _ _).trace ++ _) = _
      rw [hp2]
      have := savedInspections_alerting evs hp3
      simp [savedInspections, List.filterMap_append] at this ⊢
      exact this
    · intro x hx
      show x ∈ (UpdateAgentStatus _ _ _ _).1.inspections
      rw [hu, hp1]
      exact hs2 x hx
    · intro i id now h1 h2
      show _ ∈ (UpdateAgentStatus _ _ _ _).1.inspections
      rw [hu, hp1]
      exact hs3 i id now h1 h2

/-- C4 (what the code does). Let attempt `j` (counted from 1, `j` at most
`retryTimes`) be the first that returns without error. Then `checkAgent` makes
exactly `j` attempts, with a backoff sleep after each failed one, and the
result it sends carries the inspection of attempt `j`. Its error field is nil
only for `j = 1`: for `j ≥ 2` it still holds the error of attempt `j - 1`,
because the loop never resets it, and `processResults` then counts the result
as failed and persists nothing; for `j = 1` it counts it as succeeded and
hands the inspection to `SaveInspection`. -/
theorem C4_success_after_retry_keeps_error (lib : StdLib) (cfg : Config) (env : ProbeEnv)
    (agent : Agent) (errs : Nat → String) (insp : Inspection) (j : Nat)
    (hj : 1 ≤ j) (hN : (j : Int) ≤ cfg.Check.RetryTimes)
    (herr : ∀ k, k + 1 < j → (Pull lib (env.get k) agent).2 = some (errs k))
    (hok : Pull lib (env.get (j - 1)) agent = (some insp, none)) :
    (checkAgent lib cfg env agent).2 =
      retriedAttempts 0 (j - 1) ++ [ProbeEvent.pull (j - 1)] ++
        [ProbeEvent.send (checkAgent lib cfg env agent).1] ∧
    (checkAgent lib cfg env agent).1.Inspection = some insp ∧
    (checkAgent lib cfg env agent).1.Error = (if j = 1 then none else some (errs (j - 2))) ∧
    (j = 1 → ∀ (renv : ResultEnv) (st : World × Tally),
      (processResult lib cfg renv st (checkAgent lib cfg env agent).1).2 =
        { st.2 with successCount := st.2.successCount + 1 } ∧
      savedInspections (processResult lib cfg renv st (checkAgent lib cfg env agent).1).1.trace =
        savedInspections st.1.trace ++ [some insp]) ∧
    (2 ≤ j → ∀ (renv : ResultEnv) (st : World × Tally),
      processResult lib cfg renv st (checkAgent lib cfg env agent).1 =
        (st.1, { st.2 with failedCount := st.2.failedCount + 1 })) := by
  have hfuel : j - 1 < cfg.Check.RetryTimes.toNat := by omega
  have hlt : ((0 + (j - 1) : Nat) : Int) < cfg.Check.RetryTimes := by omega
  have hloop := retryLoop_first_success lib env cfg.Check.RetryTimes agent errs (some insp)
    (j - 1) cfg.Check.RetryTimes.toNat 0 { Agent := agent, Duration := 0 } [] hfuel hlt
    (fun k _ h2 => herr k (by omega)) (by simpa using hok)
  have hres : (checkAgent lib cfg env agent).1 =
      { Agent := agent, Inspection := some insp, Duration := env.elapsed (0 + (j - 1)),
        Error := if j - 1 = 0 then none else some (errs (0 + (j - 1) - 1)) } := by
    unfold checkAgent
    simp only [hloop]
  have hE : (checkAgent lib cfg env agent).1.Error =
      (if j = 1 then none else some (errs (j - 2))) := by
    rw [hres]
    by_cases h1 : j = 1
    · simp [h1]
    · have h2 : ¬ (j - 1 = 0) := by omega
      have h3 : j - 1 - 1 = j - 2 := by omega
      simp [h1, h2, h3]
  refine ⟨?_, by rw [hres], hE, ?_, ?_⟩
  · unfold checkAgent
    simp only [hloop]
    simp
  · intro h1 renv st
    have hnone : (checkAgent lib cfg env agent).1.Error = none := by rw [hE]; simp [h1]
    obtain ⟨a, b, _, _⟩ := processResult_ok lib cfg renv st _ hnone
    refine ⟨a, ?_⟩
    rw [b, hres]
  · intro h2 renv st
    have hsome : (checkAgent lib cfg env agent).1.Error = some (errs (j - 2)) := by
      rw [hE]
      have : ¬ (j = 1) := by omega
      simp [this]
    exact processResult_error lib cfg renv st _ _ hsome

/-- C4 at its failing input: three attempts allowed, the first breaks while
the body is read, the second succeeds. The result carries the inspection of
the second attempt and the error of the first, and `processResults` counts
it as failed without touching the state. -/
theorem C4_success_after_retry_keeps_error_witness :
    (checkAgent sampleLib sampleConfig sampleFlakyEnv sampleAgent).2 =
      [ProbeEvent.pull 0, ProbeEvent.sleep 1, ProbeEvent.pull 1,
       ProbeEvent.send (checkAgent sampleLib sampleConfig sampleFlakyEnv sampleAgent).1] ∧
    (checkAgent sampleLib sampleConfig sampleFlakyEnv sampleAgent).1.Inspection
      = some samplePulled ∧
    (checkAgent sampleLib sampleConfig sampleFlakyEnv sampleAgent).1.Error
      = some "unexpected EOF" ∧
    (processResults sampleLib sampleConfig sampleResultEnv {}
      [(checkAgent sampleLib sampleConfig sampleFlakyEnv sampleAgent).1]).2
      = { total := 1, success := 0, failed := 1 } ∧
    (processResult sampleLib sampleConfig (sampleResultEnv 1) ({}, {})
      (checkAgent sampleLib sampleConfig sampleFlakyEnv sampleAgent).1).2
      = { successCount := 0, failedCount := 1 } :=
  have h := C4_success_after_retry_keeps_error sampleLib sampleConfig sampleFlakyEnv sampleAgent
    (fun _ => "unexpected EOF") samplePulled 2 (by decide) (by decide)
    (fun k hk => by
      have : k = 0 := by omega
      subst this
      rfl)
    (by decide)
  ⟨h.1, h.2.1, h.2.2.1, by decide,
   congrArg Prod.snd (h.2.2.2.2 (by decide) (sampleResultEnv 1) ({}, {}))⟩

/-- When the GET fails, `Pull` returns the synthetic unreachable outcome and
no error. -/
theorem Pull_getError (lib : StdLib) (get : String → HttpReply) (agent : Agent) (e : String)
    (h : get (agent.URL ++ "/inspect") = HttpReply.getError e) :
    Pull lib get agent = (some (unreachableInspection agent), none) := by
  unfold Pull
  simp only [h]
  rfl

/-- When reading the body fails, `Pull` returns that error and no inspection. -/
theorem Pull_readError (lib : StdLib) (get : String → HttpReply) (agent : Agent) (e : String)
    (h : get (agent.URL ++ "/inspect") = HttpReply.readError e) :
    Pull lib get agent = (none, some e) := by
  unfold Pull
  simp only [h]

/-- Attempts and sleeps in a stretch of failed attempts. -/
theorem retriedAttempts_counts (m : Nat) :
    ∀ i, pullCount (retriedAttempts i m) = m ∧ sleeps (retriedAttempts i m) = List.range' (i + 1) m := by
  induction m with
  | zero => intro i; simp [retriedAttempts, pullCount, sleeps]
  | succ m ih =>
    intro i
    obtain ⟨h1, h2⟩ := ih (i + 1)
    have hstep : retriedAttempts i (m + 1) =
        ProbeEvent.pull i :: ProbeEvent.sleep (i + 1) :: retriedAttempts (i + 1) m := by
      simp [retriedAttempts, List.range'_succ]
    rw [hstep]
    constructor
    · simp only [pullCount] at h1 ⊢
      simp [List.filter_cons, h1]
    · simp only [sleeps] at h2 ⊢
      simp [List.filterMap_cons, h2, List.range'_succ]

/-- C5 as stated fails: with three attempts allowed and a transport that
refuses every connection, `checkAgent` calls the prober once, not three
times, and never sleeps. -/
theorem C5_counterexample :
    sampleConfig.Check.RetryTimes = 3 ∧
    sampleDownEnv.get 0 (sampleAgent.URL ++ "/inspect") = HttpReply.getError "connection refused" ∧
    sampleDownEnv.get 1 (sampleAgent.URL ++ "/inspect") = HttpReply.getError "connection refused" ∧
    sampleDownEnv.get 2 (sampleAgent.URL ++ "/inspect") = HttpReply.getError "connection refused" ∧
    ¬ (pullCount (checkAgent sampleLib sampleConfig sampleDownEnv sampleAgent).2 = 3 ∧
       sleeps (checkAgent sampleLib sampleConfig sampleDownEnv sampleAgent).2 = [1, 2]) ∧
    pullCount (checkAgent sampleLib sampleConfig sampleDownEnv sampleAgent).2 = 1 ∧
    sleeps (checkAgent sampleLib sampleConfig sampleDownEnv sampleAgent).2 = [] := by
  decide

/-- C5 (amended). Let `retryTimes = N ≥ 1`. (1) For a node whose GET fails on
every attempt, `checkAgent` calls the prober exactly once and does not sleep,
and the result it sends carries no error and the synthetic unreachable outcome
with level CRITICAL. (2) For a node whose `Pull` returns an error on every
attempt (reading the body fails), `checkAgent` calls the prober exactly `N`
times, sleeps 1s, 2s, ..., (N-1)s between consecutive attempts and not after
the last, and the result it sends carries the last error and no inspection. -/
theorem C5_retry_schedule (lib : StdLib) (cfg : Config) (env : ProbeEnv) (agent : Agent)
    (N : Nat) (hN : 1 ≤ N) (hcfg : cfg.Check.RetryTimes = (N : Int)) :
    ((∀ i, i < N → ∃ e, env.get i (agent.URL ++ "/inspect") = HttpReply.getError e) →
      pullCount (checkAgent lib cfg env agent).2 = 1 ∧
      sleeps (checkAgent lib cfg env agent).2 = [] ∧
      (checkAgent lib cfg env agent).1.Error = none ∧
      (checkAgent lib cfg env agent).1.Inspection = some (unreachableInspection agent) ∧
      (unreachableInspection agent).Level = LevelCritical) ∧
    (∀ errs : Nat → String,
      (∀ i, i < N → env.get i (agent.URL ++ "/inspect") = HttpReply.readError (errs i)) →
      (checkAgent lib cfg env agent).2 =
        exhaustedAttempts N ++ [ProbeEvent.send (checkAgent lib cfg env agent).1] ∧
      pullCount (checkAgent lib cfg env agent).2 = N ∧
      sleeps (checkAgent lib cfg env agent).2 = List.range' 1 (N - 1) ∧
      (checkAgent lib cfg env agent).1.Inspection = none ∧
      (checkAgent lib cfg env agent).1.Error = some (errs (N - 1))) := by
  obtain ⟨n, rfl⟩ : ∃ n, N = n + 1 := ⟨N - 1, by omega⟩
  have hfuel : cfg.Check.RetryTimes.toNat = n + 1 := by rw [hcfg]; simp
  constructor
  · intro hdown
    obtain ⟨e, he⟩ := hdown 0 (by omega)
    have hp := Pull_getError lib (env.get 0) agent e he
    have hloop := retryLoop_first_success lib env cfg.Check.RetryTimes agent (fun _ => "")
      (some (unreachableInspection agent)) 0 (n + 1) 0 { Agent := agent, Duration := 0 } []
      (by omega) (by rw [hcfg]; push_cast; omega) (fun k h1 h2 => by omega) hp
    have hca : checkAgent lib cfg env agent =
        ({ Agent := agent, Inspection := some (unreachableInspection agent), Error := none,
           Duration := env.elapsed 0 },
         [ProbeEvent.pull 0, ProbeEvent.send
           { Agent := agent, Inspection := some (unreachableInspection agent), Error := none,
             Duration := env.elapsed 0 }]) := by
      unfold checkAgent
      simp only [hfuel, hloop]
      simp [retriedAttempts]
    rw [hca]
    exact ⟨by simp [pullCount], by simp [sleeps], rfl, rfl, rfl⟩
  · intro errs hbroken
    have hloop := retryLoop_all_fail lib env cfg.Check.RetryTimes agent errs n 0
      { Agent := agent, Duration := 0 } [] (by rw [hcfg]; simp)
      (fun k _ hk => by rw [Pull_readError lib (env.get k) agent _ (hbroken k (by omega))])
    obtain ⟨hc1, hc2⟩ := retriedAttempts_counts n 0
    have htrace : (checkAgent lib cfg env agent).2 =
        exhaustedAttempts (n + 1) ++ [ProbeEvent.send (checkAgent lib cfg env agent).1] := by
      unfold checkAgent
      simp only [hfuel, hloop]
      simp [exhaustedAttempts]
    refine ⟨htrace, ?_, ?_, ?_, ?_⟩
    · rw [htrace]
      simp only [pullCount] at hc1 ⊢
      simp [exhaustedAttempts, List.filter_append, hc1]
    · rw [htrace]
      simp only [sleeps] at hc2 ⊢
      simp [exhaustedAttempts, List.filterMap_append, hc2]
    · unfold checkAgent
      simp only [hfuel, hloop]
    · unfold checkAgent
      simp only [hfuel, hloop]
      simp

/-- C5 (amended) with three attempts allowed: a refused connection is probed
once; a body that cannot be read is probed three times with sleeps of 1s and
2s. -/
theorem C5_retry_schedule_witness :
    (pullCount (checkAgent sampleLib sampleConfig sampleDownEnv sampleAgent).2 = 1 ∧
      sleeps (checkAgent sampleLib sampleConfig sampleDownEnv sampleAgent).2 = [] ∧
      (checkAgent sampleLib sampleConfig sampleDownEnv sampleAgent).1.Error = none ∧
      (checkAgent sampleLib sampleConfig sampleDownEnv sampleAgent).1.Inspection =
        some (unreachableInspection sampleAgent) ∧
      (unreachableInspection sampleAgent).Level = LevelCritical) ∧
    (pullCount (checkAgent sampleLib sampleConfig sampleBrokenEnv sampleAgent).2 = 3 ∧
      sleeps (checkAgent sampleLib sampleConfig sampleBrokenEnv sampleAgent).2 = [1, 2] ∧
      (checkAgent sampleLib sampleConfig sampleBrokenEnv sampleAgent).1.Inspection = none ∧
      (checkAgent sampleLib sampleConfig sampleBrokenEnv sampleAgent).1.Error
        = some "unexpected EOF") :=
  ⟨(C5_retry_schedule sampleLib sampleConfig sampleDownEnv sampleAgent 3 (by decide) rfl).1
      (fun _ _ => ⟨"connection refused", rfl⟩),
   ((C5_retry_schedule sampleLib sampleConfig sampleBrokenEnv sampleAgent 3 (by decide) rfl).2
      (fun _ => "unexpected EOF") (fun _ _ => rfl)).2⟩

/-- The retry loop sends nothing on the channel. -/
theorem retryLoop_sendCount (lib : StdLib) (env : ProbeEnv) (retryTimes : Int) (agent : Agent) :
    ∀ (fuel i : Nat) (result : InspectionResult) (trace : List ProbeEvent),
      sendCount (retryLoop lib env retryTimes agent fuel i result trace).2 = sendCount trace := by
  intro fuel
  induction fuel with
  | zero => intro i result trace; rfl
  | succ f ih =>
    intro i result trace
    unfold retryLoop
    split
    · split
      · simp [sendCount, List.filter_append]
      · split
        · rw [ih]; simp [sendCount, List.filter_append]
        · rw [ih]; simp [sendCount, List.filter_append]
    · rfl

/-- Every `checkAgent` task sends exactly one result. -/
theorem checkAgent_sendCount (lib : StdLib) (cfg : Config) (env : ProbeEnv) (agent : Agent) :
    sendCount (checkAgent lib cfg env agent).2 = 1 := by
  unfold checkAgent
  have h := retryLoop_sendCount lib env cfg.Check.RetryTimes agent cfg.Check.RetryTimes.toNat 0
    { Agent := agent, Duration := 0 } []
  simp only [sendCount] at h ⊢
  simp [List.filter_append, h]

/-- One task is launched per agent, and each sends exactly one result. -/
theorem launch_facts (lib : StdLib) (cfg : Config) (probe : Nat → ProbeEnv) :
    ∀ (agents : List Agent) (i : Nat),
      (launch lib cfg probe i agents).length = agents.length ∧
      ∀ t ∈ (launch lib cfg probe i agents).map Prod.snd, sendCount t = 1 := by
  intro agents
  induction agents with
  | nil => intro i; simp [launch]
  | cons a rest ih =>
    intro i
    obtain ⟨h1, h2⟩ := ih (i + 1)
    refine ⟨by simp [launch, h1], ?_⟩
    intro t ht
    simp only [launch, List.map_cons, List.mem_cons] at ht
    rcases ht with rfl | ht
    · exact checkAgent_sendCount lib cfg (probe i) a
    · exact h2 t ht

/-- Every result handled by the loop of `processResults` is counted once, as
succeeded or as failed. -/
theorem processResultsFrom_count (lib : StdLib) (cfg : Config) (env : Nat → ResultEnv) :
    ∀ (rs : List InspectionResult) (k : Nat) (st : World × Tally),
      (processResultsFrom lib cfg env k rs st).2.successCount +
        (processResultsFrom lib cfg env k rs st).2.failedCount =
      st.2.successCount + st.2.failedCount + rs.length := by
  intro rs
  induction rs with
  | nil => intro k st; simp [processResultsFrom]
  | cons r rs ih =>
    intro k st
    simp only [processResultsFrom, List.length_cons]
    rw [ih]
    cases hE : r.Error with
    | some e =>
      rw [processResult_error lib cfg (env k) st r e hE]
      simp only
      omega
    | none =>
      rw [(processResult_ok lib cfg (env k) st r hE).1]
      simp only
      omega

/-- C7 as stated fails: when reading the response body fails, `Pull` returns
the error to its caller and a nil inspection. -/
theorem C7_counterexample :
    Pull sampleLib (sampleBrokenEnv.get 0) sampleAgent = (none, some "unexpected EOF") ∧
    ¬ ((Pull sampleLib (sampleBrokenEnv.get 0) sampleAgent).2 = none ∧
       (Pull sampleLib (sampleBrokenEnv.get 0) sampleAgent).1.isSome = true) := by
  decide

/-- C7 (amended). For every agent, `Pull` returns a nil error and a non-nil
inspection whenever the GET fails (connection refused, timeout) and whenever
the body has been read, be it valid JSON or not; when reading the response
body fails, `Pull` returns that error and a nil inspection. -/
theorem C7_pull_errors (lib : StdLib) (get : String → HttpReply) (agent : Agent) :
    ((∀ e, get (agent.URL ++ "/inspect") ≠ HttpReply.readError e) →
      (Pull lib get agent).2 = none ∧ (Pull lib get agent).1.isSome = true) ∧
    (∀ e, get (agent.URL ++ "/inspect") = HttpReply.readError e →
      Pull lib get agent = (none, some e)) := by
  constructor
  · intro h
    unfold Pull
    simp only
    split
    · exact ⟨rfl, rfl⟩
    · rename_i err heq
      exact absurd heq (h err)
    · split
      · exact ⟨rfl, rfl⟩
      · split <;> exact ⟨rfl, rfl⟩
  · intro e h
    exact Pull_readError lib get agent e h

/-- C7 (amended) at a refused connection, at a malformed body, and at a body
that cannot be read. -/
theorem C7_pull_errors_witness :
    ((Pull sampleLib (sampleDownEnv.get 0) sampleAgent).2 = none ∧
      (Pull sampleLib (sampleDownEnv.get 0) sampleAgent).1.isSome = true) ∧
    ((Pull sampleLib (sampleGarbledEnv.get 0) sampleAgent).2 = none ∧
      (Pull sampleLib (sampleGarbledEnv.get 0) sampleAgent).1.isSome = true) ∧
    Pull sampleLib (sampleBrokenEnv.get 0) sampleAgent = (none, some "unexpected EOF") :=
  ⟨(C7_pull_errors sampleLib (sampleDownEnv.get 0) sampleAgent).1 (fun e h => by cases h),
   (C7_pull_errors sampleLib (sampleGarbledEnv.get 0) sampleAgent).1 (fun e h => by cases h),
   (C7_pull_errors sampleLib (sampleBrokenEnv.get 0) sampleAgent).2 "unexpected EOF" rfl⟩

/-- When the body is not the envelope, `Pull` returns the synthetic bad-format
outcome and no error. -/
theorem Pull_badFormat (lib : StdLib) (get : String → HttpReply) (agent : Agent) (b : String)
    (h : get (agent.URL ++ "/inspect") = HttpReply.body b) (hbad : lib.unmarshalEnvelope b = none) :
    Pull lib get agent = (some (badFormatInspection agent), none) := by
  unfold Pull
  simp only [h, hbad]
  rfl

/-- C8 (what the code does). For every agent and every response body that
`json.Unmarshal` cannot decode into the envelope, `Pull` returns, with a nil
error, an inspection with the agent's ID and IP, the agent's inventory name as
hostname, Alert = true, Level = CRITICAL, Analysis
`{"summary":"bad response format"}` and every numeric metric zero.
`checkAgent` does not retry it: whichever attempt `m` (counted from 0, the
earlier ones having returned errors) receives that body is the last attempt,
and the result carries the synthetic inspection. When the node answers its
first attempt that way (`m = 0`), the result carries no error and
`processResults` counts it as succeeded, not as failed, and hands the
synthetic inspection to `SaveInspection`; an accepted insert is stored. When
the body answers a retry (`m ≥ 1`), the result still carries the error of
attempt `m - 1`, which the loop never resets, and `processResults` counts it
as failed and persists nothing: the state is left as it was. -/
theorem C8_bad_format_outcome (lib : StdLib) (cfg : Config) (env : ProbeEnv) (agent : Agent)
    (body : String) (errs : Nat → String) (m : Nat) (hretry : (m : Int) < cfg.Check.RetryTimes)
    (herr : ∀ k, k < m → (Pull lib (env.get k) agent).2 = some (errs k))
    (hbody : env.get m (agent.URL ++ "/inspect") = HttpReply.body body)
    (hbad : lib.unmarshalEnvelope body = none) :
    Pull lib (env.get m) agent = (some (badFormatInspection agent), none) ∧
    ((badFormatInspection agent).AgentID = agent.ID ∧
      (badFormatInspection agent).IP = agent.IP ∧
      (badFormatInspection agent).Hostname = agent.Name ∧
      (badFormatInspection agent).Alert = true ∧
      (badFormatInspection agent).Level = LevelCritical ∧
      (badFormatInspection agent).Analysis = "\x7b\"summary\":\"bad response format\"\x7d" ∧
      (badFormatInspection agent).CPUUsed = 0 ∧
      (badFormatInspection agent).MemoryUsed = 0 ∧
      (badFormatInspection agent).DiskUsed = 0 ∧
      (badFormatInspection agent).LoadAvg = 0 ∧
      (badFormatInspection agent).PingLoss = 0 ∧
      (badFormatInspection agent).JournalErr1h = 0 ∧
      (badFormatInspection agent).ProcessCount = 0 ∧
      (badFormatInspection agent).TCPConnections = 0) ∧
    ((checkAgent lib cfg env agent).2 =
        retriedAttempts 0 m ++ [ProbeEvent.pull m] ++
          [ProbeEvent.send (checkAgent lib cfg env agent).1] ∧
      pullCount (checkAgent lib cfg env agent).2 = m + 1 ∧
      (checkAgent lib cfg env agent).1.Inspection = some (badFormatInspection agent)) ∧
    (m = 0 →
      (checkAgent lib cfg env agent).1.Error = none ∧
      sleeps (checkAgent lib cfg env agent).2 = [] ∧
      ∀ (renv : ResultEnv) (st : World × Tally),
        (processResult lib cfg renv st (checkAgent lib cfg env agent).1).2 =
          { successCount := st.2.successCount + 1, failedCount := st.2.failedCount } ∧
        savedInspections
            (processResult lib cfg renv st (checkAgent lib cfg env agent).1).1.trace =
          savedInspections st.1.trace ++ [some (badFormatInspection agent)] ∧
        (∀ id now, renv.saveInspection = Except.ok (id, now) →
          (badFormatInspection agent).stored id now ∈
            (processResult lib cfg renv st
              (checkAgent lib cfg env agent).1).1.db.inspections)) ∧
    (1 ≤ m →
      (checkAgent lib cfg env agent).1.Error = some (errs (m - 1)) ∧
      ∀ (renv : ResultEnv) (st : World × Tally),
        processResult lib cfg renv st (checkAgent lib cfg env agent).1 =
          (st.1, { successCount := st.2.successCount,
                   failedCount := st.2.failedCount + 1 })) := by
  have hp := Pull_badFormat lib (env.get m) agent body hbody hbad
  have hloop := retryLoop_first_success lib env cfg.Check.RetryTimes agent errs
    (some (badFormatInspection agent)) m cfg.Check.RetryTimes.toNat 0
    { Agent := agent, Duration := 0 } [] (by omega) (by simpa using hretry)
    (fun k _ h2 => herr k (by omega)) (by simpa using hp)
  have hca : checkAgent lib cfg env agent =
      ({ Agent := agent, Inspection := some (badFormatInspection agent),
         Error := if m = 0 then none else some (errs (m - 1)),
         Duration := env.elapsed m },
       retriedAttempts 0 m ++ [ProbeEvent.pull m] ++ [ProbeEvent.send
         { Agent := agent, Inspection := some (badFormatInspection agent),
           Error := if m = 0 then none else some (errs (m - 1)),
           Duration := env.elapsed m }]) := by
    unfold checkAgent
    simp only [hloop]
    simp
  obtain ⟨hc1, hc2⟩ := retriedAttempts_counts m 0
  refine ⟨hp, ⟨rfl, rfl, rfl, rfl, rfl, rfl, rfl, rfl, rfl, rfl, rfl, rfl, rfl, rfl⟩, ?_, ?_, ?_⟩
  · rw [hca]
    refine ⟨rfl, ?_, rfl⟩
    simp only [pullCount] at hc1 ⊢
    simp [List.filter_append, hc1]
  · intro h0
    subst h0
    rw [hca]
    refine ⟨rfl, by simp [sleeps, retriedAttempts], ?_⟩
    intro renv st
    obtain ⟨a, b, _, d⟩ := processResult_ok lib cfg renv st
      { Agent := agent, Inspection := some (badFormatInspection agent), Error := none,
        Duration := env.elapsed 0 } rfl
    exact ⟨a, b, fun id now h => d _ id now rfl h⟩
  · intro h1
    have hm : ¬ (m = 0) := by omega
    have hE : (checkAgent lib cfg env agent).1.Error = some (errs (m - 1)) := by
      rw [hca]
      show (if m = 0 then none else some (errs (m - 1))) = some (errs (m - 1))
      rw [if_neg hm]
    refine ⟨hE, ?_⟩
    intro renv st
    exact processResult_error lib cfg renv st _ _ hE

/-- C8 in the five-node scenario (`retryTimes = 1`, node #3 always malformed):
node #3 is probed once and yields the synthetic bad-format outcome, and the
cycle reports five succeeded and none failed. At the failing input (three
attempts allowed, the first body cannot be read, the second is malformed) the
node is probed twice, the result carries the synthetic inspection and the
error of the first attempt, and it is counted as failed with nothing saved. -/
theorem C8_bad_format_outcome_witness :
    ((checkAgent sampleLib sampleConfig sampleGarbledRetryEnv sampleAgent).1.Inspection =
        some (badFormatInspection sampleAgent) ∧
      (checkAgent sampleLib sampleConfig sampleGarbledRetryEnv sampleAgent).1.Error =
        some "unexpected EOF" ∧
      pullCount (checkAgent sampleLib sampleConfig sampleGarbledRetryEnv sampleAgent).2 = 1 + 1 ∧
      (processResults sampleLib sampleConfig sampleResultEnv {}
          [(checkAgent sampleLib sampleConfig sampleGarbledRetryEnv sampleAgent).1]).2 =
        { total := 1, success := 0, failed := 1 } ∧
      savedInspections (processResults sampleLib sampleConfig sampleResultEnv {}
          [(checkAgent sampleLib sampleConfig sampleGarbledRetryEnv sampleAgent).1]).1.trace =
        []) ∧
    (pullCount (checkAgent sampleLib sampleConfigOnce sampleGarbledEnv sampleThird).2 = 0 + 1 ∧
      (checkAgent sampleLib sampleConfigOnce sampleGarbledEnv sampleThird).1.Inspection =
        some (badFormatInspection sampleThird)) ∧
    (checkAgent sampleLib sampleConfigOnce sampleGarbledEnv sampleThird).1.Error = none ∧
    (batchCheck sampleLib sampleConfigOnce sampleFiveEnv sampleFive).2.1 =
      CycleOutcome.done { total := 5, success := 5, failed := 0 } ∧
    (savedInspections (batchCheck sampleLib sampleConfigOnce sampleFiveEnv sampleFive).1.trace).length
      = 5 ∧
    some (badFormatInspection sampleThird) ∈
      savedInspections (batchCheck sampleLib sampleConfigOnce sampleFiveEnv sampleFive).1.trace :=
  have h := C8_bad_format_outcome sampleLib sampleConfigOnce sampleGarbledEnv sampleThird
    "<html>502</html>" (fun _ => "") 0 (by decide) (fun k hk => by omega) rfl (by decide)
  have g := C8_bad_format_outcome sampleLib sampleConfig sampleGarbledRetryEnv sampleAgent
    "<html>502</html>" (fun _ => "unexpected EOF") 1 (by decide)
    (fun k hk => by
      have hk0 : k = 0 := by omega
      subst hk0
      rfl)
    rfl (by decide)
  ⟨⟨g.2.2.1.2.2, (g.2.2.2.2 (le_refl 1)).1, g.2.2.1.2.1, by decide, by decide⟩,
   h.2.2.1.2, (h.2.2.2.1 rfl).1, by decide, by decide, by decide⟩

/-- The status update of an alert maps the table row by row, and a row is
either kept or has its status set; no other column is written. -/
theorem UpdateAlertStatus_shape (db : Database) (id : Nat) (st : AlertStatus)
    (fail : Option String) :
    ∃ g : Alert → Alert, (∀ a, g a = a ∨ g a = { a with Status := st }) ∧
      (UpdateAlertStatus db id st fail).1.alerts = db.alerts.map g := by
  unfold UpdateAlertStatus
  cases fail with
  | some e => exact ⟨fun a => a, fun a => Or.inl rfl, by simp⟩
  | none =>
    refine ⟨fun a => if a.ID = id then { a with Status := st } else a, ?_, rfl⟩
    intro a
    by_cases h : a.ID = id
    · right; simp [h]
    · left; simp [h]

/-- The mail step: one call of `Send`, no call of `CreateAlert`, and the
alerts table is mapped row by row with at most the status column written. -/
theorem sendAlertMail_effect (lib : StdLib) (cfg : Config) (env : AlertEnv) (w : World)
    (alert : Alert) (agent : Agent) :
    createdAlerts (sendAlertMail lib cfg env w alert agent).1.trace = createdAlerts w.trace ∧
    sendCalls (sendAlertMail lib cfg env w alert agent).1.trace = sendCalls w.trace + 1 ∧
    ∃ g : Alert → Alert, (∀ a, g a = a ∨ g a = { a with Status := AlertPending }) ∧
      (sendAlertMail lib cfg env w alert agent).1.db.alerts = w.db.alerts.map g := by
  unfold sendAlertMail
  simp only
  split
  · refine ⟨?_, ?_, id, fun a => Or.inl rfl, by simp⟩
    · simp [createdAlerts, List.filterMap_append, List.filterMap_map]
    · simp [sendCalls, List.filter_append, List.filter_map]
  · refine ⟨?_, ?_, ?_⟩
    · simp [createdAlerts, List.filterMap_append, List.filterMap_map]
    · simp [sendCalls, List.filter_append, List.filter_map]
    · exact UpdateAlertStatus_shape w.db alert.ID AlertPending env.updateAlertStatus

/-- The alerts table after `processAlert`: the old rows, then at most one new
row, which is not marked notified; after that, at most the status column of
some rows is written. -/
theorem processAlert_alerts_shape (lib : StdLib) (cfg : Config) (env : AlertEnv) (w : World)
    (inspection : Inspection) (agent : Agent) :
    ∃ (g : Alert → Alert) (new : List Alert),
      (∀ a, g a = a ∨ g a = { a with Status := AlertPending }) ∧
      (∀ a ∈ new, a.Notified = false) ∧
      (processAlert lib cfg env w inspection agent).db.alerts = (w.db.alerts ++ new).map g := by
  have hnil : ∃ (g : Alert → Alert) (new : List Alert),
      (∀ a, g a = a ∨ g a = { a with Status := AlertPending }) ∧
      (∀ a ∈ new, a.Notified = false) ∧ w.db.alerts = (w.db.alerts ++ new).map g :=
    ⟨id, [], fun a => Or.inl rfl, by simp, by simp⟩
  have hnew : (newAlert lib inspection agent).Notified = false := by
    unfold newAlert
    simp only
    split <;> rfl
  unfold processAlert
  split
  · exact hnil
  · split
    · exact hnil
    · simp only
      split
      · exact hnil
      · cases hc : env.createAlert with
        | error e =>
          simp only [CreateAlert, hc]
          exact hnil
        | ok p =>
          obtain ⟨id, now⟩ := p
          have hst : ((newAlert lib inspection agent).stored id now).Notified = false := hnew
          simp only [CreateAlert, hc]
          split
          · obtain ⟨_, _, g, hg1, hg2⟩ := sendAlertMail_effect lib cfg env
              { db := { w.db with alerts := w.db.alerts ++
                  [(newAlert lib inspection agent).stored id now] },
                cooldown := (canSendAlert cfg.Alert.Cooldown w.cooldown agent.ID
                  inspection.Level env.tSince env.tNow).2,
                trace := w.trace ++ [Event.createAlert (newAlert lib inspection agent)] }
              ((newAlert lib inspection agent).stored id now) agent
            refine ⟨g, [(newAlert lib inspection agent).stored id now], hg1, ?_, hg2⟩
            intro a ha
            simp only [List.mem_singleton] at ha
            rw [ha]; exact hst
          · refine ⟨fun a => a, [(newAlert lib inspection agent).stored id now],
              fun a => Or.inl rfl, ?_, by simp⟩
            intro a ha
            simp only [List.mem_singleton] at ha
            rw [ha]; exact hst

/-- C9. For every agent with name `n` and every CRITICAL outcome whose
analysis `json.Unmarshal` decodes to summary `s` and plan `p`, when alerting
is enabled, the cooldown map has no entry for (agent, CRITICAL) and the insert
succeeds, `processAlert` calls `CreateAlert` exactly once, with an alert whose
AgentID is the agent's ID, InspectionID the outcome's ID, Level CRITICAL, Title
`n ++ " - CRITICAL"`, Summary `s` and Solution `p`; the alerts table grows by
exactly one row, which has these fields; and `Send` is called exactly once
when the mail channel is enabled with a non-empty host, and not at all
otherwise. -/
theorem C9_alert_created (lib : StdLib) (cfg : Config) (env : AlertEnv) (w : World)
    (inspection : Inspection) (agent : Agent) (s p : String) (ds : List String)
    (id : Nat) (now : Int)
    (hen : cfg.Alert.Enabled = true) (hlv : inspection.Level = LevelCritical)
    (hparse : lib.unmarshalAnalysis inspection.Analysis =
      some { Summary := s, Details := ds, Plan := p })
    (hcool : w.cooldown (cooldownKey agent.ID LevelCritical) = none)
    (hcreate : env.createAlert = Except.ok (id, now)) :
    ∃ alert : Alert,
      (alert.AgentID = agent.ID ∧ alert.InspectionID = inspection.ID ∧
        alert.Level = LevelCritical ∧ alert.Title = agent.Name ++ " - CRITICAL" ∧
        alert.Summary = s ∧ alert.Solution = p) ∧
      createdAlerts (processAlert lib cfg env w inspection agent).trace =
        createdAlerts w.trace ++ [alert] ∧
      (processAlert lib cfg env w inspection agent).db.alerts.length = w.db.alerts.length + 1 ∧
      (∃ row ∈ (processAlert lib cfg env w inspection agent).db.alerts,
        row.AgentID = agent.ID ∧ row.InspectionID = inspection.ID ∧
        row.Level = LevelCritical ∧ row.Title = agent.Name ++ " - CRITICAL" ∧
        row.Summary = s ∧ row.Solution = p) ∧
      sendCalls (processAlert lib cfg env w inspection agent).trace =
        sendCalls w.trace + (if cfg.Mail.Enabled = true ∧ cfg.Mail.Host ≠ "" then 1 else 0) := by
  have hcan : canSendAlert cfg.Alert.Cooldown w.cooldown agent.ID inspection.Level
      env.tSince env.tNow =
      (true, w.cooldown.set (cooldownKey agent.ID LevelCritical) env.tNow) := by
    unfold canSendAlert
    simp [hlv, hcool]
  have htitle : agent.Name ++ " - " ++ LevelCritical = agent.Name ++ " - CRITICAL" := by
    rw [String.append_assoc]; rfl
  have hnew : newAlert lib inspection agent =
      { AgentID := agent.ID, InspectionID := inspection.ID, Level := LevelCritical,
        Title := agent.Name ++ " - CRITICAL", Summary := s, Solution := p,
        Details := match ds with
          | d :: _ => d
          | [] => "" } := by
    unfold newAlert
    simp only [hparse, hlv, htitle]
    cases ds <;> rfl
  have hfields : ∀ a : Alert, a = newAlert lib inspection agent →
      a.AgentID = agent.ID ∧ a.InspectionID = inspection.ID ∧
      a.Level = LevelCritical ∧ a.Title = agent.Name ++ " - CRITICAL" ∧
      a.Summary = s ∧ a.Solution = p := by
    intro a ha
    rw [ha, hnew]
    exact ⟨rfl, rfl, rfl, rfl, rfl, rfl⟩
  have hpa : processAlert lib cfg env w inspection agent =
      if (cfg.Mail.Enabled && decide (cfg.Mail.Host ≠ "")) = true then
        (sendAlertMail lib cfg env
          { db := { w.db with alerts := w.db.alerts ++
              [(newAlert lib inspection agent).stored id now] },
            cooldown := w.cooldown.set (cooldownKey agent.ID LevelCritical) env.tNow,
            trace := w.trace ++ [Event.createAlert (newAlert lib inspection agent)] }
          ((newAlert lib inspection agent).stored id now) agent).1
      else
        { db := { w.db with alerts := w.db.alerts ++
            [(newAlert lib inspection agent).stored id now] },
          cooldown := w.cooldown.set (cooldownKey agent.ID LevelCritical) env.tNow,
          trace := w.trace ++ [Event.createAlert (newAlert lib inspection agent)] } := by
    unfold processAlert
    simp only [hen, hcan, CreateAlert, hcreate]
    simp [hlv]
  have hstored : ∀ a : Alert, (a.stored id now).AgentID = a.AgentID ∧
      (a.stored id now).InspectionID = a.InspectionID ∧ (a.stored id now).Level = a.Level ∧
      (a.stored id now).Title = a.Title ∧ (a.stored id now).Summary = a.Summary ∧
      (a.stored id now).Solution = a.Solution := fun a => ⟨rfl, rfl, rfl, rfl, rfl, rfl⟩
  obtain ⟨f1, f2, f3, f4, f5, f6⟩ := hfields _ rfl
  obtain ⟨t1, t2, t3, t4, t5, t6⟩ := hstored (newAlert lib inspection agent)
  refine ⟨newAlert lib inspection agent, hfields _ rfl, ?_⟩
  rw [hpa]
  by_cases hmail : (cfg.Mail.Enabled && decide (cfg.Mail.Host ≠ "")) = true
  · have hcond : cfg.Mail.Enabled = true ∧ cfg.Mail.Host ≠ "" := by simpa using hmail
    rw [if_pos hmail, if_pos hcond]
    obtain ⟨e1, e2, g, hg1, hg2⟩ := sendAlertMail_effect lib cfg env
      { db := { w.db with alerts := w.db.alerts ++
          [(newAlert lib inspection agent).stored id now] },
        cooldown := w.cooldown.set (cooldownKey agent.ID LevelCritical) env.tNow,
        trace := w.trace ++ [Event.createAlert (newAlert lib inspection agent)] }
      ((newAlert lib inspection agent).stored id now) agent
    refine ⟨?_, ?_, ?_, ?_⟩
    · rw [e1]
      simp [createdAlerts, List.filterMap_append]
    · rw [hg2]
      simp
    · rw [hg2]
      refine ⟨g ((newAlert lib inspection agent).stored id now), ?_, ?_⟩
      · simp
      · rcases hg1 ((newAlert lib inspection agent).stored id now) with h | h <;> rw [h]
        · exact ⟨t1.trans f1, t2.trans f2, t3.trans f3, t4.trans f4, t5.trans f5, t6.trans f6⟩
        · exact ⟨t1.trans f1, t2.trans f2, t3.trans f3, t4.trans f4, t5.trans f5, t6.trans f6⟩
    · rw [e2]
      simp [sendCalls, List.filter_append]
  · have hcond : ¬ (cfg.Mail.Enabled = true ∧ cfg.Mail.Host ≠ "") := by simpa using hmail
    rw [if_neg hmail, if_neg hcond]
    refine ⟨?_, ?_, ?_, ?_⟩
    · simp [createdAlerts, List.filterMap_append]
    · simp
    · exact ⟨(newAlert lib inspection agent).stored id now, by simp,
        t1.trans f1, t2.trans f2, t3.trans f3, t4.trans f4, t5.trans f5, t6.trans f6⟩
    · simp [sendCalls, List.filter_append]

/-- C9 in the scenario of the specification: verdict CRITICAL with summary
`disk full` and plan `expand volume`, alerting and mail enabled, empty
cooldown map. One alert is handed to `CreateAlert` and stored, and `Send` is
called once. -/
theorem C9_alert_created_witness :
    (∃ alert : Alert,
      (alert.AgentID = sampleAgent.ID ∧ alert.InspectionID = sampleCritical.ID ∧
        alert.Level = LevelCritical ∧ alert.Title = sampleAgent.Name ++ " - CRITICAL" ∧
        alert.Summary = "disk full" ∧ alert.Solution = "expand volume") ∧
      createdAlerts (processAlert sampleLib sampleConfig (sampleAlertEnv 0 0) {} sampleCritical
          sampleAgent).trace = createdAlerts ({} : World).trace ++ [alert] ∧
      (processAlert sampleLib sampleConfig (sampleAlertEnv 0 0) {} sampleCritical
          sampleAgent).db.alerts.length = ({} : World).db.alerts.length + 1 ∧
      (∃ row ∈ (processAlert sampleLib sampleConfig (sampleAlertEnv 0 0) {} sampleCritical
          sampleAgent).db.alerts,
        row.AgentID = sampleAgent.ID ∧ row.InspectionID = sampleCritical.ID ∧
        row.Level = LevelCritical ∧ row.Title = sampleAgent.Name ++ " - CRITICAL" ∧
        row.Summary = "disk full" ∧ row.Solution = "expand volume") ∧
      sendCalls (processAlert sampleLib sampleConfig (sampleAlertEnv 0 0) {} sampleCritical
          sampleAgent).trace =
        sendCalls ({} : World).trace +
          (if sampleConfig.Mail.Enabled = true ∧ sampleConfig.Mail.Host ≠ "" then 1 else 0)) ∧
    createdAlerts (processAlert sampleLib sampleConfig (sampleAlertEnv 0 0) {} sampleCritical
        sampleAgent).trace =
      [{ AgentID := 7, InspectionID := 41, Level := "CRITICAL", Title := "db-1 - CRITICAL",
         Summary := "disk full", Solution := "expand volume" }] ∧
    sendCalls (processAlert sampleLib sampleConfig (sampleAlertEnv 0 0) {} sampleCritical
        sampleAgent).trace = 1 :=
  ⟨C9_alert_created sampleLib sampleConfig (sampleAlertEnv 0 0) {} sampleCritical sampleAgent
      "disk full" "expand volume" [] 1 0 (by decide) (by decide) (by decide) rfl rfl,
   by decide, by decide⟩

/-- C10 (what the code does). `processAlert` never writes the `notified`
column: whatever `Send` returns, if no stored alert was marked notified
before the call, none is afterwards. The flag is set on the record in memory
only, and the update that follows a successful send writes the column
`status`. -/
theorem C10_notified_not_persisted (lib : StdLib) (cfg : Config) (env : AlertEnv) (w : World)
    (inspection : Inspection) (agent : Agent)
    (hold : ∀ a ∈ w.db.alerts, a.Notified = false) :
    ∀ a ∈ (processAlert lib cfg env w inspection agent).db.alerts, a.Notified = false := by
  obtain ⟨g, new, hg, hnew, hshape⟩ := processAlert_alerts_shape lib cfg env w inspection agent
  intro a ha
  rw [hshape, List.mem_map] at ha
  obtain ⟨b, hb, rfl⟩ := ha
  have hbn : b.Notified = false := by
    rcases List.mem_append.mp hb with h | h
    · exact hold b h
    · exact hnew b h
  rcases hg b with h | h <;> rw [h] <;> exact hbn

/-- C10 at its failing input: a CRITICAL outcome, alerting and mail enabled,
the send succeeds. The alert is stored, `Send` is called once and succeeds,
the update that follows writes `status = pending` for the alert, and the
stored row still has `notified = false`. -/
theorem C10_notified_not_persisted_witness :
    (∀ a ∈ (processAlert sampleLib sampleConfig (sampleAlertEnv 0 0) {} sampleCritical
        sampleAgent).db.alerts, a.Notified = false) ∧
    (processAlert sampleLib sampleConfig (sampleAlertEnv 0 0) {} sampleCritical
        sampleAgent).db.alerts =
      [{ ID := 1, AgentID := 7, InspectionID := 41, Level := "CRITICAL",
         Title := "db-1 - CRITICAL", Summary := "disk full", Solution := "expand volume",
         Status := "pending", Notified := false, CreatedAt := 0 }] ∧
    sendCalls (processAlert sampleLib sampleConfig (sampleAlertEnv 0 0) {} sampleCritical
        sampleAgent).trace = 1 ∧
    (processAlert sampleLib sampleConfig (sampleAlertEnv 0 0) {} sampleCritical
        sampleAgent).trace.getLast? = some (Event.updateAlertStatus 1 "pending") ∧
    (sendAlertMail sampleLib sampleConfig (sampleAlertEnv 0 0) {}
        { ID := 1, Level := "CRITICAL" } sampleAgent).2.Notified = true :=
  ⟨C10_notified_not_persisted sampleLib sampleConfig (sampleAlertEnv 0 0) {} sampleCritical
      sampleAgent (fun a ha => by cases ha),
   by decide, by decide, by decide, by decide⟩

/-- A CRITICAL outcome that passes the cooldown check while the insert fails:
the cooldown entry is written, the alert is handed to `CreateAlert`, and
nothing else happens. -/
theorem processAlert_create_fails (lib : StdLib) (cfg : Config) (env : AlertEnv) (w : World)
    (inspection : Inspection) (agent : Agent) (e : String) (hen : cfg.Alert.Enabled = true)
    (hlv : inspection.Level = LevelCritical)
    (hcan : (canSendAlert cfg.Alert.Cooldown w.cooldown agent.ID inspection.Level
      env.tSince env.tNow).1 = true)
    (hcreate : env.createAlert = Except.error e) :
    processAlert lib cfg env w inspection agent =
      { db := w.db,
        cooldown := (canSendAlert cfg.Alert.Cooldown w.cooldown agent.ID inspection.Level
          env.tSince env.tNow).2,
        trace := w.trace ++ [Event.createAlert (newAlert lib inspection agent)] } := by
  unfold processAlert
  simp only [hen, hcan, CreateAlert, hcreate]
  simp [hlv]

/-- A CRITICAL outcome that passes the cooldown check and whose insert
succeeds: the cooldown entry is written, the alert is stored, and the mail
step follows when the mail channel is enabled with a non-empty host. -/
theorem processAlert_created_ok (lib : StdLib) (cfg : Config) (env : AlertEnv) (w : World)
    (inspection : Inspection) (agent : Agent) (id : Nat) (now : Int)
    (hen : cfg.Alert.Enabled = true) (hlv : inspection.Level = LevelCritical)
    (hcan : (canSendAlert cfg.Alert.Cooldown w.cooldown agent.ID inspection.Level
      env.tSince env.tNow).1 = true)
    (hcreate : env.createAlert = Except.ok (id, now)) :
    processAlert lib cfg env w inspection agent =
      if (cfg.Mail.Enabled && decide (cfg.Mail.Host ≠ "")) = true then
        (sendAlertMail lib cfg env
          { db := { w.db with alerts := w.db.alerts ++
              [(newAlert lib inspection agent).stored id now] },
            cooldown := (canSendAlert cfg.Alert.Cooldown w.cooldown agent.ID inspection.Level
              env.tSince env.tNow).2,
            trace := w.trace ++ [Event.createAlert (newAlert lib inspection agent)] }
          ((newAlert lib inspection agent).stored id now) agent).1
      else
        { db := { w.db with alerts := w.db.alerts ++
            [(newAlert lib inspection agent).stored id now] },
          cooldown := (canSendAlert cfg.Alert.Cooldown w.cooldown agent.ID inspection.Level
            env.tSince env.tNow).2,
          trace := w.trace ++ [Event.createAlert (newAlert lib inspection agent)] } := by
  unfold processAlert
  simp only [hen, hcan, CreateAlert, hcreate]
  simp [hlv]

/-- A CRITICAL outcome that passes the cooldown check and whose insert
succeeds: exactly one more alert is handed to `CreateAlert`, the table has
exactly one more row, and the cooldown map is the one `canSendAlert` returns. -/
theorem processAlert_created_facts (lib : StdLib) (cfg : Config) (env : AlertEnv) (w : World)
    (inspection : Inspection) (agent : Agent) (id : Nat) (now : Int)
    (hen : cfg.Alert.Enabled = true) (hlv : inspection.Level = LevelCritical)
    (hcan : (canSendAlert cfg.Alert.Cooldown w.cooldown agent.ID inspection.Level
      env.tSince env.tNow).1 = true)
    (hcreate : env.createAlert = Except.ok (id, now)) :
    createdAlerts (processAlert lib cfg env w inspection agent).trace =
      createdAlerts w.trace ++ [newAlert lib inspection agent] ∧
    (processAlert lib cfg env w inspection agent).db.alerts.length = w.db.alerts.length + 1 ∧
    (processAlert lib cfg env w inspection agent).cooldown =
      (canSendAlert cfg.Alert.Cooldown w.cooldown agent.ID inspection.Level
        env.tSince env.tNow).2 := by
  rw [processAlert_created_ok lib cfg env w inspection agent id now hen hlv hcan hcreate]
  by_cases hmail : (cfg.Mail.Enabled && decide (cfg.Mail.Host ≠ "")) = true
  · rw [if_pos hmail]
    obtain ⟨e1, _, g, _, hg2⟩ := sendAlertMail_effect lib cfg env
      { db := { w.db with alerts := w.db.alerts ++
          [(newAlert lib inspection agent).stored id now] },
        cooldown := (canSendAlert cfg.Alert.Cooldown w.cooldown agent.ID inspection.Level
          env.tSince env.tNow).2,
        trace := w.trace ++ [Event.createAlert (newAlert lib inspection agent)] }
      ((newAlert lib inspection agent).stored id now) agent
    obtain ⟨c1, _⟩ := sendAlertMail_frame lib cfg env
      { db := { w.db with alerts := w.db.alerts ++
          [(newAlert lib inspection agent).stored id now] },
        cooldown := (canSendAlert cfg.Alert.Cooldown w.cooldown agent.ID inspection.Level
          env.tSince env.tNow).2,
        trace := w.trace ++ [Event.createAlert (newAlert lib inspection agent)] }
      ((newAlert lib inspection agent).stored id now) agent 0
    refine ⟨?_, ?_, c1⟩
    · rw [e1]
      simp [createdAlerts, List.filterMap_append]
    · rw [hg2]
      simp
  · rw [if_neg hmail]
    refine ⟨?_, ?_, rfl⟩
    · simp [createdAlerts, List.filterMap_append]
    · simp

/-- A call passes the cooldown check when its key has no entry or an entry
that is at least the cooldown old. -/
theorem canSendAlert_true_of (d : Int) (m : CooldownMap) (a : Nat) (l : InspectionLevel)
    (s n : Int) (h : ∀ t, m (cooldownKey a l) = some t → t + d ≤ s) :
    (canSendAlert d m a l s n).1 = true := by
  unfold canSendAlert
  simp only
  split
  · rename_i t ht
    have := h t ht
    split
    · omega
    · rfl
  · rfl

/-- C11 as stated fails when the first of the two outcomes is itself inside
the cooldown of an earlier alert. With a cooldown of 300, an alert raised at
time 0 suppresses the outcome evaluated at 100; the outcome evaluated at 401,
more than the cooldown after the one at 100, raises an alert. The two
outcomes at 100 and 401 create one alert, not two. -/
theorem C11_counterexample :
    (100 : Int) + sampleConfig.Alert.Cooldown < 401 ∧
    (createdAlerts (processAlert sampleLib sampleConfig (sampleAlertEnvWithKey 1 0 0) {}
      sampleCritical sampleAgent).trace).length = 1 ∧
    (createdAlerts (processAlert sampleLib sampleConfig (sampleAlertEnvWithKey 3 401 401)
      (processAlert sampleLib sampleConfig (sampleAlertEnvWithKey 2 100 100)
        (processAlert sampleLib sampleConfig (sampleAlertEnvWithKey 1 0 0) {}
          sampleCritical sampleAgent)
        sampleCriticalLater sampleAgent)
      sampleCriticalLater sampleAgent).trace).length = 1 + 1 ∧
    ¬ ((createdAlerts (processAlert sampleLib sampleConfig (sampleAlertEnvWithKey 3 401 401)
      (processAlert sampleLib sampleConfig (sampleAlertEnvWithKey 2 100 100)
        (processAlert sampleLib sampleConfig (sampleAlertEnvWithKey 1 0 0) {}
          sampleCritical sampleAgent)
        sampleCriticalLater sampleAgent)
      sampleCriticalLater sampleAgent).trace).length = 1 + 2) := by
  decide

/-- C11 (amended). Two CRITICAL outcomes of one node are evaluated by
`processAlert` one after the other, with alerting enabled and both inserts
succeeding; the first is not suppressed by an earlier alert (its key has no
cooldown entry, or one that is at least the cooldown old) and the second
reads the clock more than the cooldown after the time the first stored. Then
two alerts are created, one per evaluation: each evaluation hands its alert
to `CreateAlert`, in order, and the alerts table grows by two rows. -/
theorem C11_two_alerts_after_cooldown (lib : StdLib) (cfg : Config) (e1 e2 : AlertEnv)
    (w : World) (i1 i2 : Inspection) (agent1 agent2 : Agent) (id1 id2 : Nat) (n1 n2 : Int)
    (hen : cfg.Alert.Enabled = true)
    (hl1 : i1.Level = LevelCritical) (hl2 : i2.Level = LevelCritical)
    (hsame : agent2.ID = agent1.ID)
    (hc1 : e1.createAlert = Except.ok (id1, n1)) (hc2 : e2.createAlert = Except.ok (id2, n2))
    (hfirst : ∀ t, w.cooldown (cooldownKey agent1.ID LevelCritical) = some t →
      t + cfg.Alert.Cooldown ≤ e1.tSince)
    (hlater : e1.tNow + cfg.Alert.Cooldown < e2.tSince) :
    createdAlerts (processAlert lib cfg e1 w i1 agent1).trace =
      createdAlerts w.trace ++ [newAlert lib i1 agent1] ∧
    createdAlerts (processAlert lib cfg e2 (processAlert lib cfg e1 w i1 agent1) i2 agent2).trace =
      createdAlerts w.trace ++ [newAlert lib i1 agent1, newAlert lib i2 agent2] ∧
    (processAlert lib cfg e2 (processAlert lib cfg e1 w i1 agent1) i2 agent2).db.alerts.length =
      w.db.alerts.length + 2 ∧
    (newAlert lib i1 agent1).InspectionID = i1.ID ∧
    (newAlert lib i2 agent2).InspectionID = i2.ID := by
  have hcan1 : (canSendAlert cfg.Alert.Cooldown w.cooldown agent1.ID i1.Level
      e1.tSince e1.tNow).1 = true :=
    canSendAlert_true_of _ _ _ _ _ _ (by rw [hl1]; exact hfirst)
  obtain ⟨a1, a2, a3⟩ := processAlert_created_facts lib cfg e1 w i1 agent1 id1 n1 hen hl1
    hcan1 hc1
  have hset := canSendAlert_true_sets _ _ _ _ _ _ hcan1
  rw [← a3, hl1] at hset
  have hcan2 : (canSendAlert cfg.Alert.Cooldown (processAlert lib cfg e1 w i1 agent1).cooldown
      agent2.ID i2.Level e2.tSince e2.tNow).1 = true := by
    apply canSendAlert_true_of
    intro t ht
    rw [hl2, hsame, hset] at ht
    cases ht
    omega
  obtain ⟨b1, b2, _⟩ := processAlert_created_facts lib cfg e2 (processAlert lib cfg e1 w i1 agent1)
    i2 agent2 id2 n2 hen hl2 hcan2 hc2
  have hid : ∀ (i : Inspection) (a : Agent), (newAlert lib i a).InspectionID = i.ID := by
    intro i a
    unfold newAlert
    simp only
    split <;> rfl
  refine ⟨a1, ?_, ?_, hid _ _, hid _ _⟩
  · rw [b1, a1]
    simp
  · rw [b2, a2]

/-- C11 at two CRITICAL outcomes of one node evaluated 301 apart with a
cooldown of 300, from an empty cooldown map: two alerts, two rows. -/
theorem C11_two_alerts_after_cooldown_witness :
    (0 : Int) + sampleConfig.Alert.Cooldown < 301 ∧
    createdAlerts (processAlert sampleLib sampleConfig (sampleAlertEnvWithKey 2 301 301)
        (processAlert sampleLib sampleConfig (sampleAlertEnvWithKey 1 0 0) {} sampleCritical
          sampleAgent) sampleCriticalLater sampleAgent).trace =
      createdAlerts ({} : World).trace ++
        [newAlert sampleLib sampleCritical sampleAgent,
         newAlert sampleLib sampleCriticalLater sampleAgent] ∧
    (processAlert sampleLib sampleConfig (sampleAlertEnvWithKey 2 301 301)
        (processAlert sampleLib sampleConfig (sampleAlertEnvWithKey 1 0 0) {} sampleCritical
          sampleAgent) sampleCriticalLater sampleAgent).db.alerts.length =
      ({} : World).db.alerts.length + 2 ∧
    (processAlert sampleLib sampleConfig (sampleAlertEnvWithKey 2 301 301)
        (processAlert sampleLib sampleConfig (sampleAlertEnvWithKey 1 0 0) {} sampleCritical
          sampleAgent) sampleCriticalLater sampleAgent).db.alerts.map (fun a => a.InspectionID)
      = [41, 58] :=
  have h := C11_two_alerts_after_cooldown sampleLib sampleConfig (sampleAlertEnvWithKey 1 0 0)
    (sampleAlertEnvWithKey 2 301 301) {} sampleCritical sampleCriticalLater sampleAgent
    sampleAgent 1 2 0 301 (by decide) (by decide) (by decide) rfl rfl rfl
    (fun t ht => by cases ht) (by decide)
  ⟨by decide, h.2.1, h.2.2.1, by decide⟩

/-- C12. For every result that carries an error, one iteration of
`processResults` increments the failure counter by one and does nothing else:
no call to a collaborator is made (no inspection is persisted, the alert
engine is not entered, the node's status is not updated), the database and
the cooldown map are unchanged, and the success counter is unchanged. -/
theorem C12_error_result_only_counted (lib : StdLib) (cfg : Config) (env : ResultEnv)
    (st : World × Tally) (r : InspectionResult) (e : String) (herr : r.Error = some e) :
    (processResult lib cfg env st r).2.failedCount = st.2.failedCount + 1 ∧
    (processResult lib cfg env st r).2.successCount = st.2.successCount ∧
    (processResult lib cfg env st r).1.trace = st.1.trace ∧
    (processResult lib cfg env st r).1.db = st.1.db ∧
    (processResult lib cfg env st r).1.cooldown = st.1.cooldown := by
  rw [processResult_error lib cfg env st r e herr]
  exact ⟨rfl, rfl, rfl, rfl, rfl⟩

/-- C12 at a result that carries the error `unexpected EOF`, in a state with
two successes counted: only the failure counter moves. -/
theorem C12_error_result_only_counted_witness :
    (processResult sampleLib sampleConfig (sampleResultEnv 1)
        ({}, { successCount := 2, failedCount := 0 })
        { Agent := sampleAgent, Inspection := some sampleCritical,
          Error := some "unexpected EOF" }).2.failedCount = 0 + 1 ∧
    (processResult sampleLib sampleConfig (sampleResultEnv 1)
        ({}, { successCount := 2, failedCount := 0 })
        { Agent := sampleAgent, Inspection := some sampleCritical,
          Error := some "unexpected EOF" }).2.successCount = 2 ∧
    (processResult sampleLib sampleConfig (sampleResultEnv 1)
        ({}, { successCount := 2, failedCount := 0 })
        { Agent := sampleAgent, Inspection := some sampleCritical,
          Error := some "unexpected EOF" }).1.trace = ({} : World).trace ∧
    (processResult sampleLib sampleConfig (sampleResultEnv 1)
        ({}, { successCount := 2, failedCount := 0 })
        { Agent := sampleAgent, Inspection := some sampleCritical,
          Error := some "unexpected EOF" }).1.db = ({} : World).db ∧
    (processResult sampleLib sampleConfig (sampleResultEnv 1)
        ({}, { successCount := 2, failedCount := 0 })
        { Agent := sampleAgent, Inspection := some sampleCritical,
          Error := some "unexpected EOF" }).1.cooldown = ({} : World).cooldown :=
  C12_error_result_only_counted sampleLib sampleConfig (sampleResultEnv 1)
    ({}, { successCount := 2, failedCount := 0 })
    { Agent := sampleAgent, Inspection := some sampleCritical, Error := some "unexpected EOF" }
    "unexpected EOF" rfl

/-- The result of a task whose GET fails on the first attempt: one attempt,
the synthetic unreachable outcome, no error. -/
theorem checkAgent_get_fails (lib : StdLib) (cfg : Config) (env : ProbeEnv) (agent : Agent)
    (e : String) (hretry : 1 ≤ cfg.Check.RetryTimes)
    (hget : env.get 0 (agent.URL ++ "/inspect") = HttpReply.getError e) :
    checkAgent lib cfg env agent =
      ({ Agent := agent, Inspection := some (unreachableInspection agent), Error := none,
         Duration := env.elapsed 0 },
       [ProbeEvent.pull 0, ProbeEvent.send
         { Agent := agent, Inspection := some (unreachableInspection agent), Error := none,
           Duration := env.elapsed 0 }]) := by
  have hp := Pull_getError lib (env.get 0) agent e hget
  have hloop := retryLoop_first_success lib env cfg.Check.RetryTimes agent (fun _ => "")
    (some (unreachableInspection agent)) 0 cfg.Check.RetryTimes.toNat 0
    { Agent := agent, Duration := 0 } [] (by omega) (by simpa using hretry)
    (fun k h1 h2 => by omega) hp
  unfold checkAgent
  simp only [hloop]
  simp [retriedAttempts]

/-- The result of a task whose body cannot be read on any of its `N ≥ 1`
attempts: no inspection, the error of the last attempt. -/
theorem checkAgent_read_fails (lib : StdLib) (cfg : Config) (env : ProbeEnv) (agent : Agent)
    (errs : Nat → String) (N : Nat) (hN : 1 ≤ N) (hcfg : cfg.Check.RetryTimes = (N : Int))
    (hread : ∀ i, i < N → env.get i (agent.URL ++ "/inspect") = HttpReply.readError (errs i)) :
    (checkAgent lib cfg env agent).1 =
      { Agent := agent, Inspection := none, Error := some (errs (N - 1)), Duration := 0 } := by
  obtain ⟨n, rfl⟩ : ∃ n, N = n + 1 := ⟨N - 1, by omega⟩
  have hfuel : cfg.Check.RetryTimes.toNat = n + 1 := by rw [hcfg]; simp
  have hloop := retryLoop_all_fail lib env cfg.Check.RetryTimes agent errs n 0
    { Agent := agent, Duration := 0 } [] (by rw [hcfg]; simp)
    (fun k _ hk => by rw [Pull_readError lib (env.get k) agent _ (hread k (by omega))])
  unfold checkAgent
  simp only [hfuel, hloop]
  simp

/-- The retry loop never clears the error field: a result that carries an
error when an iteration starts carries one when the loop ends. -/
theorem retryLoop_error_sticky (lib : StdLib) (env : ProbeEnv) (retryTimes : Int)
    (agent : Agent) :
    ∀ (fuel i : Nat) (result : InspectionResult) (trace : List ProbeEvent),
      result.Error ≠ none →
      (retryLoop lib env retryTimes agent fuel i result trace).1.Error ≠ none := by
  intro fuel
  induction fuel with
  | zero => intro i result trace h; exact h
  | succ f ih =>
    intro i result trace h
    unfold retryLoop
    split
    · split
      · exact h
      · simp only
        split
        · exact ih _ _ _ (by simp)
        · exact ih _ _ _ (by simp)
    · exact h

/-- The function `Pull` returns an error exactly when reading the response body
fails. -/
theorem Pull_error_iff (lib : StdLib) (get : String → HttpReply) (agent : Agent) :
    (Pull lib get agent).2 ≠ none ↔ ∃ e, get (agent.URL ++ "/inspect") = HttpReply.readError e := by
  unfold Pull
  simp only
  cases hg : get (agent.URL ++ "/inspect") with
  | getError e => simp
  | readError e => simp
  | body b =>
    simp only
    cases lib.unmarshalEnvelope b with
    | none => simp
    | some r =>
      simp only
      cases lib.unmarshalSysInfo r.RawData <;> simp

/-- With at least one attempt allowed, the result `checkAgent` sends carries an
error exactly when the first attempt returns one. -/
theorem checkAgent_error_iff (lib : StdLib) (cfg : Config) (env : ProbeEnv) (agent : Agent)
    (hretry : 1 ≤ cfg.Check.RetryTimes) :
    (checkAgent lib cfg env agent).1.Error ≠ none ↔ (Pull lib (env.get 0) agent).2 ≠ none := by
  obtain ⟨f, hf⟩ : ∃ f, cfg.Check.RetryTimes.toNat = f + 1 :=
    ⟨cfg.Check.RetryTimes.toNat - 1, by omega⟩
  have h0 : ((0 : Nat) : Int) < cfg.Check.RetryTimes := by
    simp only [Nat.cast_zero]
    omega
  unfold checkAgent
  simp only [hf]
  unfold retryLoop
  rw [if_pos h0]
  cases hp : Pull lib (env.get 0) agent with
  | mk insp err =>
    cases err with
    | none => simp
    | some e =>
      simp only
      constructor
      · intro _
        simp
      · intro _
        split
        · exact retryLoop_error_sticky lib env _ agent _ _ _ _ (by simp)
        · exact retryLoop_error_sticky lib env _ agent _ _ _ _ (by simp)

/-- C13 as stated fails: for a node that refuses every connection, with three
attempts allowed, `processResults` counts the outcome as succeeded, not as
failed, and hands the synthetic unreachable inspection to `SaveInspection`. -/
theorem C13_counterexample :
    sampleConfig.Check.RetryTimes = 3 ∧
    sampleDownEnv.get 0 (sampleAgent.URL ++ "/inspect") = HttpReply.getError "connection refused" ∧
    sampleDownEnv.get 1 (sampleAgent.URL ++ "/inspect") = HttpReply.getError "connection refused" ∧
    sampleDownEnv.get 2 (sampleAgent.URL ++ "/inspect") = HttpReply.getError "connection refused" ∧
    (processResults sampleLib sampleConfig sampleResultEnv {}
      [(checkAgent sampleLib sampleConfig sampleDownEnv sampleAgent).1]).2 =
      { total := 1, success := 1, failed := 0 } ∧
    savedInspections (processResults sampleLib sampleConfig sampleResultEnv {}
      [(checkAgent sampleLib sampleConfig sampleDownEnv sampleAgent).1]).1.trace =
      [some (unreachableInspection sampleAgent)] ∧
    (processResults sampleLib sampleConfig sampleResultEnv {}
      [(checkAgent sampleLib sampleConfig sampleDownEnv sampleAgent).1]).1.db.inspections =
      [(unreachableInspection sampleAgent).stored 0 10] := by
  decide

/-- C13 (amended). Let `retryTimes = N ≥ 1`. (1) For a node whose GET fails on
every attempt, the result carries no error and the synthetic unreachable
inspection; `processResults` counts it in `successCount`, not in
`failedCount`, and hands that inspection to `SaveInspection`, and an accepted
insert is stored. (2) For a node whose `Pull` returns an error on every
attempt (reading the body fails), `processResults` counts the outcome in
`failedCount`, not in `successCount`, and persists no inspection for it: the
state is left as it was. (3) In general the result of a node carries an error
exactly when reading the response body of its first attempt fails, whatever
the later attempts return: then `processResults` counts it in `failedCount`
and leaves the state as it was, and otherwise it counts it in
`successCount`. -/
theorem C13_connectivity_failure_counting (lib : StdLib) (cfg : Config) (env : ProbeEnv)
    (agent : Agent) (N : Nat) (hN : 1 ≤ N) (hcfg : cfg.Check.RetryTimes = (N : Int)) :
    ((∀ i, i < N → ∃ e, env.get i (agent.URL ++ "/inspect") = HttpReply.getError e) →
      (checkAgent lib cfg env agent).1.Error = none ∧
      (checkAgent lib cfg env agent).1.Inspection = some (unreachableInspection agent) ∧
      ∀ (renv : ResultEnv) (st : World × Tally),
        (processResult lib cfg renv st (checkAgent lib cfg env agent).1).2 =
          { successCount := st.2.successCount + 1, failedCount := st.2.failedCount } ∧
        savedInspections
            (processResult lib cfg renv st (checkAgent lib cfg env agent).1).1.trace =
          savedInspections st.1.trace ++ [some (unreachableInspection agent)] ∧
        (∀ id now, renv.saveInspection = Except.ok (id, now) →
          (unreachableInspection agent).stored id now ∈
            (processResult lib cfg renv st
              (checkAgent lib cfg env agent).1).1.db.inspections)) ∧
    (∀ errs : Nat → String,
      (∀ i, i < N → env.get i (agent.URL ++ "/inspect") = HttpReply.readError (errs i)) →
      (checkAgent lib cfg env agent).1.Error = some (errs (N - 1)) ∧
      (checkAgent lib cfg env agent).1.Inspection = none ∧
      ∀ (renv : ResultEnv) (st : World × Tally),
        processResult lib cfg renv st (checkAgent lib cfg env agent).1 =
          (st.1, { successCount := st.2.successCount,
                   failedCount := st.2.failedCount + 1 })) ∧
    (((checkAgent lib cfg env agent).1.Error ≠ none ↔
        ∃ e, env.get 0 (agent.URL ++ "/inspect") = HttpReply.readError e) ∧
      ((∃ e, env.get 0 (agent.URL ++ "/inspect") = HttpReply.readError e) →
        ∀ (renv : ResultEnv) (st : World × Tally),
          processResult lib cfg renv st (checkAgent lib cfg env agent).1 =
            (st.1, { successCount := st.2.successCount,
                     failedCount := st.2.failedCount + 1 })) ∧
      ((¬ ∃ e, env.get 0 (agent.URL ++ "/inspect") = HttpReply.readError e) →
        ∀ (renv : ResultEnv) (st : World × Tally),
          (processResult lib cfg renv st (checkAgent lib cfg env agent).1).2 =
            { successCount := st.2.successCount + 1, failedCount := st.2.failedCount } ∧
          savedInspections
              (processResult lib cfg renv st (checkAgent lib cfg env agent).1).1.trace =
            savedInspections st.1.trace ++ [(checkAgent lib cfg env agent).1.Inspection])) := by
  have hiff : (checkAgent lib cfg env agent).1.Error ≠ none ↔
      ∃ e, env.get 0 (agent.URL ++ "/inspect") = HttpReply.readError e :=
    (checkAgent_error_iff lib cfg env agent (by rw [hcfg]; exact_mod_cast hN)).trans
      (Pull_error_iff lib (env.get 0) agent)
  refine ⟨?_, ?_, hiff, ?_, ?_⟩
  rotate_left 2
  · intro hread renv st
    obtain ⟨e, he⟩ := Option.ne_none_iff_exists'.1 (hiff.2 hread)
    exact processResult_error lib cfg renv st _ e he
  · intro hread renv st
    have hnone : (checkAgent lib cfg env agent).1.Error = none := by
      by_contra hc
      exact hread (hiff.1 hc)
    obtain ⟨a, b, _, _⟩ := processResult_ok lib cfg renv st _ hnone
    exact ⟨a, b⟩
  · intro hdown
    obtain ⟨e, he⟩ := hdown 0 (by omega)
    have hca := checkAgent_get_fails lib cfg env agent e (by rw [hcfg]; exact_mod_cast hN) he
    rw [hca]
    refine ⟨rfl, rfl, ?_⟩
    intro renv st
    obtain ⟨a, b, _, d⟩ := processResult_ok lib cfg renv st
      { Agent := agent, Inspection := some (unreachableInspection agent), Error := none,
        Duration := env.elapsed 0 } rfl
    exact ⟨a, b, fun id now h => d _ id now rfl h⟩
  · intro errs hread
    have hres := checkAgent_read_fails lib cfg env agent errs N hN hcfg hread
    rw [hres]
    refine ⟨rfl, rfl, ?_⟩
    intro renv st
    exact processResult_error lib cfg renv st _ _ rfl

/-- C13 (amended) with three attempts allowed: a refused connection is
counted as succeeded and its synthetic inspection is saved; a body that
cannot be read is counted as failed and nothing is saved; and a node whose
first body cannot be read while its second attempt succeeds is counted as
failed too. -/
theorem C13_connectivity_failure_counting_witness :
    ((processResult sampleLib sampleConfig (sampleResultEnv 1) ({}, {})
        (checkAgent sampleLib sampleConfig sampleDownEnv sampleAgent).1).2 =
        { successCount := 0 + 1, failedCount := 0 } ∧
      savedInspections (processResult sampleLib sampleConfig (sampleResultEnv 1) ({}, {})
        (checkAgent sampleLib sampleConfig sampleDownEnv sampleAgent).1).1.trace =
        [some (unreachableInspection sampleAgent)]) ∧
    ((processResult sampleLib sampleConfig (sampleResultEnv 1) ({}, {})
        (checkAgent sampleLib sampleConfig sampleBrokenEnv sampleAgent).1).2 =
        { successCount := 0, failedCount := 0 + 1 } ∧
      savedInspections (processResult sampleLib sampleConfig (sampleResultEnv 1) ({}, {})
        (checkAgent sampleLib sampleConfig sampleBrokenEnv sampleAgent).1).1.trace = []) ∧
    processResult sampleLib sampleConfig (sampleResultEnv 1) ({}, {})
        (checkAgent sampleLib sampleConfig sampleFlakyEnv sampleAgent).1 =
      ((({}, {}) : World × Tally).1, { successCount := 0, failedCount := 0 + 1 }) :=
  have f := C13_connectivity_failure_counting sampleLib sampleConfig sampleFlakyEnv sampleAgent 3
    (by decide) rfl
  have h := C13_connectivity_failure_counting sampleLib sampleConfig sampleDownEnv sampleAgent 3
    (by decide) rfl
  have g := C13_connectivity_failure_counting sampleLib sampleConfig sampleBrokenEnv sampleAgent 3
    (by decide) rfl
  ⟨⟨((h.1 (fun _ _ => ⟨"connection refused", rfl⟩)).2.2 (sampleResultEnv 1) ({}, {})).1,
    ((h.1 (fun _ _ => ⟨"connection refused", rfl⟩)).2.2 (sampleResultEnv 1) ({}, {})).2.1⟩,
   ⟨congrArg Prod.snd ((g.2.1 (fun _ => "unexpected EOF") (fun _ _ => rfl)).2.2
      (sampleResultEnv 1) ({}, {})),
    by decide⟩,
   f.2.2.2.1 ⟨"unexpected EOF", rfl⟩ (sampleResultEnv 1) ({}, {})⟩

/-- An error-free result whose insert is accepted: the iteration saves the
record, enters the alert engine once with the record as the insert left it
and with the node of the result, and ends with the status update. -/
theorem processResult_saved (lib : StdLib) (cfg : Config) (env : ResultEnv)
    (st : World × Tally) (r : InspectionResult) (i : Inspection) (id : Nat) (now : Int)
    (hE : r.Error = none) (hI : r.Inspection = some i)
    (hS : env.saveInspection = Except.ok (id, now)) :
    processResult lib cfg env st r =
      (statusUpdated (processAlert lib cfg env.alert (savedWorld st.1 i id now)
          (i.stored id now) r.Agent) r.Agent env.updateAgentStatus,
        { st.2 with successCount := st.2.successCount + 1 }) := by
  unfold processResult
  rw [hE, hI]
  simp only [SaveInspection, hS]
  rfl

/-- An error-free result whose insert fails: the iteration counts it as
succeeded, records the call, and goes on to the next result. -/
theorem processResult_save_fails (lib : StdLib) (cfg : Config) (env : ResultEnv)
    (st : World × Tally) (r : InspectionResult) (hE : r.Error = none)
    (hS : (∃ e, env.saveInspection = Except.error e) ∨ r.Inspection = none) :
    processResult lib cfg env st r =
      ({ st.1 with trace := st.1.trace ++ [Event.saveInspection r.Inspection] },
        { st.2 with successCount := st.2.successCount + 1 }) := by
  unfold processResult
  rw [hE]
  cases hI : r.Inspection with
  | none => simp [SaveInspection]
  | some i =>
    rcases hS with ⟨e, he⟩ | h
    · simp [SaveInspection, he]
    · rw [hI] at h; cases h

/-- The status update at the end of an iteration: one more call in the trace,
and only the agents table is written. -/
theorem statusUpdated_facts (w : World) (agent : Agent) (fail : Option String) :
    statusUpdates (statusUpdated w agent fail).trace =
      statusUpdates w.trace ++ [(agent.ID, AgentOnline)] ∧
    savedInspections (statusUpdated w agent fail).trace = savedInspections w.trace ∧
    createdAlerts (statusUpdated w agent fail).trace = createdAlerts w.trace ∧
    (statusUpdated w agent fail).cooldown = w.cooldown ∧
    (fail = none → (statusUpdated w agent fail).db.agents =
      w.db.agents.map fun a => if a.ID = agent.ID then { a with Status := AgentOnline } else a) := by
  refine ⟨?_, ?_, ?_, rfl, ?_⟩
  · simp [statusUpdated, statusUpdates, List.filterMap_append]
  · simp [statusUpdated, savedInspections, List.filterMap_append]
  · simp [statusUpdated, createdAlerts, List.filterMap_append]
  · intro h
    subst h
    rfl

/-- The alert engine hands nothing to `UpdateAgentStatus` and leaves the
agents table alone. -/
theorem processAlert_agents (lib : StdLib) (cfg : Config) (env : AlertEnv) (w : World)
    (inspection : Inspection) (agent : Agent) :
    statusUpdates (processAlert lib cfg env w inspection agent).trace = statusUpdates w.trace ∧
    (processAlert lib cfg env w inspection agent).db.agents = w.db.agents := by
  constructor
  · obtain ⟨_, evs, h2, h3⟩ := processAlert_alerting lib cfg env w inspection agent
    rw [h2]
    have : statusUpdates evs = [] := by
      clear h2
      induction evs with
      | nil => rfl
      | cons e evs ih =>
        have he := h3 e (List.mem_cons_self _ _)
        have := ih (fun x hx => h3 x (List.mem_cons_of_mem _ hx))
        cases e <;> simp_all [statusUpdates, Event.isAlerting]
    simp only [statusUpdates] at this ⊢
    simp [List.filterMap_append, this]
  · have hcreate : (CreateAlert w.db (newAlert lib inspection agent) env.createAlert).1.agents
        = w.db.agents := by
      unfold CreateAlert
      cases env.createAlert <;> rfl
    have hmail : ∀ (w2 : World) (a : Alert),
        (sendAlertMail lib cfg env w2 a agent).1.db.agents = w2.db.agents := by
      intro w2 a
      unfold sendAlertMail
      simp only
      split
      · rfl
      · unfold UpdateAlertStatus
        cases env.updateAlertStatus <;> rfl
    unfold processAlert
    split
    · rfl
    · split
      · rfl
      · simp only
        split
        · rfl
        · split
          · exact hcreate
          · split
            · rw [hmail]; exact hcreate
            · exact hcreate

/-- C14. For every result that carries no error, one iteration of
`processResults` hands its inspection to `SaveInspection`, once. When that
insert succeeds, the stored row is in the inspections table, the alert engine
is entered exactly once, with that inspection (as the insert left it behind
the pointer) and the node of the result, and `UpdateAgentStatus(agent.ID,
online)` is called exactly once; when the update succeeds, the rows of the
node in the agents table are online. -/
theorem C14_success_result_processing (lib : StdLib) (cfg : Config) (env : ResultEnv)
    (st : World × Tally) (r : InspectionResult) (hE : r.Error = none) :
    savedInspections (processResult lib cfg env st r).1.trace =
      savedInspections st.1.trace ++ [r.Inspection] ∧
    (∀ (i : Inspection) (id : Nat) (now : Int), r.Inspection = some i →
      env.saveInspection = Except.ok (id, now) →
      (processResult lib cfg env st r).1 =
        statusUpdated (processAlert lib cfg env.alert (savedWorld st.1 i id now)
          (i.stored id now) r.Agent) r.Agent env.updateAgentStatus ∧
      i.stored id now ∈ (processResult lib cfg env st r).1.db.inspections ∧
      statusUpdates (processResult lib cfg env st r).1.trace =
        statusUpdates st.1.trace ++ [(r.Agent.ID, AgentOnline)] ∧
      (env.updateAgentStatus = none →
        (processResult lib cfg env st r).1.db.agents =
          st.1.db.agents.map fun a =>
            if a.ID = r.Agent.ID then { a with Status := AgentOnline } else a)) := by
  obtain ⟨_, hsaved, _, hstored⟩ := processResult_ok lib cfg env st r hE
  refine ⟨hsaved, ?_⟩
  intro i id now hI hS
  have heq := processResult_saved lib cfg env st r i id now hE hI hS
  obtain ⟨u1, _, _, _, u5⟩ := statusUpdated_facts
    (processAlert lib cfg env.alert (savedWorld st.1 i id now) (i.stored id now) r.Agent)
    r.Agent env.updateAgentStatus
  obtain ⟨p1, p2⟩ := processAlert_agents lib cfg env.alert (savedWorld st.1 i id now)
    (i.stored id now) r.Agent
  refine ⟨by rw [heq], hstored i id now hI hS, ?_, ?_⟩
  · rw [heq]
    show statusUpdates (statusUpdated _ _ _).trace = _
    rw [u1, p1]
    simp [savedWorld, statusUpdates, List.filterMap_append]
  · intro hU
    rw [heq]
    show (statusUpdated _ _ _).db.agents = _
    rw [u5 hU, p2]
    rfl

/-- C14 at a CRITICAL outcome of `sampleAgent` whose insert gets the key 5,
in an inventory that lists the node as unknown: the inspection is saved, one
status update is made and the node is online afterwards. -/
theorem C14_success_result_processing_witness :
    savedInspections (processResult sampleLib sampleConfig (sampleResultEnv 5)
        ({ db := { agents := [sampleAgent] } }, {})
        { Agent := sampleAgent, Inspection := some samplePulled }).1.trace =
      savedInspections
          ({ db := { agents := [sampleAgent] } } : World).trace ++ [some samplePulled] ∧
    (samplePulled.stored 5 10 ∈ (processResult sampleLib sampleConfig (sampleResultEnv 5)
        ({ db := { agents := [sampleAgent] } }, {})
        { Agent := sampleAgent, Inspection := some samplePulled }).1.db.inspections ∧
      statusUpdates (processResult sampleLib sampleConfig (sampleResultEnv 5)
        ({ db := { agents := [sampleAgent] } }, {})
        { Agent := sampleAgent, Inspection := some samplePulled }).1.trace =
        statusUpdates ({ db := { agents := [sampleAgent] } } : World).trace ++
          [(sampleAgent.ID, AgentOnline)]) ∧
    (processResult sampleLib sampleConfig (sampleResultEnv 5)
        ({ db := { agents := [sampleAgent] } }, {})
        { Agent := sampleAgent, Inspection := some samplePulled }).1.db.agents =
      [{ sampleAgent with Status := AgentOnline }] ∧
    createdAlerts (processResult sampleLib sampleConfig (sampleResultEnv 5)
        ({ db := { agents := [sampleAgent] } }, {})
        { Agent := sampleAgent, Inspection := some samplePulled }).1.trace =
      [newAlert sampleLib (samplePulled.stored 5 10) sampleAgent] :=
  have h := C14_success_result_processing sampleLib sampleConfig (sampleResultEnv 5)
    ({ db := { agents := [sampleAgent] } }, {})
    { Agent := sampleAgent, Inspection := some samplePulled } rfl
  ⟨h.1, ⟨(h.2 samplePulled 5 10 rfl rfl).2.1, (h.2 samplePulled 5 10 rfl rfl).2.2.1⟩,
   by decide, by decide⟩

/-- The loop of `processResults` on a list put together from two parts: the
second part is processed from the state the first part leaves. -/
theorem processResultsFrom_append (lib : StdLib) (cfg : Config) (env : Nat → ResultEnv) :
    ∀ (pre post : List InspectionResult) (k : Nat) (st : World × Tally),
      processResultsFrom lib cfg env k (pre ++ post) st =
        processResultsFrom lib cfg env (k + pre.length) post
          (processResultsFrom lib cfg env k pre st) := by
  intro pre
  induction pre with
  | nil => intro post k st; simp [processResultsFrom]
  | cons r pre ih =>
    intro post k st
    show processResultsFrom lib cfg env (k + 1) (pre ++ post) (processResult lib cfg (env k) st r)
      = processResultsFrom lib cfg env (k + (pre.length + 1)) post
          (processResultsFrom lib cfg env (k + 1) pre (processResult lib cfg (env k) st r))
    rw [ih]
    congr 1
    omega

/-- Whatever the repository does, the loop of `processResults` hands the
record of every error-free result to `SaveInspection`, in order. -/
theorem processResultsFrom_saved (lib : StdLib) (cfg : Config) (env : Nat → ResultEnv) :
    ∀ (rs : List InspectionResult) (k : Nat) (st : World × Tally),
      savedInspections (processResultsFrom lib cfg env k rs st).1.trace =
        savedInspections st.1.trace ++
          (rs.filter fun r => r.Error.isNone).map (fun r => r.Inspection) := by
  intro rs
  induction rs with
  | nil => intro k st; simp [processResultsFrom]
  | cons r rs ih =>
    intro k st
    simp only [processResultsFrom]
    rw [ih]
    cases hE : r.Error with
    | some e =>
      rw [processResult_error lib cfg (env k) st r e hE]
      simp [List.filter_cons, hE]
    | none =>
      rw [(processResult_ok lib cfg (env k) st r hE).2.1]
      simp [List.filter_cons, hE]

/-- C15. A persistence failure does not abort the batch. Let the results of a
cycle be `pre ++ r :: post` with `r` error-free. Whatever the repository
does, the reported total is the number of results and every error-free
result is handed to `SaveInspection`. If `SaveInspection` fails for `r`, the
iteration only records the call and counts `r`, and the loop goes on with
`post`. If `CreateAlert` fails inside `processAlert` for `r` (alerting
enabled, CRITICAL, cooldown passed), no alert row is written and no mail is
sent, the iteration still ends with the status update of the node, and the
loop goes on with `post`. -/
theorem C15_persistence_failure_not_fatal (lib : StdLib) (cfg : Config)
    (env : Nat → ResultEnv) (w : World) (pre post : List InspectionResult)
    (r : InspectionResult) (hE : r.Error = none) :
    (processResults lib cfg env w (pre ++ r :: post)).2.total = (pre ++ r :: post).length ∧
    savedInspections (processResults lib cfg env w (pre ++ r :: post)).1.trace =
      savedInspections w.trace ++
        ((pre ++ r :: post).filter fun x => x.Error.isNone).map (fun x => x.Inspection) ∧
    ((∃ e, (env pre.length).saveInspection = Except.error e) →
      processResultsFrom lib cfg env 0 (pre ++ r :: post) (w, {}) =
        processResultsFrom lib cfg env (pre.length + 1) post
          ({ (processResultsFrom lib cfg env 0 pre (w, {})).1 with
              trace := (processResultsFrom lib cfg env 0 pre (w, {})).1.trace ++
                [Event.saveInspection r.Inspection] },
           { (processResultsFrom lib cfg env 0 pre (w, {})).2 with
              successCount := (processResultsFrom lib cfg env 0 pre (w, {})).2.successCount + 1 })) ∧
    (∀ (i : Inspection) (id : Nat) (now : Int) (e : String),
      r.Inspection = some i → (env pre.length).saveInspection = Except.ok (id, now) →
      cfg.Alert.Enabled = true → (i.stored id now).Level = LevelCritical →
      (canSendAlert cfg.Alert.Cooldown (processResultsFrom lib cfg env 0 pre (w, {})).1.cooldown
        r.Agent.ID (i.stored id now).Level (env pre.length).alert.tSince
        (env pre.length).alert.tNow).1 = true →
      (env pre.length).alert.createAlert = Except.error e →
      processResultsFrom lib cfg env 0 (pre ++ r :: post) (w, {}) =
        processResultsFrom lib cfg env (pre.length + 1) post
          (statusUpdated
            { db := (savedWorld (processResultsFrom lib cfg env 0 pre (w, {})).1 i id now).db,
              cooldown := (canSendAlert cfg.Alert.Cooldown
                (processResultsFrom lib cfg env 0 pre (w, {})).1.cooldown r.Agent.ID
                (i.stored id now).Level (env pre.length).alert.tSince
                (env pre.length).alert.tNow).2,
              trace := (savedWorld (processResultsFrom lib cfg env 0 pre (w, {})).1 i id
                now).trace ++ [Event.createAlert (newAlert lib (i.stored id now) r.Agent)] }
            r.Agent (env pre.length).updateAgentStatus,
           { (processResultsFrom lib cfg env 0 pre (w, {})).2 with
              successCount :=
                (processResultsFrom lib cfg env 0 pre (w, {})).2.successCount + 1 })) := by
  have hsplit := processResultsFrom_append lib cfg env pre (r :: post) 0 (w, {})
  simp only [Nat.zero_add, processResultsFrom] at hsplit
  refine ⟨?_, ?_, ?_, ?_⟩
  · have := processResultsFrom_count lib cfg env (pre ++ r :: post) 0 (w, {})
    simp only [processResults]
    simpa using this
  · exact processResultsFrom_saved lib cfg env (pre ++ r :: post) 0 (w, {})
  · intro hfail
    rw [hsplit, processResult_save_fails lib cfg (env pre.length) _ r hE (Or.inl hfail)]
  · intro i id now e hI hS hen hlv hcan hcreate
    rw [hsplit, processResult_saved lib cfg (env pre.length) _ r i id now hE hI hS,
      processAlert_create_fails lib cfg (env pre.length).alert
        (savedWorld (processResultsFrom lib cfg env 0 pre (w, {})).1 i id now)
        (i.stored id now) r.Agent e hen hlv hcan hcreate]
    rfl

/-- C15 on a cycle of three error-free results in which the inspection insert
of the first and the alert insert of the second fail: all three are counted
and handed to `SaveInspection`, the loop goes on after each failure, the two
later inspections are stored, and the third result still raises its alert. -/
theorem C15_persistence_failure_not_fatal_witness :
    (processResults sampleLib sampleConfig sampleFailingEnv {} sampleThreeResults).2.total =
      sampleThreeResults.length ∧
    processResultsFrom sampleLib sampleConfig sampleFailingEnv 0 sampleThreeResults ({}, {}) =
      processResultsFrom sampleLib sampleConfig sampleFailingEnv 1 (sampleThreeResults.drop 1)
        ({ trace := [Event.saveInspection (some samplePulled)] },
         { successCount := 1, failedCount := 0 }) ∧
    (processResults sampleLib sampleConfig sampleFailingEnv {} sampleThreeResults).2 =
      { total := 3, success := 3, failed := 0 } ∧
    (savedInspections
      (processResults sampleLib sampleConfig sampleFailingEnv {} sampleThreeResults).1.trace).length
      = 3 ∧
    (processResults sampleLib sampleConfig sampleFailingEnv {}
      sampleThreeResults).1.db.inspections.map (fun i => i.AgentID) = [8, 9] ∧
    (createdAlerts
      (processResults sampleLib sampleConfig sampleFailingEnv {} sampleThreeResults).1.trace).map
      (fun a => a.AgentID) = [8, 9] ∧
    (processResults sampleLib sampleConfig sampleFailingEnv {}
      sampleThreeResults).1.db.alerts.map (fun a => a.AgentID) = [9] ∧
    statusUpdates
      (processResults sampleLib sampleConfig sampleFailingEnv {} sampleThreeResults).1.trace =
      [(8, AgentOnline), (9, AgentOnline)] :=
  have h := C15_persistence_failure_not_fatal sampleLib sampleConfig sampleFailingEnv {} []
    (sampleThreeResults.drop 1) { Agent := sampleAgent, Inspection := some samplePulled } rfl
  ⟨h.1, h.2.2.1 ⟨_, rfl⟩, by decide, by decide, by decide, by decide, by decide, by decide⟩

/-- The mail step when `Send` returns an error: the call and its delivery
attempts are recorded, and nothing else changes; in particular no repository
call follows and the alert record is not marked notified. -/
theorem sendAlertMail_send_fails (lib : StdLib) (cfg : Config) (env : AlertEnv) (w : World)
    (alert : Alert) (agent : Agent) (err : String)
    (hsend : (Sender.Send env.deliver
      (NewSender cfg.Mail.Host cfg.Mail.Port cfg.Mail.User cfg.Mail.Pass cfg.Mail.To)
      (mailSubject cfg alert agent) (mailBody lib alert agent)).1 = some err) :
    sendAlertMail lib cfg env w alert agent =
      ({ w with trace := w.trace ++
          [Event.send (mailSubject cfg alert agent) (mailBody lib alert agent)] ++
          (Sender.Send env.deliver
            (NewSender cfg.Mail.Host cfg.Mail.Port cfg.Mail.User cfg.Mail.Pass cfg.Mail.To)
            (mailSubject cfg alert agent) (mailBody lib alert agent)).2.map Event.sendOne },
        alert) := by
  unfold sendAlertMail
  simp only [hsend]

/-- The number of `Send` calls of one `processAlert` invocation is at most
one. -/
theorem processAlert_sendCalls_le (lib : StdLib) (cfg : Config) (env : AlertEnv) (w : World)
    (inspection : Inspection) (agent : Agent) :
    sendCalls (processAlert lib cfg env w inspection agent).trace ≤ sendCalls w.trace + 1 := by
  by_cases hen : cfg.Alert.Enabled = true
  · by_cases hlv : inspection.Level = LevelCritical
    · cases hcan : (canSendAlert cfg.Alert.Cooldown w.cooldown agent.ID inspection.Level
        env.tSince env.tNow).1
      · rw [processAlert_suppressed lib cfg env w inspection agent hen hlv hcan]
        exact Nat.le_succ _
      · cases hc : env.createAlert with
        | error e =>
          rw [processAlert_create_fails lib cfg env w inspection agent e hen hlv hcan hc]
          simp [sendCalls, List.filter_append]
        | ok p =>
          obtain ⟨id, now⟩ := p
          rw [processAlert_created_ok lib cfg env w inspection agent id now hen hlv hcan hc]
          by_cases hmail : (cfg.Mail.Enabled && decide (cfg.Mail.Host ≠ "")) = true
          · rw [if_pos hmail, (sendAlertMail_effect lib cfg env _ _ agent).2.1]
            simp [sendCalls, List.filter_append]
          · rw [if_neg hmail]
            simp [sendCalls, List.filter_append]
    · rw [processAlert_skip lib cfg env w inspection agent (Or.inr hlv)]
      exact Nat.le_succ _
  · rw [processAlert_skip lib cfg env w inspection agent (Or.inl (by simpa using hen))]
    exact Nat.le_succ _

/-- When the alert insert fails, `processAlert` notifies nobody. -/
theorem processAlert_create_fails_no_mail (lib : StdLib) (cfg : Config) (env : AlertEnv)
    (w : World) (inspection : Inspection) (agent : Agent) (e : String)
    (hc : env.createAlert = Except.error e) :
    mailEvents (processAlert lib cfg env w inspection agent).trace = mailEvents w.trace := by
  by_cases hen : cfg.Alert.Enabled = true
  · by_cases hlv : inspection.Level = LevelCritical
    · cases hcan : (canSendAlert cfg.Alert.Cooldown w.cooldown agent.ID inspection.Level
        env.tSince env.tNow).1
      · rw [processAlert_suppressed lib cfg env w inspection agent hen hlv hcan]
      · rw [processAlert_create_fails lib cfg env w inspection agent e hen hlv hcan hc]
        simp [mailEvents, List.filter_append]
    · rw [processAlert_skip lib cfg env w inspection agent (Or.inr hlv)]
  · rw [processAlert_skip lib cfg env w inspection agent (Or.inl (by simpa using hen))]

/-- C16. Partial-failure semantics of notification. (1) One `processAlert`
invocation calls `Send` at most once. (2) When the alert insert fails, no
notification is made: no `Send`, no delivery attempt. (3) When the alert has
been stored and `Send` returns an error, the stored alert is neither deleted
nor modified: the database is the old one with exactly the new row appended,
and the trace ends with the `Send` call and its delivery attempts, so no
repository call follows the failed send. -/
theorem C16_notification_partial_failure (lib : StdLib) (cfg : Config) (env : AlertEnv)
    (w : World) (inspection : Inspection) (agent : Agent) :
    sendCalls (processAlert lib cfg env w inspection agent).trace ≤ sendCalls w.trace + 1 ∧
    ((∃ e, env.createAlert = Except.error e) →
      mailEvents (processAlert lib cfg env w inspection agent).trace = mailEvents w.trace) ∧
    (∀ (id : Nat) (now : Int) (err : String),
      cfg.Alert.Enabled = true → inspection.Level = LevelCritical →
      (canSendAlert cfg.Alert.Cooldown w.cooldown agent.ID inspection.Level
        env.tSince env.tNow).1 = true →
      env.createAlert = Except.ok (id, now) →
      cfg.Mail.Enabled = true → cfg.Mail.Host ≠ "" →
      (Sender.Send env.deliver
        (NewSender cfg.Mail.Host cfg.Mail.Port cfg.Mail.User cfg.Mail.Pass cfg.Mail.To)
        (mailSubject cfg ((newAlert lib inspection agent).stored id now) agent)
        (mailBody lib ((newAlert lib inspection agent).stored id now) agent)).1 = some err →
      (processAlert lib cfg env w inspection agent).db =
        { w.db with alerts := w.db.alerts ++ [(newAlert lib inspection agent).stored id now] } ∧
      (processAlert lib cfg env w inspection agent).trace =
        w.trace ++ [Event.createAlert (newAlert lib inspection agent),
          Event.send (mailSubject cfg ((newAlert lib inspection agent).stored id now) agent)
            (mailBody lib ((newAlert lib inspection agent).stored id now) agent)] ++
          (Sender.Send env.deliver
            (NewSender cfg.Mail.Host cfg.Mail.Port cfg.Mail.User cfg.Mail.Pass cfg.Mail.To)
            (mailSubject cfg ((newAlert lib inspection agent).stored id now) agent)
            (mailBody lib ((newAlert lib inspection agent).stored id now) agent)).2.map
            Event.sendOne) := by
  refine ⟨processAlert_sendCalls_le lib cfg env w inspection agent, ?_, ?_⟩
  · intro ⟨e, he⟩
    exact processAlert_create_fails_no_mail lib cfg env w inspection agent e he
  · intro id now err hen hlv hcan hc hme hhost hsend
    have hmail : (cfg.Mail.Enabled && decide (cfg.Mail.Host ≠ "")) = true := by
      simp [hme, hhost]
    rw [processAlert_created_ok lib cfg env w inspection agent id now hen hlv hcan hc,
      if_pos hmail, sendAlertMail_send_fails lib cfg env _ _ agent err hsend]
    refine ⟨rfl, ?_⟩
    simp

/-- C16 at a CRITICAL outcome whose alert is stored while the SMTP delivery
is refused, and at one whose alert insert fails. -/
theorem C16_notification_partial_failure_witness :
    sendCalls (processAlert sampleLib sampleConfig sampleMailDownEnv {} sampleCritical
      sampleAgent).trace ≤ sendCalls ({} : World).trace + 1 ∧
    mailEvents (processAlert sampleLib sampleConfig sampleCreateDownEnv {} sampleCritical
      sampleAgent).trace = mailEvents ({} : World).trace ∧
    (processAlert sampleLib sampleConfig sampleMailDownEnv {} sampleCritical sampleAgent).db =
      { ({} : World).db with alerts := ({} : World).db.alerts ++
          [(newAlert sampleLib sampleCritical sampleAgent).stored 1 0] } ∧
    (processAlert sampleLib sampleConfig sampleMailDownEnv {} sampleCritical
      sampleAgent).trace.getLast? = some (Event.sendOne "ops@example.org") ∧
    (processAlert sampleLib sampleConfig sampleMailDownEnv {} sampleCritical
      sampleAgent).db.alerts =
      [{ ID := 1, AgentID := 7, InspectionID := 41, Level := "CRITICAL",
         Title := "db-1 - CRITICAL", Summary := "disk full", Solution := "expand volume",
         Status := "pending", Notified := false, CreatedAt := 0 }] ∧
    (processAlert sampleLib sampleConfig sampleCreateDownEnv {} sampleCritical
      sampleAgent).trace = [Event.createAlert (newAlert sampleLib sampleCritical sampleAgent)] :=
  have h := C16_notification_partial_failure sampleLib sampleConfig sampleMailDownEnv {}
    sampleCritical sampleAgent
  have g := C16_notification_partial_failure sampleLib sampleConfig sampleCreateDownEnv {}
    sampleCritical sampleAgent
  ⟨h.1, g.2.1 ⟨_, rfl⟩,
   (h.2.2 1 0 "发送给 ops@example.org 失败: TLS 连接失败: connection refused"
      (by decide) (by decide) (by decide) rfl (by decide) (by decide) (by decide)).1,
   by decide, by decide, by decide⟩

/-- C18 as stated fails: `Pull` copies the level string of the analysis
document. An analysis without a level field gives the empty level, and the
level `FATAL` is returned as it came; neither is OK, WARNING or CRITICAL. -/
theorem C18_counterexample :
    (∃ insp, Pull sampleLooseLib (fun _ => HttpReply.body "nolevel") sampleAgent =
        (some insp, none) ∧ insp.Level = "" ∧
      ¬ (insp.Level = LevelOK ∨ insp.Level = LevelWarning ∨ insp.Level = LevelCritical)) ∧
    (∃ insp, Pull sampleLooseLib (fun _ => HttpReply.body "fatal") sampleAgent =
        (some insp, none) ∧ insp.Level = "FATAL" ∧
      ¬ (insp.Level = LevelOK ∨ insp.Level = LevelWarning ∨ insp.Level = LevelCritical)) :=
  ⟨⟨_, rfl, by decide, by decide⟩, ⟨_, rfl, by decide, by decide⟩⟩

/-- C18 (amended). The inspection `Pull` returns has Level CRITICAL when the
GET fails and when the body is not the envelope; when the envelope is
decoded, its Level is the string `json.Unmarshal` leaves in the level field
of the analysis document (empty when the field is absent), unchecked. -/
theorem C18_pull_level (lib : StdLib) (get : String → HttpReply) (agent : Agent) :
    (∀ e, get (agent.URL ++ "/inspect") = HttpReply.getError e →
      ∃ insp, Pull lib get agent = (some insp, none) ∧ insp.Level = LevelCritical) ∧
    (∀ b, get (agent.URL ++ "/inspect") = HttpReply.body b → lib.unmarshalEnvelope b = none →
      ∃ insp, Pull lib get agent = (some insp, none) ∧ insp.Level = LevelCritical) ∧
    (∀ b response, get (agent.URL ++ "/inspect") = HttpReply.body b →
      lib.unmarshalEnvelope b = some response →
      ∃ insp, Pull lib get agent = (some insp, none) ∧
        insp.Level = (lib.unmarshalContent response.Analysis).Level) := by
  refine ⟨?_, ?_, ?_⟩
  · intro e h
    exact ⟨_, Pull_getError lib get agent e h, rfl⟩
  · intro b h hb
    exact ⟨_, Pull_badFormat lib get agent b h hb, rfl⟩
  · intro b response h hb
    unfold Pull
    simp only [h, hb]
    split
    · exact ⟨_, rfl, rfl⟩
    · exact ⟨_, rfl, rfl⟩

/-- C18 (amended) at a refused connection, a malformed body, and an envelope
whose analysis carries the level `FATAL`. -/
theorem C18_pull_level_witness :
    (∃ insp, Pull sampleLooseLib (sampleDownEnv.get 0) sampleAgent = (some insp, none) ∧
      insp.Level = LevelCritical) ∧
    (∃ insp, Pull sampleLooseLib (sampleGarbledEnv.get 0) sampleAgent = (some insp, none) ∧
      insp.Level = LevelCritical) ∧
    (∃ insp, Pull sampleLooseLib (fun _ => HttpReply.body "fatal") sampleAgent =
        (some insp, none) ∧
      insp.Level = (sampleLooseLib.unmarshalContent
        "\x7b\"alert\":true,\"level\":\"FATAL\"\x7d").Level) :=
  have h := C18_pull_level sampleLooseLib (sampleDownEnv.get 0) sampleAgent
  have g := C18_pull_level sampleLooseLib (sampleGarbledEnv.get 0) sampleAgent
  have k := C18_pull_level sampleLooseLib (fun _ => HttpReply.body "fatal") sampleAgent
  ⟨h.1 "connection refused" rfl, g.2.1 "<html>502</html>" rfl (by decide),
   k.2.2 "fatal"
     (Envelope.mk "host" "raw" "\x7b\"alert\":true,\"level\":\"FATAL\"\x7d") rfl (by decide)⟩

/-- A CRITICAL outcome that passes the cooldown check hands exactly the record
`newAlert` to `CreateAlert`, whether the insert succeeds or not. -/
theorem processAlert_raised_createdAlerts (lib : StdLib) (cfg : Config) (env : AlertEnv)
    (w : World) (inspection : Inspection) (agent : Agent) (hen : cfg.Alert.Enabled = true)
    (hlv : inspection.Level = LevelCritical)
    (hcan : (canSendAlert cfg.Alert.Cooldown w.cooldown agent.ID inspection.Level
      env.tSince env.tNow).1 = true) :
    createdAlerts (processAlert lib cfg env w inspection agent).trace =
      createdAlerts w.trace ++ [newAlert lib inspection agent] := by
  cases hc : env.createAlert with
  | error e =>
    rw [processAlert_create_fails lib cfg env w inspection agent e hen hlv hcan hc]
    simp [createdAlerts, List.filterMap_append]
  | ok p =>
    obtain ⟨id, now⟩ := p
    exact (processAlert_created_facts lib cfg env w inspection agent id now hen hlv hcan hc).1

/-- C19. For every agent with name `n` and every CRITICAL outcome whose
analysis text `json.Unmarshal` rejects, the alert that `processAlert` builds
and hands to `CreateAlert` has Title `n ++ " - CRITICAL"`, the synthesized
Summary `节点 n 出现 CRITICAL 级别告警`, and empty Solution and Details; it is
handed over whenever alerting is enabled and the cooldown check passes, and
otherwise no alert is created at all. -/
theorem C19_synthesized_alert_text (lib : StdLib) (cfg : Config) (env : AlertEnv) (w : World)
    (inspection : Inspection) (agent : Agent) (hlv : inspection.Level = LevelCritical)
    (hparse : lib.unmarshalAnalysis inspection.Analysis = none) :
    newAlert lib inspection agent =
      { AgentID := agent.ID, InspectionID := inspection.ID, Level := LevelCritical,
        Title := agent.Name ++ " - CRITICAL",
        Summary := "节点 " ++ agent.Name ++ " 出现 CRITICAL 级别告警",
        Solution := "", Details := "" } ∧
    (createdAlerts (processAlert lib cfg env w inspection agent).trace = createdAlerts w.trace ∨
      createdAlerts (processAlert lib cfg env w inspection agent).trace =
        createdAlerts w.trace ++ [newAlert lib inspection agent]) ∧
    (cfg.Alert.Enabled = true →
      (canSendAlert cfg.Alert.Cooldown w.cooldown agent.ID inspection.Level
        env.tSince env.tNow).1 = true →
      createdAlerts (processAlert lib cfg env w inspection agent).trace =
        createdAlerts w.trace ++ [newAlert lib inspection agent]) := by
  have htitle : agent.Name ++ " - " ++ LevelCritical = agent.Name ++ " - CRITICAL" := by
    rw [String.append_assoc]; rfl
  have hsum : "节点 " ++ agent.Name ++ " 出现 " ++ LevelCritical ++ " 级别告警" =
      "节点 " ++ agent.Name ++ " 出现 CRITICAL 级别告警" := by
    rw [String.append_assoc, String.append_assoc ("节点 " ++ agent.Name)]
    rfl
  refine ⟨?_, ?_, ?_⟩
  · unfold newAlert
    simp only [hparse, hlv, htitle, hsum]
  · by_cases hen : cfg.Alert.Enabled = true
    · cases hcan : (canSendAlert cfg.Alert.Cooldown w.cooldown agent.ID inspection.Level
        env.tSince env.tNow).1
      · left
        rw [processAlert_suppressed lib cfg env w inspection agent hen hlv hcan]
      · right
        exact processAlert_raised_createdAlerts lib cfg env w inspection agent hen hlv hcan
    · left
      rw [processAlert_skip lib cfg env w inspection agent (Or.inl (by simpa using hen))]
  · intro hen hcan
    exact processAlert_raised_createdAlerts lib cfg env w inspection agent hen hlv hcan

/-- C19 at a CRITICAL outcome of `db-1` whose analysis text is not JSON. -/
theorem C19_synthesized_alert_text_witness :
    newAlert sampleLib sampleUnparsed sampleAgent =
      { AgentID := sampleAgent.ID, InspectionID := sampleUnparsed.ID, Level := LevelCritical,
        Title := sampleAgent.Name ++ " - CRITICAL",
        Summary := "节点 " ++ sampleAgent.Name ++ " 出现 CRITICAL 级别告警",
        Solution := "", Details := "" } ∧
    createdAlerts (processAlert sampleLib sampleConfig (sampleAlertEnv 0 0) {} sampleUnparsed
        sampleAgent).trace =
      createdAlerts ({} : World).trace ++ [newAlert sampleLib sampleUnparsed sampleAgent] ∧
    createdAlerts (processAlert sampleLib sampleConfig (sampleAlertEnv 0 0) {} sampleUnparsed
        sampleAgent).trace =
      [{ AgentID := 7, InspectionID := 41, Level := "CRITICAL", Title := "db-1 - CRITICAL",
         Summary := "节点 db-1 出现 CRITICAL 级别告警" }] :=
  have h := C19_synthesized_alert_text sampleLib sampleConfig (sampleAlertEnv 0 0) {}
    sampleUnparsed sampleAgent (by decide) (by decide)
  ⟨h.1, h.2.2 (by decide) (by decide), by decide⟩

/-- C17 as stated fails: a second `Start` leaves two live ticking loops, and
the `Stop` that follows cancels only the second; the loop of the first
`Start` survives it, with no cancel handle left to reach it. -/
theorem C17_counterexample :
    Scheduler.init.Start.loops.length = 1 ∧
    Scheduler.init.Start.Start.loops.length = 2 ∧
    Scheduler.init.Start.Start.Stop.loops = [0] ∧
    Scheduler.init.Start.Start.Stop.cancel = none ∧
    Scheduler.init.Start.Start.Stop.Stop.loops = [0] := by
  decide

/-- After `n` calls of `Start` on a fresh scheduler, the loops of all `n`
contexts are live and the cancel handle is that of the last one. -/
theorem Scheduler.iterate_Start (n : Nat) :
    (Scheduler.Start^[n] Scheduler.init).loops = List.range n ∧
    (Scheduler.Start^[n] Scheduler.init).contexts = n ∧
    (Scheduler.Start^[n] Scheduler.init).cycles = n ∧
    (Scheduler.Start^[n] Scheduler.init).cancel = (if n = 0 then none else some (n - 1)) := by
  induction n with
  | zero => exact ⟨rfl, rfl, rfl, rfl⟩
  | succ n ih =>
    obtain ⟨h1, h2, h3, _⟩ := ih
    rw [Function.iterate_succ_apply']
    refine ⟨?_, ?_, ?_, ?_⟩
    · simp [Scheduler.Start, h1, h2, List.range_succ]
    · simp [Scheduler.Start, h2]
    · simp [Scheduler.Start, h3]
    · simp [Scheduler.Start, h2]

/-- C17 (amended). `Start` is not idempotent. On a stopped scheduler one `Start`
leaves exactly one live ticking loop and the `Stop` that follows leaves none.
Every further `Start` without a `Stop` in between launches one more ticking
loop (and one more immediate cycle) and replaces the stored cancel handle:
after `n + 1` calls there are `n + 1` live loops, and the `Stop` that follows
cancels only the loop of the last `Start`, so the `n` earlier loops survive,
and a second `Stop` changes nothing. -/
theorem C17_start_not_idempotent (n : Nat) :
    (Scheduler.init.Start.loops.length = 1 ∧ Scheduler.init.Start.Stop.loops = []) ∧
    (Scheduler.Start^[n + 1] Scheduler.init).loops = List.range (n + 1) ∧
    (Scheduler.Start^[n + 1] Scheduler.init).cycles = n + 1 ∧
    (Scheduler.Start^[n + 1] Scheduler.init).Stop.loops = List.range n ∧
    (Scheduler.Start^[n + 1] Scheduler.init).Stop.cancel = none ∧
    (Scheduler.Start^[n + 1] Scheduler.init).Stop.Stop =
      (Scheduler.Start^[n + 1] Scheduler.init).Stop := by
  obtain ⟨h1, _, h3, h4⟩ := Scheduler.iterate_Start (n + 1)
  have hc : (Scheduler.Start^[n + 1] Scheduler.init).cancel = some n := by
    rw [h4]; simp
  have hstop : (Scheduler.Start^[n + 1] Scheduler.init).Stop =
      { (Scheduler.Start^[n + 1] Scheduler.init) with
        loops := (Scheduler.Start^[n + 1] Scheduler.init).loops.filter fun l => l ≠ n,
        cancel := none } := by
    unfold Scheduler.Stop
    rw [hc]
  refine ⟨by decide, h1, h3, ?_, ?_, ?_⟩
  · rw [hstop]
    simp only [h1]
    rw [List.range_succ, List.filter_append]
    have hkeep : (List.range n).filter (fun l => decide (l ≠ n)) = List.range n := by
      apply List.filter_eq_self.mpr
      intro a ha
      have := List.mem_range.mp ha
      simp only [ne_eq, decide_not, Bool.not_eq_true', decide_eq_false_iff_not]
      omega
    rw [hkeep]
    simp
  · rw [hstop]
  · rw [hstop]
    rfl

/-- Counting after one element of a list is replaced: the count loses the old
element and gains the new one. -/
theorem countP_set_balance {α : Type} (p : α → Bool) :
    ∀ (l : List α) (i : Nat) (a b : α), l[i]? = some a →
      (l.set i b).countP p + (if p a then 1 else 0) = l.countP p + (if p b then 1 else 0) := by
  intro l
  induction l with
  | nil => intro i a b h; simp at h
  | cons x xs ih =>
    intro i a b h
    cases i with
    | zero =>
      simp only [List.getElem?_cons_zero, Option.some.injEq] at h
      subst h
      simp only [List.set_cons_zero, List.countP_cons]
      omega
    | succ i =>
      simp only [List.getElem?_cons_succ] at h
      have := ih i a b h
      simp only [List.set_cons_succ, List.countP_cons]
      omega

/-- The invariant of the semaphore is kept by every move: the tasks that hold
a slot are as many as the values buffered in the channel, and these are at
most the capacity. -/
theorem Cycle.step_invariant (c : Cycle) (a : TaskStep)
    (h : c.slotsHeld = c.semaphore ∧ (c.semaphore : Int) ≤ c.capacity) :
    (c.step a).slotsHeld = (c.step a).semaphore ∧
      ((c.step a).semaphore : Int) ≤ (c.step a).capacity := by
  obtain ⟨h1, h2⟩ := h
  cases a with
  | acquire i =>
    simp only [Cycle.step]
    split
    · rename_i hg
      have hb := countP_set_balance TaskPhase.hasSlot c.tasks i
        TaskPhase.waiting TaskPhase.holding hg.1
      simp only [Cycle.slotsHeld] at h1 ⊢
      simp [TaskPhase.hasSlot] at hb
      refine ⟨by omega, ?_⟩
      have := hg.2
      show ((c.semaphore + 1 : Nat) : Int) ≤ c.capacity
      push_cast
      omega
    · exact ⟨h1, h2⟩
  | beginPull i =>
    simp only [Cycle.step]
    split
    · rename_i hg
      have hb := countP_set_balance TaskPhase.hasSlot c.tasks i
        TaskPhase.holding TaskPhase.pulling hg
      simp only [Cycle.slotsHeld] at h1 ⊢
      simp [TaskPhase.hasSlot] at hb
      exact ⟨by omega, h2⟩
    · exact ⟨h1, h2⟩
  | endPull i =>
    simp only [Cycle.step]
    split
    · rename_i hg
      have hb := countP_set_balance TaskPhase.hasSlot c.tasks i
        TaskPhase.pulling TaskPhase.holding hg
      simp only [Cycle.slotsHeld] at h1 ⊢
      simp [TaskPhase.hasSlot] at hb
      exact ⟨by omega, h2⟩
    · exact ⟨h1, h2⟩
  | release i =>
    simp only [Cycle.step]
    split
    · rename_i hg
      have hb := countP_set_balance TaskPhase.hasSlot c.tasks i
        TaskPhase.holding TaskPhase.finished hg
      simp only [Cycle.slotsHeld] at h1 ⊢
      simp [TaskPhase.hasSlot] at hb
      refine ⟨by omega, ?_⟩
      show ((c.semaphore - 1 : Nat) : Int) ≤ c.capacity
      omega
    · exact ⟨h1, h2⟩

/-- The invariant of the semaphore holds all along every schedule. -/
theorem Cycle.run_invariant :
    ∀ (schedule : List TaskStep) (c : Cycle),
      (c.slotsHeld = c.semaphore ∧ (c.semaphore : Int) ≤ c.capacity) →
      (c.run schedule).slotsHeld = (c.run schedule).semaphore ∧
        ((c.run schedule).semaphore : Int) ≤ (c.run schedule).capacity ∧
        (c.run schedule).capacity = c.capacity := by
  intro schedule
  induction schedule with
  | nil => intro c h; exact ⟨h.1, h.2, rfl⟩
  | cons a rest ih =>
    intro c h
    obtain ⟨r1, r2, r3⟩ := ih (c.step a) (Cycle.step_invariant c a h)
    refine ⟨r1, r2, ?_⟩
    show (Cycle.run (c.step a) rest).capacity = c.capacity
    rw [r3]
    cases a <;> simp only [Cycle.step] <;> split <;> rfl

/-- The probes in flight are among the tasks that hold a slot. -/
theorem Cycle.inFlight_le_slotsHeld (c : Cycle) : c.inFlight ≤ c.slotsHeld := by
  unfold Cycle.inFlight Cycle.slotsHeld
  apply List.countP_mono_left
  intro x _ hx
  cases x <;> simp_all [TaskPhase.hasSlot, TaskPhase.isPulling]

/-- C20. Concurrency cap: in one cycle with `maxConcurrent = k` and `m` nodes
(in particular `k ≥ 1` and `m > k`), whatever the order in which the
scheduler runs the moves of the tasks, at no moment do more than `k` tasks
hold a slot of the semaphore, and so at no moment are more than `k` calls of
`Pull` in flight. -/
theorem C20_concurrency_cap (k m : Nat) (schedule : List TaskStep) :
    ((Cycle.launched k m).run schedule).inFlight ≤ k ∧
    ((Cycle.launched k m).run schedule).slotsHeld ≤ k ∧
    ((Cycle.launched k m).run schedule).slotsHeld =
      ((Cycle.launched k m).run schedule).semaphore := by
  have hinit : (Cycle.launched k m).slotsHeld = (Cycle.launched k m).semaphore ∧
      ((Cycle.launched k m).semaphore : Int) ≤ (Cycle.launched k m).capacity := by
    constructor
    · simp only [Cycle.launched, Cycle.slotsHeld]
      rw [List.countP_eq_zero]
      intro a ha
      rw [List.eq_of_mem_replicate ha]
      decide
    · simp [Cycle.launched]
  obtain ⟨r1, r2, r3⟩ := Cycle.run_invariant schedule (Cycle.launched k m) hinit
  have hcap : (Cycle.launched k m).capacity = (k : Int) := rfl
  rw [r3, hcap] at r2
  have hle : ((Cycle.launched k m).run schedule).slotsHeld ≤ k := by
    rw [r1]; exact_mod_cast r2
  exact ⟨le_trans (Cycle.inFlight_le_slotsHeld _) hle, hle, r1⟩

/-- The cap is reached, not only respected: on a schedule over three tasks
with capacity two, the third task is held back while the first two probe, and
two probes are in flight at the end. -/
theorem Cycle.sampleSchedule_reaches_cap :
    ((Cycle.launched 2 3).run sampleSchedule).inFlight = 2 ∧
    ((Cycle.launched 2 3).run (sampleSchedule.take 6)).tasks =
      [TaskPhase.pulling, TaskPhase.pulling, TaskPhase.waiting] ∧
    ((Cycle.launched 2 3).run sampleSchedule).tasks =
      [TaskPhase.finished, TaskPhase.pulling, TaskPhase.pulling] := by
  decide

/-- C21. Exact cooldown decision. For every cooldown map `m`, every key (the
pair of agent ID and level), every cooldown duration `d` and every reading of
the clock, `canSendAlert` returns false if and only if `m` has an entry `t`
for the key with `now - t < d`, `now` being the reading of `time.Since`. When
it returns false the map is unchanged; when it returns true (no entry, or
`now - t ≥ d`, the boundary `now - t = d` included) the resulting map is `m`
with the key set to the reading of `time.Now`: the key holds that time and
every other key holds what it held. With one clock time `now` for both
readings this is the claim as stated. -/
theorem C21_exact_cooldown_decision (d : Int) (m : CooldownMap) (a : Nat)
    (l : InspectionLevel) (tSince tNow : Int) :
    ((canSendAlert d m a l tSince tNow).1 = false ↔
      ∃ t, m (cooldownKey a l) = some t ∧ tSince - t < d) ∧
    ((canSendAlert d m a l tSince tNow).1 = false → (canSendAlert d m a l tSince tNow).2 = m) ∧
    ((canSendAlert d m a l tSince tNow).1 = true →
      (canSendAlert d m a l tSince tNow).2 = m.set (cooldownKey a l) tNow ∧
      (canSendAlert d m a l tSince tNow).2 (cooldownKey a l) = some tNow ∧
      ∀ k, k ≠ cooldownKey a l → (canSendAlert d m a l tSince tNow).2 k = m k) ∧
    (m (cooldownKey a l) = none → (canSendAlert d m a l tSince tNow).1 = true) ∧
    (∀ t, m (cooldownKey a l) = some t → d ≤ tSince - t →
      (canSendAlert d m a l tSince tNow).1 = true) ∧
    (∀ t, m (cooldownKey a l) = some t → tSince - t = d →
      (canSendAlert d m a l tSince tNow).1 = true) := by
  have hset : (m.set (cooldownKey a l) tNow) (cooldownKey a l) = some tNow ∧
      ∀ k, k ≠ cooldownKey a l → (m.set (cooldownKey a l) tNow) k = m k := by
    constructor
    · simp [CooldownMap.set]
    · intro k hk
      simp [CooldownMap.set, hk]
  cases hm : m (cooldownKey a l) with
  | none =>
    have hv : canSendAlert d m a l tSince tNow = (true, m.set (cooldownKey a l) tNow) := by
      unfold canSendAlert
      simp only [hm]
    rw [hv]
    refine ⟨⟨?_, ?_⟩, ?_, ?_, ?_, ?_, ?_⟩
    · intro h
      cases h
    · rintro ⟨t, ht, _⟩
      cases ht
    · intro h
      cases h
    · intro _
      exact ⟨rfl, hset.1, hset.2⟩
    · intro _
      rfl
    · intro t ht
      cases ht
    · intro t ht
      cases ht
  | some t0 =>
    by_cases hlt : tSince - t0 < d
    · have hv : canSendAlert d m a l tSince tNow = (false, m) := by
        unfold canSendAlert
        simp only [hm, hlt, if_true]
      rw [hv]
      refine ⟨⟨?_, ?_⟩, ?_, ?_, ?_, ?_, ?_⟩
      · intro _
        exact ⟨t0, rfl, hlt⟩
      · intro _
        rfl
      · intro _
        rfl
      · intro h
        cases h
      · intro h
        cases h
      · intro t ht hge
        cases ht
        omega
      · intro t ht heq
        cases ht
        omega
    · have hv : canSendAlert d m a l tSince tNow = (true, m.set (cooldownKey a l) tNow) := by
        unfold canSendAlert
        simp only [hm, hlt, if_false]
      rw [hv]
      refine ⟨⟨?_, ?_⟩, ?_, ?_, ?_, ?_, ?_⟩
      · intro h
        cases h
      · rintro ⟨t, ht, hlt2⟩
        cases ht
        exact absurd hlt2 hlt
      · intro h
        cases h
      · intro _
        exact ⟨rfl, hset.1, hset.2⟩
      · intro h
        cases h
      · intro _ _ _
        rfl
      · intro _ _ _
        rfl

/-- With `retryTimes ≤ 0` the retry loop ends before its first iteration,
whatever bound the model is given: the result and the trace are returned as
they came in. -/
theorem retryLoop_nonpositive (lib : StdLib) (env : ProbeEnv) (retryTimes : Int)
    (agent : Agent) (h : retryTimes ≤ 0) (fuel : Nat) (result : InspectionResult)
    (trace : List ProbeEvent) :
    retryLoop lib env retryTimes agent fuel 0 result trace = (result, trace) := by
  cases fuel with
  | zero => rfl
  | succ f =>
    have h0 : ¬ (((0 : Nat) : Int) < retryTimes) := by
      simp only [Nat.cast_zero]
      omega
    unfold retryLoop
    rw [if_neg h0]

/-- C23. With `retryTimes ≤ 0`, for every agent and every transport,
`checkAgent` makes no probe attempt (the trace holds no `Pull` and no sleep,
only the send) and emits one result that has neither an Inspection nor an
error. `processResults` does not count that result as failed but as
succeeded, and hands the missing (nil) Inspection to `SaveInspection`; no row
is stored, no alert is evaluated and the agent status is not updated. -/
theorem C23_no_attempt_when_retry_nonpositive (lib : StdLib) (cfg : Config) (penv : ProbeEnv)
    (renv : Nat → ResultEnv) (agent : Agent) (w : World) (st : World × Tally)
    (h : cfg.Check.RetryTimes ≤ 0) :
    checkAgent lib cfg penv agent =
      ({ Agent := agent }, [ProbeEvent.send { Agent := agent }]) ∧
    pullCount (checkAgent lib cfg penv agent).2 = 0 ∧
    sleeps (checkAgent lib cfg penv agent).2 = [] ∧
    sendCount (checkAgent lib cfg penv agent).2 = 1 ∧
    (checkAgent lib cfg penv agent).1.Inspection = none ∧
    (checkAgent lib cfg penv agent).1.Error = none ∧
    processResult lib cfg (renv 0) st (checkAgent lib cfg penv agent).1 =
      ({ st.1 with trace := st.1.trace ++ [Event.saveInspection none] },
        { successCount := st.2.successCount + 1, failedCount := st.2.failedCount }) ∧
    processResults lib cfg renv w [(checkAgent lib cfg penv agent).1] =
      ({ w with trace := w.trace ++ [Event.saveInspection none] },
        { total := 1, success := 1, failed := 0 }) := by
  have hca : checkAgent lib cfg penv agent =
      ({ Agent := agent }, [ProbeEvent.send { Agent := agent }]) := by
    unfold checkAgent
    simp only [retryLoop_nonpositive lib penv cfg.Check.RetryTimes agent h]
    rfl
  have hpr : ∀ (e : ResultEnv) (s : World × Tally),
      processResult lib cfg e s { Agent := agent } =
        ({ s.1 with trace := s.1.trace ++ [Event.saveInspection none] },
          { successCount := s.2.successCount + 1, failedCount := s.2.failedCount }) := by
    intro e s
    rw [processResult_save_fails lib cfg e s { Agent := agent } rfl (Or.inr rfl)]
  rw [hca]
  refine ⟨rfl, rfl, rfl, rfl, rfl, rfl, hpr (renv 0) st, ?_⟩
  unfold processResults
  simp only [processResultsFrom, hpr]

/-- C23 at `sampleConfigNoRetry`, whose `retry_times` is 0: the node
`sampleAgent` is not probed even though its transport is healthy, and its
empty result is counted as one success. -/
theorem C23_no_attempt_when_retry_nonpositive_witness :
    sampleConfigNoRetry.Check.RetryTimes ≤ 0 ∧
    checkAgent sampleLib sampleConfigNoRetry sampleHealthyEnv sampleAgent =
      ({ Agent := sampleAgent }, [ProbeEvent.send { Agent := sampleAgent }]) ∧
    (processResults sampleLib sampleConfigNoRetry sampleResultEnv sampleWorld
      [(checkAgent sampleLib sampleConfigNoRetry sampleHealthyEnv sampleAgent).1]).2 =
      { total := 1, success := 1, failed := 0 } :=
  have h : sampleConfigNoRetry.Check.RetryTimes ≤ 0 := by decide
  have hc := C23_no_attempt_when_retry_nonpositive sampleLib sampleConfigNoRetry sampleHealthyEnv
    sampleResultEnv sampleAgent sampleWorld (sampleWorld, {}) h
  ⟨h, hc.1, by rw [hc.2.2.2.2.2.2.2]⟩

/-- C24. The cooldown entry is consumed before the alert is persisted. With
alerting enabled, let a CRITICAL outcome of a node pass the cooldown check
while `CreateAlert` fails. Then the cooldown map nevertheless records the
current time (the reading of `time.Now`) for the key of (agent, CRITICAL), and
no row is stored. A second CRITICAL outcome for the same node that is
evaluated within the cooldown window (it reads the clock less than the
cooldown after the recorded time) is suppressed, whatever its own insert would
have done: `CreateAlert` is not called again, the cooldown entry stays, and
after both evaluations the alerts table is the one from before, so the window
ends with zero Alerts for that node. -/
theorem C24_cooldown_consumed_before_persist (lib : StdLib) (cfg : Config) (e1 e2 : AlertEnv)
    (w : World) (i1 i2 : Inspection) (agent1 agent2 : Agent) (err : String)
    (hen : cfg.Alert.Enabled = true)
    (hl1 : i1.Level = LevelCritical) (hl2 : i2.Level = LevelCritical)
    (hsame : agent2.ID = agent1.ID)
    (hcan : (canSendAlert cfg.Alert.Cooldown w.cooldown agent1.ID i1.Level
      e1.tSince e1.tNow).1 = true)
    (hfail : e1.createAlert = Except.error err)
    (hwin : e2.tSince - e1.tNow < cfg.Alert.Cooldown) :
    (processAlert lib cfg e1 w i1 agent1).cooldown (cooldownKey agent1.ID LevelCritical) =
      some e1.tNow ∧
    (processAlert lib cfg e1 w i1 agent1).db = w.db ∧
    (processAlert lib cfg e1 w i1 agent1).trace =
      w.trace ++ [Event.createAlert (newAlert lib i1 agent1)] ∧
    (canSendAlert cfg.Alert.Cooldown (processAlert lib cfg e1 w i1 agent1).cooldown agent2.ID
      i2.Level e2.tSince e2.tNow).1 = false ∧
    processAlert lib cfg e2 (processAlert lib cfg e1 w i1 agent1) i2 agent2 =
      processAlert lib cfg e1 w i1 agent1 ∧
    (processAlert lib cfg e2 (processAlert lib cfg e1 w i1 agent1) i2 agent2).db.alerts =
      w.db.alerts ∧
    createdAlerts (processAlert lib cfg e2 (processAlert lib cfg e1 w i1 agent1) i2 agent2).trace =
      createdAlerts w.trace ++ [newAlert lib i1 agent1] := by
  have h1 := processAlert_create_fails lib cfg e1 w i1 agent1 err hen hl1 hcan hfail
  have hset := canSendAlert_true_sets _ _ _ _ _ _ hcan
  rw [hl1] at hset
  have hentry : (processAlert lib cfg e1 w i1 agent1).cooldown
      (cooldownKey agent1.ID LevelCritical) = some e1.tNow := by
    rw [h1, ← hset, hl1]
  have hcan2 : canSendAlert cfg.Alert.Cooldown (processAlert lib cfg e1 w i1 agent1).cooldown
      agent2.ID i2.Level e2.tSince e2.tNow =
        (false, (processAlert lib cfg e1 w i1 agent1).cooldown) := by
    unfold canSendAlert
    rw [hl2, hsame]
    simp only [hentry, hwin, if_true]
  have h2 : processAlert lib cfg e2 (processAlert lib cfg e1 w i1 agent1) i2 agent2 =
      processAlert lib cfg e1 w i1 agent1 := by
    rw [processAlert_suppressed lib cfg e2 (processAlert lib cfg e1 w i1 agent1) i2 agent2 hen hl2
      (by rw [hcan2])]
    rw [hcan2]
  refine ⟨hentry, ?_, ?_, ?_, h2, ?_, ?_⟩
  · rw [h1]
  · rw [h1]
  · rw [hcan2]
  · rw [h2, h1]
  · rw [h2, h1]
    simp [createdAlerts, List.filterMap_append]

/-- C24 at `sampleAgent` with a cooldown of 300: the insert of the outcome
evaluated at time 0 fails, the outcome evaluated at time 100 would be stored
but is suppressed, and the alerts table stays empty. -/
theorem C24_cooldown_consumed_before_persist_witness :
    (100 : Int) - 0 < sampleConfig.Alert.Cooldown ∧
    (processAlert sampleLib sampleConfig sampleCreateDownEnv {} sampleCritical
      sampleAgent).cooldown (cooldownKey 7 LevelCritical) = some 0 ∧
    (processAlert sampleLib sampleConfig (sampleAlertEnv 100 100)
      (processAlert sampleLib sampleConfig sampleCreateDownEnv {} sampleCritical sampleAgent)
      sampleCriticalLater sampleAgent).db.alerts = [] :=
  have h := C24_cooldown_consumed_before_persist sampleLib sampleConfig sampleCreateDownEnv
    (sampleAlertEnv 100 100) {} sampleCritical sampleCriticalLater sampleAgent sampleAgent
    "Error 1040: Too many connections" (by decide) (by decide) (by decide) rfl
    (canSendAlert_true_of _ _ _ _ _ _ (fun t ht => by cases ht)) rfl (by decide)
  ⟨by decide, h.1, h.2.2.2.2.2.1⟩

/-- A string of ASCII characters has as many bytes as characters. -/
theorem utf8ByteSize_ascii (cs : List Char) (h : ∀ c ∈ cs, c.toNat < 128) :
    String.utf8ByteSize.go cs = cs.length := by
  induction cs with
  | nil => rfl
  | cons c cs ih =>
    have hc : c.utf8Size = 1 := by
      have h1 : c.toNat < 128 := h c (List.mem_cons_self _ _)
      have h2 : c.val ≤ UInt32.ofNatCore 0x7F (by decide) := by
        show c.val.toNat ≤ 127
        have : c.toNat = c.val.toNat := rfl
        omega
      unfold Char.utf8Size
      simp only [h2, if_true]
    show String.utf8ByteSize.go cs + c.utf8Size = (c :: cs).length
    rw [ih (fun x hx => h x (List.mem_cons_of_mem _ hx)), hc]
    rfl

/-- C22. `CheckPassword` accepts bcrypt hashes and plaintext. For every stored
value `h` whose length (Go's `len`, the number of bytes, which for a value of
ASCII characters is the number of characters) is not exactly 60 or that does
not start with `$2`, `CheckPassword(p, h)` is true if and only if `p = h`; so
an empty stored value accepts the empty password and nothing else. Only for a
value of length 60 that starts with `$2` is the result decided by the bcrypt
comparison: it is true exactly when `CompareHashAndPassword` returns no
error. -/
theorem C22_check_password_plaintext_or_bcrypt
    (compareHashAndPassword : String → String → Option String) (p h : String) :
    ((h.utf8ByteSize ≠ 60 ∨ hasPrefix h "$2" = false) →
      (CheckPassword compareHashAndPassword p h = true ↔ p = h)) ∧
    (CheckPassword compareHashAndPassword p "" = true ↔ p = "") ∧
    ((h.utf8ByteSize = 60 ∧ hasPrefix h "$2" = true) →
      (CheckPassword compareHashAndPassword p h = true ↔ compareHashAndPassword h p = none)) ∧
    ((∀ c ∈ h.data, c.toNat < 128) → h.utf8ByteSize = h.length) ∧
    ((∀ c ∈ h.data, c.toNat < 128) → (h.length ≠ 60 ∨ hasPrefix h "$2" = false) →
      (CheckPassword compareHashAndPassword p h = true ↔ p = h)) := by
  have hplain : ∀ x : String, (x.utf8ByteSize ≠ 60 ∨ hasPrefix x "$2" = false) →
      (CheckPassword compareHashAndPassword p x = true ↔ p = x) := by
    intro x hx
    have hc : (decide (x.utf8ByteSize ≠ 60) || !hasPrefix x "$2") = true := by
      rcases hx with hx | hx
      · simp [hx]
      · simp [hx]
    unfold CheckPassword
    rw [if_pos hc]
    exact decide_eq_true_iff
  have hascii : (∀ c ∈ h.data, c.toNat < 128) → h.utf8ByteSize = h.length := by
    intro ha
    exact utf8ByteSize_ascii h.data ha
  refine ⟨hplain h, hplain "" (Or.inl (by decide)), ?_, hascii, ?_⟩
  · rintro ⟨h60, hpre⟩
    have hc : ¬ ((decide (h.utf8ByteSize ≠ 60) || !hasPrefix h "$2") = true) := by
      simp [h60, hpre]
    unfold CheckPassword
    rw [if_neg hc]
    cases compareHashAndPassword h p <;> simp
  · intro ha hx
    apply hplain h
    rcases hx with hx | hx
    · left
      rw [hascii ha]
      exact hx
    · exact Or.inr hx

/-- C22 at concrete values: the stored value `hunter2` is compared as
plaintext, the empty stored value accepts the empty password, and the
60-character value `sampleHash` is decided by the bcrypt comparison, also
against itself. -/
theorem C22_check_password_plaintext_or_bcrypt_witness :
    CheckPassword sampleBcrypt "hunter2" "hunter2" = true ∧
    CheckPassword sampleBcrypt "hunter3" "hunter2" = false ∧
    CheckPassword sampleBcrypt "" "" = true ∧
    sampleHash.length = 60 ∧
    CheckPassword sampleBcrypt "secret" sampleHash = true ∧
    CheckPassword sampleBcrypt sampleHash sampleHash = false :=
  have h1 := C22_check_password_plaintext_or_bcrypt sampleBcrypt "hunter2" "hunter2"
  have h2 := C22_check_password_plaintext_or_bcrypt sampleBcrypt "secret" sampleHash
  ⟨(h1.1 (Or.inl (by decide))).2 rfl, by decide, by decide, by decide,
    (h2.2.2.1 ⟨by decide, by decide⟩).2 (by decide), by decide⟩

/-- A split has at least one piece. -/
theorem splitCommaChars_ne_nil (cs : List Char) : splitCommaChars cs ≠ [] := by
  cases cs with
  | nil => simp [splitCommaChars]
  | cons c cs =>
    unfold splitCommaChars
    split
    · simp
    · split <;> simp

/-- Joining the pieces of a split with commas gives the text back. -/
theorem splitCommaChars_join (cs : List Char) :
    List.intercalate [','] (splitCommaChars cs) = cs := by
  induction cs with
  | nil => simp [splitCommaChars, List.intercalate]
  | cons c cs ih =>
    unfold splitCommaChars
    by_cases hc : c = ','
    · rw [if_pos hc]
      cases hs : splitCommaChars cs with
      | nil => exact absurd hs (splitCommaChars_ne_nil cs)
      | cons p ps =>
        rw [hs] at ih
        rw [hc, ← ih]
        simp [List.intercalate, List.intersperse]
    · rw [if_neg hc]
      cases hs : splitCommaChars cs with
      | nil => exact absurd hs (splitCommaChars_ne_nil cs)
      | cons p ps =>
        rw [hs] at ih
        simp only
        rw [← ih]
        cases ps <;> simp [List.intercalate, List.intersperse]

/-- No piece of a split holds a comma. -/
theorem splitCommaChars_no_comma (cs : List Char) :
    ∀ p ∈ splitCommaChars cs, ',' ∉ p := by
  induction cs with
  | nil => simp [splitCommaChars]
  | cons c cs ih =>
    unfold splitCommaChars
    by_cases hc : c = ','
    · rw [if_pos hc]
      intro p hp
      rcases List.mem_cons.1 hp with h | h
      · rw [h]; simp
      · exact ih p h
    · rw [if_neg hc]
      cases hs : splitCommaChars cs with
      | nil => exact absurd hs (splitCommaChars_ne_nil cs)
      | cons q qs =>
        rw [hs] at ih
        intro p hp
        rcases List.mem_cons.1 hp with h | h
        · rw [h]
          intro hm
          rcases List.mem_cons.1 hm with h1 | h1
          · exact hc h1.symm
          · exact ih q (List.mem_cons_self _ _) h1
        · exact ih p (List.mem_cons_of_mem _ h)

/-- The loop of `Send` when every delivery succeeds: no error, and a delivery
has been attempted to each non-blank trimmed part, in order. -/
theorem sendLoop_all_ok (deliver : Nat → String → String → Option String) (message : String) :
    ∀ (parts attempted : List String),
      (∀ k r, ((parts.map trimSpace).filter fun r => decide (r ≠ ""))[k]? = some r →
        deliver (attempted.length + k) r message = none) →
      sendLoop deliver message parts attempted =
        (none, attempted ++ (parts.map trimSpace).filter fun r => decide (r ≠ "")) := by
  intro parts
  induction parts with
  | nil => intro attempted _; simp [sendLoop]
  | cons p ps ih =>
    intro attempted h
    unfold sendLoop
    by_cases hp : trimSpace p = ""
    · simp only [hp, if_true]
      rw [ih attempted]
      · simp [hp]
      · intro k r hk
        apply h k r
        simpa [hp] using hk
    · have hfilter : ((p :: ps).map trimSpace).filter (fun r => decide (r ≠ "")) =
          trimSpace p :: (ps.map trimSpace).filter (fun r => decide (r ≠ "")) := by
        simp [hp]
      rw [hfilter] at h
      have h0 := h 0 (trimSpace p) (by simp)
      simp only [Nat.add_zero] at h0
      simp only [hp, if_false, h0]
      rw [ih (attempted ++ [trimSpace p])]
      · rw [hfilter]; simp
      · intro k r hk
        have := h (k + 1) r (by simpa using hk)
        simpa [Nat.add_assoc, Nat.add_comm 1 k] using this

/-- The loop of `Send` when the delivery with index `k` is the first to fail:
the error names that recipient, and the attempts end with it. -/
theorem sendLoop_first_fail (deliver : Nat → String → String → Option String) (message : String) :
    ∀ (parts attempted : List String) (k : Nat) (r e : String),
      ((parts.map trimSpace).filter fun r => decide (r ≠ ""))[k]? = some r →
      (∀ j x, j < k → ((parts.map trimSpace).filter fun r => decide (r ≠ ""))[j]? = some x →
        deliver (attempted.length + j) x message = none) →
      deliver (attempted.length + k) r message = some e →
      sendLoop deliver message parts attempted =
        (some ("发送给 " ++ r ++ " 失败: " ++ e),
          attempted ++ ((parts.map trimSpace).filter fun r => decide (r ≠ "")).take (k + 1)) := by
  intro parts
  induction parts with
  | nil => intro attempted k r e hk; simp at hk
  | cons p ps ih =>
    intro attempted k r e hk hbefore hfail
    unfold sendLoop
    by_cases hp : trimSpace p = ""
    · have hfilter : ((p :: ps).map trimSpace).filter (fun r => decide (r ≠ "")) =
          (ps.map trimSpace).filter (fun r => decide (r ≠ "")) := by
        simp [hp]
      rw [hfilter] at hk hbefore ⊢
      simp only [hp, if_true]
      exact ih attempted k r e hk hbefore hfail
    · have hfilter : ((p :: ps).map trimSpace).filter (fun r => decide (r ≠ "")) =
          trimSpace p :: (ps.map trimSpace).filter (fun r => decide (r ≠ "")) := by
        simp [hp]
      rw [hfilter] at hk hbefore ⊢
      cases k with
      | zero =>
        simp only [List.getElem?_cons_zero, Option.some.injEq] at hk
        rw [Nat.add_zero] at hfail
        rw [← hk] at hfail ⊢
        simp only [hp, if_false, hfail]
        simp
      | succ k =>
        have h0 := hbefore 0 (trimSpace p) (Nat.succ_pos k) (by simp)
        simp only [Nat.add_zero] at h0
        simp only [hp, if_false, h0]
        rw [ih (attempted ++ [trimSpace p]) k r e (by simpa using hk)]
        · simp
        · intro j x hj hx
          have := hbefore (j + 1) x (by omega) (by simpa using hx)
          simpa [Nat.add_assoc, Nat.add_comm 1 j] using this
        · simpa [Nat.add_assoc, Nat.add_comm 1 k] using hfail

/-- The method `Send` is its loop over the pieces of the `To` field. -/
theorem Send_eq_sendLoop (deliver : Nat → String → String → Option String) (s : Sender)
    (subject body : String) :
    s.Send deliver subject body =
      sendLoop deliver (smtpMessage subject body) (splitComma s.To) [] := rfl

/-- A `Send` call either delivers to every recipient or ends at the first
recipient whose delivery fails. -/
theorem Send_cases (deliver : Nat → String → String → Option String) (s : Sender)
    (subject body : String) :
    ((∀ k r, (recipientsOf s.To)[k]? = some r → deliver k r (smtpMessage subject body) = none) ∧
      s.Send deliver subject body = (none, recipientsOf s.To)) ∨
    (∃ k r e, (recipientsOf s.To)[k]? = some r ∧
      deliver k r (smtpMessage subject body) = some e ∧
      s.Send deliver subject body =
        (some ("发送给 " ++ r ++ " 失败: " ++ e), (recipientsOf s.To).take (k + 1))) := by
  by_cases hall : ∀ k r, (recipientsOf s.To)[k]? = some r →
      deliver k r (smtpMessage subject body) = none
  · left
    refine ⟨hall, ?_⟩
    rw [Send_eq_sendLoop, sendLoop_all_ok deliver _ (splitComma s.To) []]
    · simp [recipientsOf]
    · intro k r hk
      simpa using hall k r hk
  · right
    have hex : ∃ k, ∃ r, (recipientsOf s.To)[k]? = some r ∧
        deliver k r (smtpMessage subject body) ≠ none := by
      by_contra hne
      apply hall
      intro k r hk
      by_contra hd
      exact hne ⟨k, r, hk, hd⟩
    obtain ⟨r, hr, hd⟩ := Nat.find_spec hex
    obtain ⟨e, he⟩ := Option.ne_none_iff_exists'.1 hd
    refine ⟨Nat.find hex, r, e, hr, he, ?_⟩
    rw [Send_eq_sendLoop, sendLoop_first_fail deliver _ (splitComma s.To) [] (Nat.find hex) r e]
    · simp [recipientsOf]
    · exact hr
    · intro j x hj hx
      have hmin := Nat.find_min hex hj
      by_contra hd2
      exact hmin ⟨x, hx, by simpa using hd2⟩
    · simpa using he

/-- C26. `Sender.Send` splits the `To` field at commas (joining the pieces with
commas gives the field back, and no piece holds a comma), trims each part and
skips blank parts: `recipientsOf` lists what remains. Delivery is attempted to
these recipients from left to right, so the attempted recipients are an
initial segment of that list. If the delivery with index `k` is the first to
fail, `Send` returns an error naming that recipient and the attempts end with
it: later recipients are not attempted. If every delivery succeeds, `Send`
returns success after an attempt to every recipient. `Send` returns success
exactly when every attempted delivery succeeded. For a `To` field with no
non-blank part it returns success after zero delivery attempts, and
`sendAlertMail` then marks the alert record as notified and goes on to
`UpdateAlertStatus`, without any delivery attempt in between. -/
theorem C26_send_recipients (deliver : Nat → String → String → Option String) (s : Sender)
    (subject body : String) (lib : StdLib) (cfg : Config) (env : AlertEnv) (w : World)
    (alert : Alert) (agent : Agent) :
    (List.intercalate [','] ((splitComma s.To).map String.data) = s.To.data ∧
      ∀ p ∈ splitComma s.To, ',' ∉ p.data) ∧
    (∃ n, n ≤ (recipientsOf s.To).length ∧
      (s.Send deliver subject body).2 = (recipientsOf s.To).take n) ∧
    (∀ k r e, (recipientsOf s.To)[k]? = some r →
      (∀ j x, j < k → (recipientsOf s.To)[j]? = some x →
        deliver j x (smtpMessage subject body) = none) →
      deliver k r (smtpMessage subject body) = some e →
      s.Send deliver subject body =
        (some ("发送给 " ++ r ++ " 失败: " ++ e), (recipientsOf s.To).take (k + 1))) ∧
    ((∀ k r, (recipientsOf s.To)[k]? = some r →
        deliver k r (smtpMessage subject body) = none) →
      s.Send deliver subject body = (none, recipientsOf s.To)) ∧
    ((s.Send deliver subject body).1 = none ↔
      ∀ k r, (s.Send deliver subject body).2[k]? = some r →
        deliver k r (smtpMessage subject body) = none) ∧
    (recipientsOf s.To = [] → s.Send deliver subject body = (none, [])) ∧
    (recipientsOf cfg.Mail.To = [] →
      (sendAlertMail lib cfg env w alert agent).2 = { alert with Notified := true } ∧
      (sendAlertMail lib cfg env w alert agent).1.trace =
        w.trace ++ [Event.send (mailSubject cfg alert agent) (mailBody lib alert agent),
          Event.updateAlertStatus alert.ID AlertPending]) := by
  have hall : (∀ k r, (recipientsOf s.To)[k]? = some r →
        deliver k r (smtpMessage subject body) = none) →
      s.Send deliver subject body = (none, recipientsOf s.To) := by
    intro h
    rw [Send_eq_sendLoop, sendLoop_all_ok deliver _ (splitComma s.To) []]
    · simp [recipientsOf]
    · intro k r hk
      simpa using h k r hk
  have hempty : ∀ (d : Nat → String → String → Option String) (t : Sender) (a b : String),
      recipientsOf t.To = [] → t.Send d a b = (none, []) := by
    intro d t a b h
    rw [Send_eq_sendLoop, sendLoop_all_ok d _ (splitComma t.To) []]
    · have h2 : List.filter (fun r => decide (r ≠ "")) (List.map trimSpace (splitComma t.To)) =
          [] := h
      rw [h2]
      rfl
    · intro k r hk
      have h2 : List.filter (fun r => decide (r ≠ "")) (List.map trimSpace (splitComma t.To)) =
          [] := h
      rw [h2] at hk
      simp at hk
  refine ⟨⟨?_, ?_⟩, ?_, ?_, hall, ?_, hempty deliver s subject body, ?_⟩
  · have h := splitCommaChars_join s.To.data
    unfold splitComma
    rw [List.map_map]
    have hid : (String.data ∘ String.mk) = fun x => x := rfl
    rw [hid, List.map_id']
    exact h
  · intro p hp
    unfold splitComma at hp
    obtain ⟨q, hq, rfl⟩ := List.mem_map.1 hp
    exact splitCommaChars_no_comma s.To.data q hq
  · rcases Send_cases deliver s subject body with ⟨_, h⟩ | ⟨k, r, e, hk, _, h⟩
    · exact ⟨(recipientsOf s.To).length, le_refl _, by rw [h]; simp⟩
    · refine ⟨k + 1, ?_, by rw [h]⟩
      have := (List.getElem?_eq_some.1 hk).1
      omega
  · intro k r e hk hbefore hfail
    rw [Send_eq_sendLoop, sendLoop_first_fail deliver _ (splitComma s.To) [] k r e]
    · simp [recipientsOf]
    · exact hk
    · intro j x hj hx
      simpa using hbefore j x hj hx
    · simpa using hfail
  · rcases Send_cases deliver s subject body with ⟨hok, h⟩ | ⟨k, r, e, hk, hd, h⟩
    · rw [h]
      exact ⟨fun _ => hok, fun _ => rfl⟩
    · rw [h]
      constructor
      · intro hn
        cases hn
      · intro hok
        have hlt : k < (recipientsOf s.To).length := (List.getElem?_eq_some.1 hk).1
        have hk2 : ((recipientsOf s.To).take (k + 1))[k]? = some r := by
          rw [List.getElem?_take_of_lt (Nat.lt_succ_self k)]
          exact hk
        have := hok k r hk2
        rw [hd] at this
        cases this
  · intro hto
    have hs := hempty env.deliver
      (NewSender cfg.Mail.Host cfg.Mail.Port cfg.Mail.User cfg.Mail.Pass cfg.Mail.To)
      (mailSubject cfg alert agent) (mailBody lib alert agent) hto
    unfold sendAlertMail
    simp only [hs]
    simp

/-- C26 at the field `a@x.org, b@x.org , ,c@x.org` with a server that refuses
the second delivery: the attempts are `a@x.org` and `b@x.org`, the error names
`b@x.org`, and `c@x.org` is not attempted. With the blank field of
`sampleConfigBlankTo` the alert is marked notified although the server
refuses every delivery. -/
theorem C26_send_recipients_witness :
    recipientsOf "a@x.org, b@x.org , ,c@x.org" = ["a@x.org", "b@x.org", "c@x.org"] ∧
    (Sender.Send sampleSecondDown { To := "a@x.org, b@x.org , ,c@x.org" } "s" "b") =
      (some "发送给 b@x.org 失败: 认证失败: 535 authentication failed", ["a@x.org", "b@x.org"]) ∧
    recipientsOf sampleConfigBlankTo.Mail.To = [] ∧
    (sendAlertMail sampleLib sampleConfigBlankTo sampleMailDownEnv {} { ID := 1 }
      sampleAgent).2.Notified = true :=
  have h := C26_send_recipients sampleSecondDown { To := "a@x.org, b@x.org , ,c@x.org" } "s" "b"
    sampleLib sampleConfigBlankTo sampleMailDownEnv {} { ID := 1 } sampleAgent
  have hto : recipientsOf sampleConfigBlankTo.Mail.To = [] := by decide
  ⟨by decide,
   h.2.2.1 1 "b@x.org" "认证失败: 535 authentication failed" (by decide)
     (fun j x hj hx => by
       have h0 : j = 0 := by omega
       subst h0
       rfl)
     rfl,
   hto, by rw [(h.2.2.2.2.2.2 hto).1]⟩

/-- The character of a decimal digit stands for that digit. -/
theorem digitChar_value : ∀ k, k < 10 → (Nat.digitChar k).toNat - 48 = k := by decide

/-- The character of a decimal digit is not the dash. -/
theorem digitChar_ne_dash : ∀ k, k < 10 → Nat.digitChar k ≠ '-' := by decide

/-- Reading back the digits that the formatter puts in front of `ds` gives the
number, then goes on through `ds`. -/
theorem toDigitsCore_value (fuel : Nat) :
    ∀ (n : Nat) (ds : List Char), n < fuel →
      (Nat.toDigitsCore 10 fuel n ds).foldl (fun acc c => 10 * acc + (c.toNat - 48)) 0 =
        ds.foldl (fun acc c => 10 * acc + (c.toNat - 48)) n := by
  induction fuel with
  | zero => intro n ds h; omega
  | succ f ih =>
    intro n ds h
    have hd := digitChar_value (n % 10) (Nat.mod_lt n (by decide))
    unfold Nat.toDigitsCore
    simp only
    by_cases h0 : n / 10 = 0
    · rw [if_pos h0]
      simp only [List.foldl_cons, hd]
      have : 10 * 0 + n % 10 = n := by omega
      rw [this]
    · rw [if_neg h0]
      rw [ih (n / 10) _ (by omega)]
      simp only [List.foldl_cons, hd]
      have : 10 * (n / 10) + n % 10 = n := by omega
      rw [this]

/-- The formatter writes no dash. -/
theorem toDigitsCore_no_dash (fuel : Nat) :
    ∀ (n : Nat) (ds : List Char), '-' ∉ ds → '-' ∉ Nat.toDigitsCore 10 fuel n ds := by
  induction fuel with
  | zero => intro n ds h; exact h
  | succ f ih =>
    intro n ds h
    have hd := digitChar_ne_dash (n % 10) (Nat.mod_lt n (by decide))
    have hcons : '-' ∉ Nat.digitChar (n % 10) :: ds := by
      intro hm
      rcases List.mem_cons.1 hm with h1 | h1
      · exact hd h1.symm
      · exact h h1
    unfold Nat.toDigitsCore
    simp only
    split
    · exact hcons
    · exact ih _ _ hcons

/-- The decimal text of a number reads back as that number. -/
theorem decimalValue_toDigits (n : Nat) : decimalValue (Nat.toDigits 10 n) = n := by
  unfold decimalValue Nat.toDigits
  rw [toDigitsCore_value (n + 1) n [] (Nat.lt_succ_self n)]
  rfl

/-- Two texts that agree and are each cut at the first occurrence of `c` have
the same part before it and the same part after it. -/
theorem append_cons_cancel (c : Char) :
    ∀ (xs xs2 ys ys2 : List Char), c ∉ xs → c ∉ xs2 → xs ++ c :: ys = xs2 ++ c :: ys2 →
      xs = xs2 ∧ ys = ys2 := by
  intro xs
  induction xs with
  | nil =>
    intro xs2 ys ys2 _ h2 h
    cases xs2 with
    | nil =>
      simp only [List.nil_append, List.cons.injEq, true_and] at h
      exact ⟨rfl, h⟩
    | cons x xs2 =>
      simp only [List.nil_append, List.cons_append, List.cons.injEq] at h
      exact absurd (h.1 ▸ List.mem_cons_self _ _) h2
  | cons x xs ih =>
    intro xs2 ys ys2 h1 h2 h
    cases xs2 with
    | nil =>
      simp only [List.nil_append, List.cons_append, List.cons.injEq] at h
      exact absurd (h.1 ▸ List.mem_cons_self _ _) h1
    | cons y xs2 =>
      simp only [List.cons_append, List.cons.injEq] at h
      obtain ⟨hxy, hrest⟩ := h
      obtain ⟨ha, hb⟩ := ih xs2 ys ys2 (fun hm => h1 (List.mem_cons_of_mem _ hm))
        (fun hm => h2 (List.mem_cons_of_mem _ hm)) hrest
      exact ⟨by rw [hxy, ha], hb⟩

/-- The characters of a cooldown key: the decimal digits of the agent ID, a
dash, the level. -/
theorem cooldownKey_data (a : Nat) (l : InspectionLevel) :
    (cooldownKey a l).data = Nat.toDigits 10 a ++ '-' :: l.data := by
  show (toString a ++ "-" ++ l).data = _
  simp only [String.data_append]
  rw [List.append_assoc]
  rfl

/-- Equal cooldown keys come from the same agent ID and the same level. -/
theorem cooldownKey_injective (a b : Nat) (l l2 : InspectionLevel)
    (h : cooldownKey a l = cooldownKey b l2) : a = b ∧ l = l2 := by
  have hd : (cooldownKey a l).data = (cooldownKey b l2).data := by rw [h]
  rw [cooldownKey_data, cooldownKey_data] at hd
  obtain ⟨h1, h2⟩ := append_cons_cancel '-' _ _ _ _
    (toDigitsCore_no_dash _ _ _ (List.not_mem_nil _))
    (toDigitsCore_no_dash _ _ _ (List.not_mem_nil _)) hd
  constructor
  · have h3 : decimalValue (Nat.toDigits 10 a) = decimalValue (Nat.toDigits 10 b) :=
      congrArg decimalValue h1
    rw [decimalValue_toDigits, decimalValue_toDigits] at h3
    exact h3
  · exact String.ext h2

/-- A `canSendAlert` call leaves the entry of every key other than its own as
it was. -/
theorem canSendAlert_other_key (d : Int) (m : CooldownMap) (a : Nat) (l : InspectionLevel)
    (s n : Int) (k : String) (hk : k ≠ cooldownKey a l) :
    (canSendAlert d m a l s n).2 k = m k := by
  unfold canSendAlert
  simp only
  split
  · split
    · rfl
    · simp [CooldownMap.set, hk]
  · simp [CooldownMap.set, hk]

/-- The decision of a `canSendAlert` call, and the entry it leaves under its
key, depend on the map only through the entry of that key. -/
theorem canSendAlert_congr (d : Int) (m m2 : CooldownMap) (a : Nat) (l : InspectionLevel)
    (s n : Int) (h : m2 (cooldownKey a l) = m (cooldownKey a l)) :
    (canSendAlert d m2 a l s n).1 = (canSendAlert d m a l s n).1 ∧
    (canSendAlert d m2 a l s n).2 (cooldownKey a l) =
      (canSendAlert d m a l s n).2 (cooldownKey a l) := by
  unfold canSendAlert
  simp only [h]
  split
  · split
    · exact ⟨rfl, h⟩
    · simp [CooldownMap.set]
  · simp [CooldownMap.set]

/-- C25. Cooldown keys do not collide. The key built from (agentID, level) as
the decimal ID, a dash and the level is injective: two pairs give the same key
if and only if they have the same agent ID and the same level string, also
when the level string itself contains a dash. Therefore a `canSendAlert` call
for one pair never changes the cooldown entry of any other pair, and never
changes the decision (or the entry written) of a later call for any other
pair: that call decides as it would have decided without the first call. -/
theorem C25_cooldown_keys_do_not_collide (a b : Nat) (l l2 : InspectionLevel) (d : Int)
    (m : CooldownMap) (s n s2 n2 : Int) :
    (cooldownKey a l = cooldownKey b l2 ↔ a = b ∧ l = l2) ∧
    ((a ≠ b ∨ l ≠ l2) →
      cooldownKey a l ≠ cooldownKey b l2 ∧
      (canSendAlert d m a l s n).2 (cooldownKey b l2) = m (cooldownKey b l2) ∧
      (canSendAlert d (canSendAlert d m a l s n).2 b l2 s2 n2).1 =
        (canSendAlert d m b l2 s2 n2).1 ∧
      (canSendAlert d (canSendAlert d m a l s n).2 b l2 s2 n2).2 (cooldownKey b l2) =
        (canSendAlert d m b l2 s2 n2).2 (cooldownKey b l2)) := by
  constructor
  · constructor
    · exact cooldownKey_injective a b l l2
    · rintro ⟨h1, h2⟩
      rw [h1, h2]
  · intro hne
    have hkey : cooldownKey b l2 ≠ cooldownKey a l := by
      intro h
      obtain ⟨h1, h2⟩ := cooldownKey_injective b a l2 l h
      rcases hne with h3 | h3
      · exact h3 h1.symm
      · exact h3 h2.symm
    have hframe := canSendAlert_other_key d m a l s n (cooldownKey b l2) hkey
    have hc := canSendAlert_congr d m (canSendAlert d m a l s n).2 b l2 s2 n2 hframe
    exact ⟨fun h => hkey h.symm, hframe, hc.1, hc.2⟩

/-- C25 at the pairs (1, `2-CRITICAL`) and (12, `CRITICAL`), whose keys
`1-2-CRITICAL` and `12-CRITICAL` differ although the level of the first holds a
dash: a call for the first pair does not put the second into cooldown. -/
theorem C25_cooldown_keys_do_not_collide_witness :
    cooldownKey 1 "2-CRITICAL" = "1-2-CRITICAL" ∧
    cooldownKey 12 "CRITICAL" = "12-CRITICAL" ∧
    cooldownKey 1 "2-CRITICAL" ≠ cooldownKey 12 "CRITICAL" ∧
    (canSendAlert 300 (canSendAlert 300 emptyCooldown 1 "2-CRITICAL" 0 0).2 12 "CRITICAL"
      100 100).1 = true :=
  have h := (C25_cooldown_keys_do_not_collide 1 12 "2-CRITICAL" "CRITICAL" 300 emptyCooldown
    0 0 100 100).2 (Or.inl (by decide))
  ⟨by decide, by decide, h.1, by rw [h.2.2.1]; rfl⟩

/-- C21 at a cooldown of 300 and an entry written at time 0: a call that
reads the clock at 299 is refused and leaves the map as it is, a call at
exactly 300 is allowed and stores its time, and a call on the empty map is
allowed. -/
theorem C21_exact_cooldown_decision_witness :
    (canSendAlert 300 (emptyCooldown.set (cooldownKey 7 LevelCritical) 0) 7 LevelCritical
      299 299).1 = false ∧
    (canSendAlert 300 (emptyCooldown.set (cooldownKey 7 LevelCritical) 0) 7 LevelCritical
      300 300).1 = true ∧
    (canSendAlert 300 (emptyCooldown.set (cooldownKey 7 LevelCritical) 0) 7 LevelCritical
      300 300).2 (cooldownKey 7 LevelCritical) = some 300 ∧
    (canSendAlert 300 emptyCooldown 7 LevelCritical 0 0).1 = true :=
  have hentry : (emptyCooldown.set (cooldownKey 7 LevelCritical) 0) (cooldownKey 7 LevelCritical) =
      some 0 := by simp [CooldownMap.set]
  have h1 := C21_exact_cooldown_decision 300
    (emptyCooldown.set (cooldownKey 7 LevelCritical) 0) 7 LevelCritical 299 299
  have h2 := C21_exact_cooldown_decision 300
    (emptyCooldown.set (cooldownKey 7 LevelCritical) 0) 7 LevelCritical 300 300
  have h3 := C21_exact_cooldown_decision 300 emptyCooldown 7 LevelCritical 0 0
  have h2t := h2.2.2.2.2.2 0 hentry (by decide)
  ⟨h1.1.2 ⟨0, hentry, by decide⟩, h2t, (h2.2.2.1 h2t).2.1, h3.2.2.2.1 rfl⟩

/-- With a capacity of 0 or less no move of a freshly launched cycle goes
through: the send on the semaphore is refused and no task is ready for
anything else. -/
theorem Cycle.step_blocked (capacity : Int) (m : Nat) (h : capacity ≤ 0) (a : TaskStep) :
    (Cycle.launched capacity m).step a = Cycle.launched capacity m := by
  have hget : ∀ (i : Nat) (ph : TaskPhase), (Cycle.launched capacity m).tasks[i]? = some ph →
      ph = TaskPhase.waiting := by
    intro i ph hi
    obtain ⟨hlt, hx⟩ := List.getElem?_eq_some.1 hi
    have hmem : ph ∈ (Cycle.launched capacity m).tasks := hx ▸ List.getElem_mem hlt
    exact List.eq_of_mem_replicate hmem
  have hsem : ¬ (((Cycle.launched capacity m).semaphore : Int) < (Cycle.launched capacity m).capacity) := by
    show ¬ (((0 : Nat) : Int) < capacity)
    simp only [Nat.cast_zero]
    omega
  cases a with
  | acquire i =>
    simp only [Cycle.step]
    rw [if_neg (fun hg => hsem hg.2)]
  | beginPull i =>
    simp only [Cycle.step]
    rw [if_neg (fun hg => by cases hget i _ hg)]
  | endPull i =>
    simp only [Cycle.step]
    rw [if_neg (fun hg => by cases hget i _ hg)]
  | release i =>
    simp only [Cycle.step]
    rw [if_neg (fun hg => by cases hget i _ hg)]

/-- With a capacity of 0 or less every task stays blocked on the semaphore,
whatever the schedule. -/
theorem Cycle.run_blocked (capacity : Int) (m : Nat) (h : capacity ≤ 0) :
    ∀ schedule : List TaskStep,
      (Cycle.launched capacity m).run schedule = Cycle.launched capacity m := by
  intro schedule
  induction schedule with
  | nil => rfl
  | cons a rest ih =>
    show ((Cycle.launched capacity m).step a).run rest = _
    rw [Cycle.step_blocked capacity m h a, ih]

/-- With a capacity of at least 1 the semaphore never deadlocks: in a state
whose buffered values are the slots held, as long as some task has not
returned, some move goes through. -/
theorem Cycle.step_enabled (c : Cycle) (hcap : 1 ≤ c.capacity)
    (hinv : c.slotsHeld = c.semaphore)
    (hopen : ∃ (i : Nat) (ph : TaskPhase), c.tasks[i]? = some ph ∧ ph ≠ TaskPhase.finished) :
    ∃ a, c.step a ≠ c := by
  by_cases hslot : ∃ (i : Nat) (ph : TaskPhase), c.tasks[i]? = some ph ∧ ph.hasSlot = true
  · obtain ⟨i, ph, hi, hs⟩ := hslot
    have hlt : i < c.tasks.length := (List.getElem?_eq_some.1 hi).1
    cases ph with
    | waiting => cases hs
    | finished => cases hs
    | holding =>
      refine ⟨TaskStep.beginPull i, ?_⟩
      simp only [Cycle.step]
      rw [if_pos hi]
      intro heq
      have h2 := congrArg (fun x => x.tasks[i]?) heq
      simp only [List.getElem?_set_self hlt, hi] at h2
      cases h2
    | pulling =>
      refine ⟨TaskStep.endPull i, ?_⟩
      simp only [Cycle.step]
      rw [if_pos hi]
      intro heq
      have h2 := congrArg (fun x => x.tasks[i]?) heq
      simp only [List.getElem?_set_self hlt, hi] at h2
      cases h2
  · have hzero : c.slotsHeld = 0 := by
      unfold Cycle.slotsHeld
      rw [List.countP_eq_zero]
      intro x hx hs
      obtain ⟨i, hi, hxi⟩ := List.mem_iff_getElem.1 hx
      exact hslot ⟨i, x, by rw [List.getElem?_eq_getElem hi, hxi], hs⟩
    obtain ⟨i, ph, hi, hne⟩ := hopen
    have hlt : i < c.tasks.length := (List.getElem?_eq_some.1 hi).1
    have hw : ph = TaskPhase.waiting := by
      cases ph with
      | waiting => rfl
      | finished => exact absurd rfl hne
      | holding => exact absurd ⟨i, _, hi, rfl⟩ hslot
      | pulling => exact absurd ⟨i, _, hi, rfl⟩ hslot
    subst hw
    refine ⟨TaskStep.acquire i, ?_⟩
    have hsem : (c.semaphore : Int) < c.capacity := by
      rw [← hinv, hzero]
      simp only [Nat.cast_zero]
      omega
    simp only [Cycle.step]
    rw [if_pos ⟨hi, hsem⟩]
    intro heq
    have h2 := congrArg (fun x => x.tasks[i]?) heq
    simp only [List.getElem?_set_self hlt, hi] at h2
    cases h2

/-- Running a schedule in two parts. -/
theorem Cycle.run_append (c : Cycle) (xs ys : List TaskStep) :
    c.run (xs ++ ys) = (c.run xs).run ys := by
  induction xs generalizing c with
  | nil => rfl
  | cons x xs ih => exact ih (c.step x)

/-- With a capacity of at least 1, running the waiting tasks one after another
brings each of them to its end and leaves the semaphore empty. -/
theorem Cycle.oneByOne_finishes (capacity : Int) (hcap : 1 ≤ capacity) :
    ∀ (r : Nat) (pre : List TaskPhase),
      (Cycle.mk capacity 0 (pre ++ List.replicate r TaskPhase.waiting)).run
          (Cycle.oneByOne pre.length r) =
        Cycle.mk capacity 0 (pre ++ List.replicate r TaskPhase.finished) := by
  intro r
  induction r with
  | zero => intro pre; rfl
  | succ r ih =>
    intro pre
    have hsched : Cycle.oneByOne pre.length (r + 1) =
        [TaskStep.acquire pre.length, TaskStep.beginPull pre.length,
         TaskStep.endPull pre.length, TaskStep.release pre.length] ++
          Cycle.oneByOne (pre ++ [TaskPhase.finished]).length r := by
      simp [Cycle.oneByOne, List.range'_succ]
    have hget : ∀ (x : TaskPhase) (rest : List TaskPhase),
        (pre ++ x :: rest)[pre.length]? = some x := by
      intro x rest
      rw [List.getElem?_append_right (le_refl _)]
      simp
    have hset : ∀ (x y : TaskPhase) (rest : List TaskPhase),
        (pre ++ x :: rest).set pre.length y = pre ++ y :: rest := by
      intro x y rest
      simp
    have h0 : ((0 : Nat) : Int) < capacity := by
      simp only [Nat.cast_zero]
      omega
    rw [hsched, Cycle.run_append]
    have hfour : (Cycle.mk capacity 0 (pre ++ List.replicate (r + 1) TaskPhase.waiting)).run
        [TaskStep.acquire pre.length, TaskStep.beginPull pre.length,
         TaskStep.endPull pre.length, TaskStep.release pre.length] =
        Cycle.mk capacity 0 ((pre ++ [TaskPhase.finished]) ++ List.replicate r TaskPhase.waiting) := by
      simp only [List.replicate_succ, Cycle.run, Cycle.step, hget, hset, h0, and_self, if_true]
      simp
    rw [hfour, ih (pre ++ [TaskPhase.finished])]
    simp [List.replicate_succ]

/-- With a capacity of at least 1 the tasks of a freshly launched cycle can all
run to their end. -/
theorem Cycle.launched_can_finish (capacity : Int) (hcap : 1 ≤ capacity) (m : Nat) :
    ((Cycle.launched capacity m).run (Cycle.oneByOne 0 m)).tasks =
      List.replicate m TaskPhase.finished := by
  have h := Cycle.oneByOne_finishes capacity hcap m []
  simp only [List.length_nil, List.nil_append] at h
  show ((Cycle.mk capacity 0 (List.replicate m TaskPhase.waiting)).run (Cycle.oneByOne 0 m)).tasks = _
  rw [h]

/-- A freshly launched cycle with a capacity of 0 or more holds no slot and
has nothing buffered. -/
theorem Cycle.launched_invariant (capacity : Int) (m : Nat) (h : 0 ≤ capacity) :
    (Cycle.launched capacity m).slotsHeld = (Cycle.launched capacity m).semaphore ∧
      ((Cycle.launched capacity m).semaphore : Int) ≤ (Cycle.launched capacity m).capacity := by
  constructor
  · simp only [Cycle.launched, Cycle.slotsHeld]
    rw [List.countP_eq_zero]
    intro a ha
    rw [List.eq_of_mem_replicate ha]
    decide
  · show ((0 : Nat) : Int) ≤ capacity
    simpa using h

/-- C6 as stated fails when the semaphore has no capacity. With `max_concurrent`
set to 0 and three active agents, every task blocks on its send on the
semaphore, whatever the scheduler does: no task probes, no task sends a
result, and `processResults` never returns, so no report is made. With
`max_concurrent` set to -1 the cycle panics when it creates the semaphore. -/
theorem C6_counterexample :
    sampleConfigNoSlots.Check.MaxConcurrent = 0 ∧
    (sampleWorld.db.agents.filter fun a => a.Enabled).length = 3 ∧
    (batchCheck sampleLib sampleConfigNoSlots sampleCycleEnv sampleWorld).2.1 =
      CycleOutcome.blocked ∧
    (batchCheck sampleLib sampleConfigNoSlots sampleCycleEnv sampleWorld).2.2.map sendCount =
      [0, 0, 0] ∧
    (Cycle.launched sampleConfigNoSlots.Check.MaxConcurrent 3).run
        [TaskStep.acquire 0, TaskStep.acquire 1, TaskStep.acquire 2, TaskStep.beginPull 0] =
      Cycle.launched sampleConfigNoSlots.Check.MaxConcurrent 3 ∧
    (batchCheck sampleLib sampleConfigNegativeSlots sampleCycleEnv sampleWorld).2.1 =
      CycleOutcome.panicked "makechan: size out of range" := by
  decide

/-- C6 (amended). Take an inventory with at least one enabled agent, any
behaviour of the prober and of the repository, and a channel that may deliver
the sent results in any order. (1) With `maxConcurrent ≥ 1`: `batchCheck`
launches one task per active agent, each task sends exactly one result, and
the cycle ends with a report whose total, `successCount + failedCount`, is the
number of active agents; the semaphore never deadlocks (in every state a
schedule can reach, some move goes through as long as a task has not
returned) and the tasks can all run to their end. (2) With `maxConcurrent = 0`
every task stays blocked on the semaphore under every schedule: no task
probes or sends, the state is untouched and `processResults` never returns.
(3) With `maxConcurrent < 0` the cycle panics when it creates the semaphore,
before any task is launched. -/
theorem C6_no_silent_drops (lib : StdLib) (cfg : Config) (env : CycleEnv) (w : World)
    (hquery : env.getActiveAgents = none)
    (hne : (w.db.agents.filter fun a => a.Enabled) ≠ [])
    (harrival : ∀ l, (env.arrival l).Perm l) :
    (1 ≤ cfg.Check.MaxConcurrent →
      (batchCheck lib cfg env w).2.2.length = (w.db.agents.filter fun a => a.Enabled).length ∧
      (∀ t ∈ (batchCheck lib cfg env w).2.2, sendCount t = 1) ∧
      (∃ report, (batchCheck lib cfg env w).2.1 = CycleOutcome.done report ∧
        report.total = (w.db.agents.filter fun a => a.Enabled).length ∧
        report.success + report.failed = (w.db.agents.filter fun a => a.Enabled).length) ∧
      (∀ schedule : List TaskStep,
        (∃ (i : Nat) (ph : TaskPhase),
          ((Cycle.launched cfg.Check.MaxConcurrent
            (w.db.agents.filter fun a => a.Enabled).length).run schedule).tasks[i]? = some ph ∧
          ph ≠ TaskPhase.finished) →
        ∃ a, ((Cycle.launched cfg.Check.MaxConcurrent
            (w.db.agents.filter fun a => a.Enabled).length).run schedule).step a ≠
          (Cycle.launched cfg.Check.MaxConcurrent
            (w.db.agents.filter fun a => a.Enabled).length).run schedule) ∧
      ((Cycle.launched cfg.Check.MaxConcurrent
          (w.db.agents.filter fun a => a.Enabled).length).run
          (Cycle.oneByOne 0 (w.db.agents.filter fun a => a.Enabled).length)).tasks =
        List.replicate (w.db.agents.filter fun a => a.Enabled).length TaskPhase.finished) ∧
    (cfg.Check.MaxConcurrent = 0 →
      (batchCheck lib cfg env w).2.1 = CycleOutcome.blocked ∧
      (batchCheck lib cfg env w).1 = w ∧
      (batchCheck lib cfg env w).2.2.length = (w.db.agents.filter fun a => a.Enabled).length ∧
      (∀ t ∈ (batchCheck lib cfg env w).2.2, t = []) ∧
      ∀ schedule : List TaskStep,
        (Cycle.launched cfg.Check.MaxConcurrent
          (w.db.agents.filter fun a => a.Enabled).length).run schedule =
        Cycle.launched cfg.Check.MaxConcurrent (w.db.agents.filter fun a => a.Enabled).length) ∧
    (cfg.Check.MaxConcurrent < 0 →
      (batchCheck lib cfg env w).2.1 = CycleOutcome.panicked "makechan: size out of range" ∧
      (batchCheck lib cfg env w).1 = w ∧
      (batchCheck lib cfg env w).2.2 = []) := by
  have hlen : ¬ ((w.db.agents.filter fun a => a.Enabled).length = 0) := by
    intro h
    exact hne (List.length_eq_zero.mp h)
  refine ⟨?_, ?_, ?_⟩
  · intro hk
    have hneg : ¬ (cfg.Check.MaxConcurrent < 0) := by omega
    have hzero : ¬ (cfg.Check.MaxConcurrent = 0) := by omega
    obtain ⟨hl1, hl2⟩ := launch_facts lib cfg env.probe (w.db.agents.filter fun a => a.Enabled) 0
    have hcount := processResultsFrom_count lib cfg env.result
      (env.arrival ((launch lib cfg env.probe 0 (w.db.agents.filter fun a => a.Enabled)).map
        Prod.fst)) 0 (w, {})
    have hperm := (harrival ((launch lib cfg env.probe 0
      (w.db.agents.filter fun a => a.Enabled)).map Prod.fst)).length_eq
    simp only [List.length_map, hl1] at hperm
    rw [hperm] at hcount
    have hbc : batchCheck lib cfg env w =
        ((processResults lib cfg env.result w (env.arrival ((launch lib cfg env.probe 0
            (w.db.agents.filter fun a => a.Enabled)).map Prod.fst))).1,
          CycleOutcome.done (processResults lib cfg env.result w (env.arrival
            ((launch lib cfg env.probe 0 (w.db.agents.filter fun a => a.Enabled)).map
              Prod.fst))).2,
          (launch lib cfg env.probe 0 (w.db.agents.filter fun a => a.Enabled)).map Prod.snd) := by
      unfold batchCheck GetActiveAgents
      simp only [hquery, hlen, hneg, hzero, if_false]
    rw [hbc]
    refine ⟨by simp [hl1], hl2, ⟨_, rfl, ?_, ?_⟩, ?_, ?_⟩
    · simp only [processResults]
      simpa using hcount
    · simp only [processResults]
      simpa using hcount
    · intro schedule hopen
      obtain ⟨r1, _, r3⟩ := Cycle.run_invariant schedule
        (Cycle.launched cfg.Check.MaxConcurrent (w.db.agents.filter fun a => a.Enabled).length)
        (Cycle.launched_invariant _ _ (by omega))
      exact Cycle.step_enabled _ (by rw [r3]; exact hk) r1 hopen
    · exact Cycle.launched_can_finish _ hk _
  · intro hk
    have hneg : ¬ (cfg.Check.MaxConcurrent < 0) := by omega
    have hbc : batchCheck lib cfg env w =
        (w, CycleOutcome.blocked, (w.db.agents.filter fun a => a.Enabled).map fun _ => []) := by
      unfold batchCheck GetActiveAgents
      simp only [hquery, hlen, if_false]
      rw [if_neg hneg, if_pos hk]
    rw [hbc]
    refine ⟨rfl, rfl, by simp, ?_, ?_⟩
    · intro t ht
      simp only [List.mem_map] at ht
      obtain ⟨_, _, h⟩ := ht
      exact h.symm
    · intro schedule
      exact Cycle.run_blocked _ _ (by omega) schedule
  · intro hk
    have hbc : batchCheck lib cfg env w =
        (w, CycleOutcome.panicked "makechan: size out of range", []) := by
      unfold batchCheck GetActiveAgents
      simp only [hquery, hlen, hk, if_false, if_true]
    rw [hbc]
    exact ⟨rfl, rfl, rfl⟩

/-- C6 (amended) on an inventory with three enabled nodes, one of which fails
on every attempt, the results arriving in reverse order: with two slots,
three tasks and three results counted; with no slot, the cycle is blocked. -/
theorem C6_no_silent_drops_witness :
    (1 : Int) ≤ sampleConfig.Check.MaxConcurrent ∧
    (sampleWorld.db.agents.filter fun a => a.Enabled).length = 3 ∧
    (batchCheck sampleLib sampleConfig sampleCycleEnv sampleWorld).2.2.length =
      (sampleWorld.db.agents.filter fun a => a.Enabled).length ∧
    (∃ report, (batchCheck sampleLib sampleConfig sampleCycleEnv sampleWorld).2.1 =
        CycleOutcome.done report ∧
      report.total = (sampleWorld.db.agents.filter fun a => a.Enabled).length ∧
      report.success + report.failed =
        (sampleWorld.db.agents.filter fun a => a.Enabled).length) ∧
    (batchCheck sampleLib sampleConfig sampleCycleEnv sampleWorld).2.1 =
      CycleOutcome.done { total := 3, success := 2, failed := 1 } ∧
    (batchCheck sampleLib sampleConfigNoSlots sampleCycleEnv sampleWorld).2.1 =
      CycleOutcome.blocked :=
  have h := C6_no_silent_drops sampleLib sampleConfig sampleCycleEnv sampleWorld rfl
    (by decide) (fun l => List.reverse_perm l)
  have g := C6_no_silent_drops sampleLib sampleConfigNoSlots sampleCycleEnv sampleWorld rfl
    (by decide) (fun l => List.reverse_perm l)
  have hk : (1 : Int) ≤ sampleConfig.Check.MaxConcurrent := by decide
  ⟨hk, by decide, (h.1 hk).1, (h.1 hk).2.2.1, by decide, (g.2.1 rfl).1⟩

end CyberInspector
